import Mathlib

/-!
# Murxla: the Bitwuzla solver wrapper (`src/bzla_solver.cpp`)

A shallow embedding of the Bitwuzla backend of the Murxla API fuzzer.

* Pointers into backend memory are natural numbers, `0` being the null pointer.
* `shared_ptr<AbsSort>` / `shared_ptr<AbsTerm>` are options over a sum of the
  Bitwuzla wrapper class and "any other class", so that `dynamic_cast` is a
  pattern match.
* The Bitwuzla library is a parameter (`Backend`): the value every API call
  returns is a function of the calls issued so far, and the inspectors that
  the wrapper classes use are functions of the handle.
* Every call into the library issued by a non-`const` method, and every line
  written to the trace, is appended to the field `log` of the solver object,
  oldest first.
* `assert`, exceptions and undefined behaviour are values of `Error`; a method
  returns its result together with the state it leaves behind.
* Random choices (`d_rng`) are arguments of the method that draws them; where
  it matters whether a draw is made at all, the method also carries the state
  of the generator (`run_rng`).
* Code of the repository that the wrapper calls but that is not among the
  sources (the bodies of the solver manager, the state machine, the trace and
  check macros) is a parameter or a definition marked as modelled from the spec.
-/

namespace Murxla

/-! ## Handles, kinds and errors -/

/-- A pointer into backend memory; `0` is the null pointer. -/
abbrev Ptr := Nat

/-- Modelled from the spec: the enumeration `SortKind` of `sort.hpp`, which is
not among the sources; the spec (section 3) lists its members. -/
inductive SortKind
  | SORT_ARRAY
  | SORT_BAG
  | SORT_BOOL
  | SORT_BV
  | SORT_DT
  | SORT_FP
  | SORT_FUN
  | SORT_INT
  | SORT_REAL
  | SORT_REGLAN
  | SORT_RM
  | SORT_SEQ
  | SORT_SET
  | SORT_STRING
  | SORT_ANY
  deriving DecidableEq, Repr

/-- The ways a method can fail to return: `MURXLA_CHECK_CONFIG`,
`MURXLA_CHECK_TRACE_*`, a failed `assert`, the exceptions of `std::stoul`, and
undefined behaviour (null dereference, out-of-bounds read). -/
inductive Error
  | config (msg : String)
  | trace (msg : String)
  | assertion
  | invalid_argument
  | out_of_range
  | undefined_behaviour
  deriving DecidableEq, Repr

deriving instance DecidableEq for Except

/-- Whether a method returned a value. -/
def returns {α : Type} (r : Except Error α) : Bool :=
  match r with
  | .ok _ => true
  | .error _ => false

/-- Whether a method failed with a configuration error (`MURXLA_CHECK_CONFIG`). -/
def fails_config {α : Type} (r : Except Error α) : Bool :=
  match r with
  | .error (.config _) => true
  | _ => false

/-- Whether a method failed with a trace error (`MURXLA_CHECK_TRACE_*`). -/
def fails_trace {α : Type} (r : Except Error α) : Bool :=
  match r with
  | .error (.trace _) => true
  | _ => false

/-- Operator kinds are strings (`const OpKind BzlaSolver::OP_BV_DEC = "bzla-OP_BV_DEC"`). -/
abbrev OpKind := String

/-- Action kinds are strings. -/
abbrev ActionKind := String

/-- State kinds are strings. -/
abbrev StateKind := String

/-- The names of the constants `Op::X` of `op.hpp` that `bzla_solver.cpp`
mentions. `op.hpp` is not among the sources, so the strings they stand for are
a parameter `Op : StdOp → OpKind` of every definition that uses them. -/
inductive StdOp
  | DISTINCT | EQUAL | ITE
  | AND | OR | NOT | XOR | IMPLIES
  | ARRAY_SELECT | ARRAY_STORE
  | BV_EXTRACT | BV_REPEAT | BV_ROTATE_LEFT | BV_ROTATE_RIGHT | BV_SIGN_EXTEND | BV_ZERO_EXTEND
  | BV_CONCAT | BV_AND | BV_OR | BV_XOR | BV_MULT | BV_ADD | BV_NOT | BV_NEG | BV_NAND | BV_NOR
  | BV_XNOR | BV_COMP | BV_SUB | BV_UDIV | BV_UREM | BV_SDIV | BV_SREM | BV_SMOD | BV_SHL
  | BV_LSHR | BV_ASHR | BV_ULT | BV_ULE | BV_UGT | BV_UGE | BV_SLT | BV_SLE | BV_SGT | BV_SGE
  | FP_ABS | FP_ADD | FP_DIV | FP_EQ | FP_FMA | FP_FP | FP_IS_NORMAL | FP_IS_SUBNORMAL
  | FP_IS_INF | FP_IS_NAN | FP_IS_NEG | FP_IS_POS | FP_IS_ZERO | FP_LT | FP_LEQ | FP_GT | FP_GEQ
  | FP_MAX | FP_MIN | FP_MUL | FP_NEG | FP_REM | FP_RTI | FP_SQRT | FP_SUB
  | FP_TO_FP_FROM_BV | FP_TO_FP_FROM_SBV | FP_TO_FP_FROM_FP | FP_TO_FP_FROM_UBV
  | FP_TO_SBV | FP_TO_UBV | FP_TO_REAL
  | FORALL | EXISTS
  | UF_APPLY
  deriving DecidableEq, Repr

/-- The members of the enumeration `BitwuzlaKind` (of `bitwuzla.h`) that
`init_op_kinds` maps to. -/
inductive BitwuzlaKind
  | DISTINCT | EQUAL | ITE
  | AND | OR | NOT | XOR | IMPLIES
  | ARRAY_SELECT | ARRAY_STORE
  | BV_EXTRACT | BV_REPEAT | BV_ROLI | BV_RORI | BV_SIGN_EXTEND | BV_ZERO_EXTEND
  | BV_CONCAT | BV_AND | BV_OR | BV_XOR | BV_MUL | BV_ADD | BV_NOT | BV_NEG | BV_NAND | BV_NOR
  | BV_XNOR | BV_COMP | BV_SUB | BV_UDIV | BV_UREM | BV_SDIV | BV_SREM | BV_SMOD | BV_SHL
  | BV_SHR | BV_ASHR | BV_ULT | BV_ULE | BV_UGT | BV_UGE | BV_SLT | BV_SLE | BV_SGT | BV_SGE
  | FP_ABS | FP_ADD | FP_DIV | FP_EQ | FP_FMA | FP_FP | FP_IS_NORMAL | FP_IS_SUBNORMAL
  | FP_IS_INF | FP_IS_NAN | FP_IS_NEG | FP_IS_POS | FP_IS_ZERO | FP_LT | FP_LEQ | FP_GT | FP_GEQ
  | FP_MAX | FP_MIN | FP_MUL | FP_NEG | FP_REM | FP_RTI | FP_SQRT | FP_SUB
  | FP_TO_FP_FROM_BV | FP_TO_FP_FROM_SBV | FP_TO_FP_FROM_FP | FP_TO_FP_FROM_UBV
  | FP_TO_SBV | FP_TO_UBV
  | FORALL | EXISTS
  | APPLY
  | BV_DEC | BV_INC | BV_ROL | BV_ROR | BV_REDAND | BV_REDOR | BV_REDXOR
  | BV_UADD_OVERFLOW | BV_SADD_OVERFLOW | BV_UMUL_OVERFLOW | BV_SMUL_OVERFLOW
  | BV_USUB_OVERFLOW | BV_SSUB_OVERFLOW | BV_SDIV_OVERFLOW
  deriving DecidableEq, Repr

/-- The two members of `BitwuzlaOption` that `set_opt` forwards. -/
inductive BitwuzlaOption
  | PRODUCE_MODELS
  | INCREMENTAL
  deriving DecidableEq, Repr

/-- The enumeration `BitwuzlaRoundingMode` (of `bitwuzla.h`). -/
inductive BitwuzlaRoundingMode
  | BITWUZLA_RM_RNA
  | BITWUZLA_RM_RNE
  | BITWUZLA_RM_RTN
  | BITWUZLA_RM_RTP
  | BITWUZLA_RM_RTZ
  deriving DecidableEq, Repr

/-- The enumeration `BitwuzlaBVBase` of the library, as far as
`bzla_solver.cpp` mentions it. -/
inductive BitwuzlaBVBase
  | BITWUZLA_BV_BASE_BIN
  | BITWUZLA_BV_BASE_DEC
  | BITWUZLA_BV_BASE_HEX
  deriving DecidableEq, Repr

/-! ## The backend -/

/-- A call into the Bitwuzla C API together with its arguments. The first
argument of the calls that take one is the solver handle `d_solver`. -/
inductive BzlaCall
  | new
  | delete (bzla : Ptr)
  | mk_bool_sort (bzla : Ptr)
  | mk_rm_sort (bzla : Ptr)
  | mk_bv_sort (bzla : Ptr) (size : Nat)
  | mk_fp_sort (bzla : Ptr) (esize ssize : Nat)
  | mk_array_sort (bzla : Ptr) (index element : Ptr)
  | mk_fun_sort (bzla : Ptr) (arity : Nat) (domain : List Ptr) (codomain : Ptr)
  | mk_var (bzla : Ptr) (sort : Ptr) (symbol : Option String)
  | mk_const (bzla : Ptr) (sort : Ptr) (symbol : Option String)
  | term_is_equal_sort (t0 t1 : Ptr)
  | mk_term (bzla : Ptr) (kind : BitwuzlaKind) (argc : Nat) (args : List Ptr)
  | mk_term_indexed (bzla : Ptr) (kind : BitwuzlaKind) (argc : Nat) (args : List Ptr)
      (idxc : Nat) (idxs : List Nat)
  | set_option (bzla : Ptr) (opt : BitwuzlaOption) (val : Nat)
  | get_option (bzla : Ptr) (opt : BitwuzlaOption)
  | is_unsat_assumption (bzla : Ptr) (term : Ptr)
  | fixate_assumptions (bzla : Ptr)
  | reset_assumptions (bzla : Ptr)
  | simplify (bzla : Ptr)
  | term_set_symbol (term : Ptr) (symbol : String)
  | mk_bv_zero (bzla : Ptr) (sort : Ptr)
  | mk_bv_one (bzla : Ptr) (sort : Ptr)
  | mk_bv_ones (bzla : Ptr) (sort : Ptr)
  | mk_bv_min_signed (bzla : Ptr) (sort : Ptr)
  | mk_bv_max_signed (bzla : Ptr) (sort : Ptr)
  | mk_fp_pos_inf (bzla : Ptr) (sort : Ptr)
  | mk_fp_neg_inf (bzla : Ptr) (sort : Ptr)
  | mk_fp_pos_zero (bzla : Ptr) (sort : Ptr)
  | mk_fp_neg_zero (bzla : Ptr) (sort : Ptr)
  | mk_fp_nan (bzla : Ptr) (sort : Ptr)
  | mk_rm_value (bzla : Ptr) (rm : BitwuzlaRoundingMode)
  | mk_bv_value (bzla : Ptr) (sort : Ptr) (value : String) (base : BitwuzlaBVBase)
  | mk_bv_value_uint64 (bzla : Ptr) (sort : Ptr) (value : Nat)
  | assume (bzla : Ptr) (term : Ptr)
  | check_sat (bzla : Ptr)
  deriving DecidableEq, Repr

/-- What a method does to the outside world: a call into Bitwuzla, or a line
written to the trace. -/
inductive Event
  | api (call : BzlaCall)
  | trace (line : String)
  deriving DecidableEq, Repr

/-- The backend calls among the events, oldest first. -/
def apiCalls (log : List Event) : List BzlaCall :=
  log.filterMap fun e =>
    match e with
    | .api c => some c
    | .trace _ => none

/-- The trace lines among the events, oldest first. -/
def traceLines (log : List Event) : List String :=
  log.filterMap fun e =>
    match e with
    | .api _ => none
    | .trace l => some l

/-- The Bitwuzla library, as far as the wrapper can observe it. `ret` is the
value (pointer, integer or truth value as `0`/non-`0`) that a call returns when
it is issued after the given calls; the other fields are the inspectors that
the `const` methods of the wrapper classes use. -/
structure Backend where
  /-- The value returned by a call, given the calls issued before it. -/
  ret : List BzlaCall → BzlaCall → Nat
  /-- The sort handle of a term: `bitwuzla_term_get_sort`. -/
  term_get_sort : Ptr → Ptr
  /-- The hash of a term: `bitwuzla_term_hash`. -/
  term_hash : Ptr → Nat
  /-- The hash of a sort: `bitwuzla_sort_hash`. -/
  sort_hash : Ptr → Nat
  /-- Whether a sort is a bit-vector sort: `bitwuzla_sort_is_bv`. -/
  sort_is_bv : Ptr → Bool
  /-- The width of a bit-vector sort: `bitwuzla_sort_bv_get_size`. -/
  sort_bv_get_size : Ptr → Nat

/-- The library function `bitwuzla_term_is_equal_sort`: whether the sorts of
two terms are the same sort. -/
def Backend.term_is_equal_sort (be : Backend) (t0 t1 : Ptr) : Bool :=
  be.term_get_sort t0 == be.term_get_sort t1

/-! ## Sorts and terms -/

/-- The class `BzlaSort`: the members `d_solver` and `d_sort`, and the members
`d_id` and `d_kind` it inherits from `AbsSort` (initially `0` and `SORT_ANY`). -/
structure BzlaSort where
  d_solver : Ptr
  d_sort : Ptr
  d_id : Nat := 0
  d_kind : SortKind := SortKind.SORT_ANY
  deriving DecidableEq, Repr

/-- An object of a class derived from `AbsSort`: a `BzlaSort`, or a sort of
another solver. -/
inductive AbsSort
  | bzla (s : BzlaSort)
  | foreign (d_id : Nat) (d_kind : SortKind)
  deriving DecidableEq, Repr

/-- The type `Sort = std::shared_ptr<AbsSort>` (`Sort` is reserved in Lean);
`none` is the null pointer. -/
abbrev SortPtr := Option AbsSort

/-- The expression `dynamic_cast<BzlaSort*>(sort.get())`; `none` is the null result. -/
def dynamic_cast_BzlaSort (sort : SortPtr) : Option BzlaSort :=
  match sort with
  | some (.bzla s) => some s
  | _ => none

/-- The constructor call `std::shared_ptr<BzlaSort>(new BzlaSort(bzla, sort))`. -/
def BzlaSort.wrap (bzla sort : Ptr) : SortPtr :=
  some (.bzla { d_solver := bzla, d_sort := sort })

/-- The method `BzlaSort::hash`. -/
def BzlaSort.hash (be : Backend) (self : BzlaSort) : Nat :=
  be.sort_hash self.d_sort

/-- The method `BzlaSort::equals`. -/
def BzlaSort.equals (self : BzlaSort) (other : SortPtr) : Bool :=
  match dynamic_cast_BzlaSort other with
  | some bzla_sort => self.d_sort == bzla_sort.d_sort
  | none => false

/-- The method `BzlaSort::is_bool`. The Boolean sort is asked of the library
with `bitwuzla_mk_bool_sort(d_solver)`; `calls` are the calls that the library
has received before. -/
def BzlaSort.is_bool (be : Backend) (calls : List BzlaCall) (self : BzlaSort) : Bool :=
  let s := be.ret calls (.mk_bool_sort self.d_solver)
  let res := s == self.d_sort
  res && self.d_kind == SortKind.SORT_BOOL

/-- The method `BzlaSort::is_bv`. -/
def BzlaSort.is_bv (be : Backend) (self : BzlaSort) : Bool :=
  be.sort_is_bv self.d_sort

/-- The method `BzlaSort::is_int`. -/
def BzlaSort.is_int (_self : BzlaSort) : Bool :=
  false

/-- The method `BzlaSort::is_real`. -/
def BzlaSort.is_real (_self : BzlaSort) : Bool :=
  false

/-- The method `BzlaSort::is_string`. -/
def BzlaSort.is_string (_self : BzlaSort) : Bool :=
  false

/-- The method `BzlaSort::is_reglan`. -/
def BzlaSort.is_reglan (_self : BzlaSort) : Bool :=
  false

/-- Modelled from the spec: the setter `AbsSort::set_kind` of `solver.cpp`,
which is not among the sources; it is declared in `solver.hpp` next to the
member `d_kind` it sets. -/
def BzlaSort.set_kind (self : BzlaSort) (sort_kind : SortKind) : BzlaSort :=
  { self with d_kind := sort_kind }

/-- The virtual method `AbsSort::is_bv`, dispatched on the class of the
object. The override of the class of another solver is not among the sources;
it is rendered by the recorded kind of the sort. -/
def AbsSort.is_bv (be : Backend) : AbsSort → Bool
  | .bzla s => s.is_bv be
  | .foreign _ d_kind => d_kind == SortKind.SORT_BV

/-- The class `BzlaTerm`: the member `d_term`, and the member `d_id` it
inherits from `AbsTerm`. -/
structure BzlaTerm where
  d_term : Ptr
  d_id : Nat := 0
  deriving DecidableEq, Repr

/-- An object of a class derived from `AbsTerm`. -/
inductive AbsTerm
  | bzla (t : BzlaTerm)
  | foreign (d_id : Nat)
  deriving DecidableEq, Repr

/-- The type `Term = std::shared_ptr<AbsTerm>`; `none` is the null pointer. -/
abbrev Term := Option AbsTerm

/-- The expression `dynamic_cast<BzlaTerm*>(term.get())`. -/
def dynamic_cast_BzlaTerm (term : Term) : Option BzlaTerm :=
  match term with
  | some (.bzla t) => some t
  | _ => none

/-- The constructor call `std::shared_ptr<BzlaTerm>(new BzlaTerm(term))`. -/
def BzlaTerm.wrap (term : Ptr) : Term :=
  some (.bzla { d_term := term })

/-- The method `BzlaTerm::hash`. -/
def BzlaTerm.hash (be : Backend) (self : BzlaTerm) : Nat :=
  be.term_hash self.d_term

/-- The method `BzlaTerm::equals`. The result of the `dynamic_cast` is
dereferenced without a null check. -/
def BzlaTerm.equals (be : Backend) (self : BzlaTerm) (other : Term) : Except Error Bool :=
  match dynamic_cast_BzlaTerm other with
  | some bzla_term => .ok (be.term_is_equal_sort self.d_term bzla_term.d_term)
  | none => .error .undefined_behaviour

/-! ## The solver object -/

/-- The class `BzlaSolver`: its members `d_solver`, `d_op_kinds` (a map, kept
as the list of its entries) and `d_num_symbols`, and the events the object has
caused so far. -/
structure BzlaSolver where
  d_solver : Ptr := 0
  d_op_kinds : List (OpKind × BitwuzlaKind) := []
  d_num_symbols : Nat := 0
  log : List Event := []
  deriving DecidableEq, Repr

/-- What a method leaves behind: the value it returns or the way it fails,
and the state of the solver object. -/
abbrev Outcome (α : Type) := Except Error α × BzlaSolver

/-- Issue a call into Bitwuzla: append it to the log and obtain the value the
library returns for it. -/
def BzlaSolver.call (be : Backend) (s : BzlaSolver) (c : BzlaCall) : Nat × BzlaSolver :=
  (be.ret (apiCalls s.log) c, { s with log := s.log ++ [Event.api c] })

/-- Modelled from the spec: the stream operator for `SortKind` (of `sort.cpp`,
not among the sources), which renders a sort kind in an error message. -/
def SortKind.str : SortKind → String
  | .SORT_ARRAY => "SORT_ARRAY"
  | .SORT_BAG => "SORT_BAG"
  | .SORT_BOOL => "SORT_BOOL"
  | .SORT_BV => "SORT_BV"
  | .SORT_DT => "SORT_DT"
  | .SORT_FP => "SORT_FP"
  | .SORT_FUN => "SORT_FUN"
  | .SORT_INT => "SORT_INT"
  | .SORT_REAL => "SORT_REAL"
  | .SORT_REGLAN => "SORT_REGLAN"
  | .SORT_RM => "SORT_RM"
  | .SORT_SEQ => "SORT_SEQ"
  | .SORT_SET => "SORT_SET"
  | .SORT_STRING => "SORT_STRING"
  | .SORT_ANY => "SORT_ANY"

/-- The method `BzlaSolver::get_bzla_sort`: the cast is asserted to succeed. -/
def get_bzla_sort (sort : SortPtr) : Except Error Ptr :=
  match dynamic_cast_BzlaSort sort with
  | some bzla_sort => .ok bzla_sort.d_sort
  | none => .error .assertion

/-- The method `BzlaSolver::get_bzla_term`: the cast is asserted to succeed. -/
def get_bzla_term (term : Term) : Except Error Ptr :=
  match dynamic_cast_BzlaTerm term with
  | some bzla_term => .ok bzla_term.d_term
  | none => .error .assertion

/-- The tail shared by the sort constructors: `assert(bzla_res)` and the
wrapping of the handle in a `BzlaSort`. -/
def BzlaSolver.wrap_sort (s : BzlaSolver) (bzla_res : Ptr) : Outcome SortPtr :=
  if bzla_res = 0 then (.error .assertion, s) else (.ok (BzlaSort.wrap s.d_solver bzla_res), s)

/-- The tail shared by the term constructors: `assert(bzla_res)` and the
wrapping of the handle in a `BzlaTerm`. -/
def BzlaSolver.wrap_term (s : BzlaSolver) (bzla_res : Ptr) : Outcome Term :=
  if bzla_res = 0 then (.error .assertion, s) else (.ok (BzlaTerm.wrap bzla_res), s)

/-- The method `BzlaSolver::mk_sort(SortKind kind)`. -/
def BzlaSolver.mk_sort_kind (be : Backend) (s : BzlaSolver) (kind : SortKind) : Outcome SortPtr :=
  if kind = .SORT_BOOL ∨ kind = .SORT_RM then
    let r := s.call be
      (if kind = .SORT_BOOL then .mk_bool_sort s.d_solver else .mk_rm_sort s.d_solver)
    r.2.wrap_sort r.1
  else
    (.error (.config ("unsupported sort kind '" ++ kind.str
      ++ "' as argument to BzlaSolver::mk_sort, expected '" ++ SortKind.SORT_BOOL.str
      ++ "' or '" ++ SortKind.SORT_RM.str ++ "'")), s)

/-- The method `BzlaSolver::mk_sort(SortKind kind, uint32_t size)`. -/
def BzlaSolver.mk_sort_kind_size (be : Backend) (s : BzlaSolver) (kind : SortKind)
    (size : Nat) : Outcome SortPtr :=
  if kind = .SORT_BV then
    let r := s.call be (.mk_bv_sort s.d_solver size)
    r.2.wrap_sort r.1
  else
    (.error (.config ("unsupported sort kind '" ++ kind.str
      ++ "' as argument to BzlaSolver::mk_sort, expected '" ++ SortKind.SORT_BV.str ++ "'")), s)

/-- The method `BzlaSolver::mk_sort(SortKind kind, uint32_t esize, uint32_t ssize)`. -/
def BzlaSolver.mk_sort_kind_esize_ssize (be : Backend) (s : BzlaSolver) (kind : SortKind)
    (esize ssize : Nat) : Outcome SortPtr :=
  if kind = .SORT_FP then
    let r := s.call be (.mk_fp_sort s.d_solver esize ssize)
    r.2.wrap_sort r.1
  else
    (.error (.config ("unsupported sort kind '" ++ kind.str
      ++ "' as argument to BzlaSolver::mk_sort, expected '" ++ SortKind.SORT_FP.str ++ "'")), s)

/-- The loop of `mk_sort` that pushes `get_bzla_sort(*it)` onto `domain` for
every sort of a range, in order. -/
def sorts_to_bzla_sorts : List SortPtr → Except Error (List Ptr)
  | [] => .ok []
  | sort :: sorts =>
    match get_bzla_sort sort with
    | .error e => .error e
    | .ok bzla_sort =>
      match sorts_to_bzla_sorts sorts with
      | .error e => .error e
      | .ok domain => .ok (bzla_sort :: domain)

/-- The method `BzlaSolver::mk_sort(SortKind kind, const std::vector<Sort>& sorts)`.
Reading `sorts[0]`, `sorts[1]` or `sorts.back()` outside the vector is
undefined behaviour. -/
def BzlaSolver.mk_sort_kind_sorts (be : Backend) (s : BzlaSolver) (kind : SortKind)
    (sorts : List SortPtr) : Outcome SortPtr :=
  match kind with
  | .SORT_ARRAY =>
    match sorts[0]?, sorts[1]? with
    | some s0, some s1 =>
      match get_bzla_sort s0, get_bzla_sort s1 with
      | .ok index, .ok element =>
        let r := s.call be (.mk_array_sort s.d_solver index element)
        r.2.wrap_sort r.1
      | .error e, _ => (.error e, s)
      | _, .error e => (.error e, s)
    | _, _ => (.error .undefined_behaviour, s)
  | .SORT_FUN =>
    match sorts.getLast? with
    | none => (.error .undefined_behaviour, s)
    | some last =>
      match get_bzla_sort last, sorts_to_bzla_sorts sorts.dropLast with
      | .ok codomain, .ok domain =>
        let r := s.call be (.mk_fun_sort s.d_solver domain.length domain codomain)
        r.2.wrap_sort r.1
      | .error e, _ => (.error e, s)
      | _, .error e => (.error e, s)
  | _ =>
    (.error (.config ("unsupported sort kind '" ++ kind.str
      ++ "' as argument to BzlaSolver::mk_sort, expected '" ++ SortKind.SORT_ARRAY.str
      ++ "' or '" ++ SortKind.SORT_FUN.str ++ "'")), s)

/-- The symbol `"sym" << d_num_symbols << "@" << name` that `mk_var` and
`mk_const` build; the counter is streamed in decimal. -/
def mk_symbol (num_symbols : Nat) (name : String) : String :=
  "sym" ++ toString num_symbols ++ "@" ++ name

/-- The block "Make sure that symbol is unique" of `mk_var` and `mk_const`:
the C string handed to the backend (`none` for `nullptr`) and the solver with
its counter advanced. The counter is an unsigned integer of `w` bits; its type
is declared in `bzla_solver.hpp`, which is not among the sources. -/
def BzlaSolver.unique_symbol (w : Nat) (s : BzlaSolver) (name : String) :
    Option String × BzlaSolver :=
  if name ≠ "" then
    (some (mk_symbol s.d_num_symbols name),
      { s with d_num_symbols := (s.d_num_symbols + 1) % 2 ^ w })
  else
    (none, s)

/-- The method `BzlaSolver::mk_var`. -/
def BzlaSolver.mk_var (be : Backend) (w : Nat) (s : BzlaSolver) (sort : SortPtr)
    (name : String) : Outcome Term :=
  let u := s.unique_symbol w name
  match get_bzla_sort sort with
  | .error e => (.error e, u.2)
  | .ok bzla_sort =>
    let r := u.2.call be (.mk_var u.2.d_solver bzla_sort u.1)
    r.2.wrap_term r.1

/-- The method `BzlaSolver::mk_const`; `pick` is the outcome of
`d_rng.pick_with_prob(1)`. -/
def BzlaSolver.mk_const (be : Backend) (w : Nat) (s : BzlaSolver) (sort : SortPtr)
    (name : String) (pick : Bool) : Outcome Term :=
  let u := s.unique_symbol w name
  match get_bzla_sort sort with
  | .error e => (.error e, u.2)
  | .ok bzla_sort =>
    let r := u.2.call be (.mk_const u.2.d_solver bzla_sort u.1)
    if r.1 = 0 then (.error .assertion, r.2)
    else if pick then
      let q := r.2.call be (.term_is_equal_sort r.1 r.1)
      if be.term_is_equal_sort r.1 r.1 then q.2.wrap_term r.1 else (.error .assertion, q.2)
    else r.2.wrap_term r.1

/-- A call of one of the two methods that name a term. -/
inductive SymbolCall
  | mk_var (sort : SortPtr) (name : String)
  | mk_const (sort : SortPtr) (name : String) (pick : Bool)
  deriving DecidableEq, Repr

/-- The name argument of a call. -/
def SymbolCall.name : SymbolCall → String
  | .mk_var _ name => name
  | .mk_const _ name _ => name

/-- The sort argument of a call. -/
def SymbolCall.sort : SymbolCall → SortPtr
  | .mk_var sort _ => sort
  | .mk_const sort _ _ => sort

/-- Perform one call on the solver object. -/
def BzlaSolver.step (be : Backend) (w : Nat) (s : BzlaSolver) : SymbolCall → Outcome Term
  | .mk_var sort name => s.mk_var be w sort name
  | .mk_const sort name pick => s.mk_const be w sort name pick

/-- Perform a sequence of calls on one solver object; a call that fails (a
failed `assert`) ends the run. The result is the state after the last call made. -/
def BzlaSolver.run (be : Backend) (w : Nat) : BzlaSolver → List SymbolCall → BzlaSolver
  | s, [] => s
  | s, c :: cs =>
    match s.step be w c with
    | (.ok _, s1) => BzlaSolver.run be w s1 cs
    | (.error _, s1) => s1

/-- The symbol a backend call is handed, if it is handed one. -/
def BzlaCall.symbol : BzlaCall → Option String
  | .mk_var _ _ symbol => symbol
  | .mk_const _ _ symbol => symbol
  | _ => none

/-- The symbols handed to the backend by `mk_var` and `mk_const`, oldest first. -/
def symbolsPassed (log : List Event) : List String :=
  (apiCalls log).filterMap BzlaCall.symbol

/-- The number of calls with a non-empty name. -/
def namedCalls (calls : List SymbolCall) : Nat :=
  (calls.filter fun c => c.name ≠ "").length

/-! ## Options -/

/-- The largest `unsigned long` (64 bits, the LP64 data model). -/
def ULONG_MAX : Nat := 2 ^ 64 - 1

/-- The C function `isspace` in the "C" locale. -/
def isspace (c : Char) : Bool :=
  c.toNat = 32 || (9 ≤ c.toNat && c.toNat ≤ 13)

/-- The sign that `strtoul` accepts before the digits, and the rest of the input. -/
def strip_sign : List Char → Bool × List Char
  | '-' :: rest => (true, rest)
  | '+' :: rest => (false, rest)
  | cs => (false, cs)

/-- The library function `std::stoul(str)` (base 10): leading white space is
skipped, an optional sign is read, then the longest run of decimal digits;
what follows is ignored. Without a digit it throws `std::invalid_argument`,
with a value above `ULONG_MAX` it throws `std::out_of_range`, and a value with
a minus sign is negated in `unsigned long`. -/
def stoul (str : String) : Except Error Nat :=
  let signed := strip_sign (str.toList.dropWhile isspace)
  let digits := signed.2.takeWhile Char.isDigit
  let n := digits.foldl (fun acc c => 10 * acc + (c.toNat - 48)) 0
  if digits = [] then .error .invalid_argument
  else if ULONG_MAX < n then .error .out_of_range
  else .ok (if signed.1 then (2 ^ 64 - n) % 2 ^ 64 else n)

/-- The method `BzlaSolver::set_opt`. The value is parsed into the `uint32_t`
`val` before the option name is looked at. -/
def BzlaSolver.set_opt (be : Backend) (s : BzlaSolver) (opt value : String) : Outcome Unit :=
  if opt = "produce-unsat-assumptions" then (.ok (), s)
  else
    match (if value = "true" then .ok 1 else stoul value) with
    | .error e => (.error e, s)
    | .ok parsed =>
      let val := parsed % 2 ^ 32
      let bzla_opt : Option BitwuzlaOption :=
        if opt = "produce-models" then some .PRODUCE_MODELS
        else if opt = "incremental" then some .INCREMENTAL
        else none
      match bzla_opt with
      | none => (.ok (), s)
      | some o =>
        let r1 := s.call be (.set_option s.d_solver o val)
        let r2 := r1.2.call be (.get_option r1.2.d_solver o)
        if val = r2.1 then (.ok (), r2.2) else (.error .assertion, r2.2)

/-! ## Operator kinds -/

namespace BzlaSolver

def OP_BV_DEC : OpKind := "bzla-OP_BV_DEC"
def OP_BV_INC : OpKind := "bzla-OP_BV_INC"
def OP_BV_REDAND : OpKind := "bzla-OP_BV_REDAND"
def OP_BV_REDOR : OpKind := "bzla-OP_BV_REDOR"
def OP_BV_REDXOR : OpKind := "bzla-OP_BV_REDXOR"
def OP_BV_ROL : OpKind := "bzla-OP_BV_ROL"
def OP_BV_ROR : OpKind := "bzla-OP_BV_ROR"
def OP_BV_SADDO : OpKind := "bzla-OP_BV_SADDO"
def OP_BV_SDIVO : OpKind := "bzla-OP_BV_SDIVO"
def OP_BV_SMULO : OpKind := "bzla-OP_BV_SMULO"
def OP_BV_SSUBO : OpKind := "bzla-OP_BV_SSUBO"
def OP_BV_UADDO : OpKind := "bzla-OP_BV_UADDO"
def OP_BV_UMULO : OpKind := "bzla-OP_BV_UMULO"
def OP_BV_USUBO : OpKind := "bzla-OP_BV_USUBO"

end BzlaSolver

/-- The operator kinds that the Bitwuzla backend defines (`BzlaSolver::OP_BV_*`),
in the order of their definitions. -/
def solver_specific_op_kinds : List OpKind :=
  [BzlaSolver.OP_BV_DEC, BzlaSolver.OP_BV_INC, BzlaSolver.OP_BV_REDAND, BzlaSolver.OP_BV_REDOR,
   BzlaSolver.OP_BV_REDXOR, BzlaSolver.OP_BV_ROL, BzlaSolver.OP_BV_ROR, BzlaSolver.OP_BV_SADDO,
   BzlaSolver.OP_BV_SDIVO, BzlaSolver.OP_BV_SMULO, BzlaSolver.OP_BV_SSUBO,
   BzlaSolver.OP_BV_UADDO, BzlaSolver.OP_BV_UMULO, BzlaSolver.OP_BV_USUBO]

/-- The initializer list that `init_op_kinds` assigns to `d_op_kinds`, entry
by entry. Looking a key up takes its first entry, which is the entry the map
keeps when the list repeats a key. -/
def init_op_kinds_table (Op : StdOp → OpKind) : List (OpKind × BitwuzlaKind) :=
  [ (Op StdOp.DISTINCT, BitwuzlaKind.DISTINCT),
    (Op StdOp.EQUAL, BitwuzlaKind.EQUAL),
    (Op StdOp.ITE, BitwuzlaKind.ITE),
    (Op StdOp.AND, BitwuzlaKind.AND),
    (Op StdOp.OR, BitwuzlaKind.OR),
    (Op StdOp.NOT, BitwuzlaKind.NOT),
    (Op StdOp.XOR, BitwuzlaKind.XOR),
    (Op StdOp.IMPLIES, BitwuzlaKind.IMPLIES),
    (Op StdOp.ARRAY_SELECT, BitwuzlaKind.ARRAY_SELECT),
    (Op StdOp.ARRAY_STORE, BitwuzlaKind.ARRAY_STORE),
    (Op StdOp.BV_EXTRACT, BitwuzlaKind.BV_EXTRACT),
    (Op StdOp.BV_REPEAT, BitwuzlaKind.BV_REPEAT),
    (Op StdOp.BV_ROTATE_LEFT, BitwuzlaKind.BV_ROLI),
    (Op StdOp.BV_ROTATE_RIGHT, BitwuzlaKind.BV_RORI),
    (Op StdOp.BV_SIGN_EXTEND, BitwuzlaKind.BV_SIGN_EXTEND),
    (Op StdOp.BV_ZERO_EXTEND, BitwuzlaKind.BV_ZERO_EXTEND),
    (Op StdOp.BV_CONCAT, BitwuzlaKind.BV_CONCAT),
    (Op StdOp.BV_AND, BitwuzlaKind.BV_AND),
    (Op StdOp.BV_OR, BitwuzlaKind.BV_OR),
    (Op StdOp.BV_XOR, BitwuzlaKind.BV_XOR),
    (Op StdOp.BV_MULT, BitwuzlaKind.BV_MUL),
    (Op StdOp.BV_ADD, BitwuzlaKind.BV_ADD),
    (Op StdOp.BV_NOT, BitwuzlaKind.BV_NOT),
    (Op StdOp.BV_NEG, BitwuzlaKind.BV_NEG),
    (Op StdOp.BV_NAND, BitwuzlaKind.BV_NAND),
    (Op StdOp.BV_NOR, BitwuzlaKind.BV_NOR),
    (Op StdOp.BV_XNOR, BitwuzlaKind.BV_XNOR),
    (Op StdOp.BV_COMP, BitwuzlaKind.BV_COMP),
    (Op StdOp.BV_SUB, BitwuzlaKind.BV_SUB),
    (Op StdOp.BV_UDIV, BitwuzlaKind.BV_UDIV),
    (Op StdOp.BV_UREM, BitwuzlaKind.BV_UREM),
    (Op StdOp.BV_UREM, BitwuzlaKind.BV_UREM),
    (Op StdOp.BV_SDIV, BitwuzlaKind.BV_SDIV),
    (Op StdOp.BV_SREM, BitwuzlaKind.BV_SREM),
    (Op StdOp.BV_SMOD, BitwuzlaKind.BV_SMOD),
    (Op StdOp.BV_SHL, BitwuzlaKind.BV_SHL),
    (Op StdOp.BV_LSHR, BitwuzlaKind.BV_SHR),
    (Op StdOp.BV_ASHR, BitwuzlaKind.BV_ASHR),
    (Op StdOp.BV_ULT, BitwuzlaKind.BV_ULT),
    (Op StdOp.BV_ULE, BitwuzlaKind.BV_ULE),
    (Op StdOp.BV_UGT, BitwuzlaKind.BV_UGT),
    (Op StdOp.BV_UGE, BitwuzlaKind.BV_UGE),
    (Op StdOp.BV_SLT, BitwuzlaKind.BV_SLT),
    (Op StdOp.BV_SLE, BitwuzlaKind.BV_SLE),
    (Op StdOp.BV_SGT, BitwuzlaKind.BV_SGT),
    (Op StdOp.BV_SGE, BitwuzlaKind.BV_SGE),
    (Op StdOp.FP_ABS, BitwuzlaKind.FP_ABS),
    (Op StdOp.FP_ADD, BitwuzlaKind.FP_ADD),
    (Op StdOp.FP_DIV, BitwuzlaKind.FP_DIV),
    (Op StdOp.FP_EQ, BitwuzlaKind.FP_EQ),
    (Op StdOp.FP_FMA, BitwuzlaKind.FP_FMA),
    (Op StdOp.FP_FP, BitwuzlaKind.FP_FP),
    (Op StdOp.FP_IS_NORMAL, BitwuzlaKind.FP_IS_NORMAL),
    (Op StdOp.FP_IS_SUBNORMAL, BitwuzlaKind.FP_IS_SUBNORMAL),
    (Op StdOp.FP_IS_INF, BitwuzlaKind.FP_IS_INF),
    (Op StdOp.FP_IS_NAN, BitwuzlaKind.FP_IS_NAN),
    (Op StdOp.FP_IS_NEG, BitwuzlaKind.FP_IS_NEG),
    (Op StdOp.FP_IS_POS, BitwuzlaKind.FP_IS_POS),
    (Op StdOp.FP_IS_ZERO, BitwuzlaKind.FP_IS_ZERO),
    (Op StdOp.FP_LT, BitwuzlaKind.FP_LT),
    (Op StdOp.FP_LEQ, BitwuzlaKind.FP_LEQ),
    (Op StdOp.FP_GT, BitwuzlaKind.FP_GT),
    (Op StdOp.FP_GEQ, BitwuzlaKind.FP_GEQ),
    (Op StdOp.FP_MAX, BitwuzlaKind.FP_MAX),
    (Op StdOp.FP_MIN, BitwuzlaKind.FP_MIN),
    (Op StdOp.FP_MUL, BitwuzlaKind.FP_MUL),
    (Op StdOp.FP_NEG, BitwuzlaKind.FP_NEG),
    (Op StdOp.FP_REM, BitwuzlaKind.FP_REM),
    (Op StdOp.FP_RTI, BitwuzlaKind.FP_RTI),
    (Op StdOp.FP_SQRT, BitwuzlaKind.FP_SQRT),
    (Op StdOp.FP_SUB, BitwuzlaKind.FP_SUB),
    (Op StdOp.FP_TO_FP_FROM_BV, BitwuzlaKind.FP_TO_FP_FROM_BV),
    (Op StdOp.FP_TO_FP_FROM_SBV, BitwuzlaKind.FP_TO_FP_FROM_SBV),
    (Op StdOp.FP_TO_FP_FROM_FP, BitwuzlaKind.FP_TO_FP_FROM_FP),
    (Op StdOp.FP_TO_FP_FROM_UBV, BitwuzlaKind.FP_TO_FP_FROM_UBV),
    (Op StdOp.FP_TO_SBV, BitwuzlaKind.FP_TO_SBV),
    (Op StdOp.FP_TO_UBV, BitwuzlaKind.FP_TO_UBV),
    (Op StdOp.FORALL, BitwuzlaKind.FORALL),
    (Op StdOp.EXISTS, BitwuzlaKind.EXISTS),
    (Op StdOp.UF_APPLY, BitwuzlaKind.APPLY),
    (BzlaSolver.OP_BV_DEC, BitwuzlaKind.BV_DEC),
    (BzlaSolver.OP_BV_INC, BitwuzlaKind.BV_INC),
    (BzlaSolver.OP_BV_ROL, BitwuzlaKind.BV_ROL),
    (BzlaSolver.OP_BV_ROR, BitwuzlaKind.BV_ROR),
    (BzlaSolver.OP_BV_REDAND, BitwuzlaKind.BV_REDAND),
    (BzlaSolver.OP_BV_REDOR, BitwuzlaKind.BV_REDOR),
    (BzlaSolver.OP_BV_REDXOR, BitwuzlaKind.BV_REDXOR),
    (BzlaSolver.OP_BV_UADDO, BitwuzlaKind.BV_UADD_OVERFLOW),
    (BzlaSolver.OP_BV_SADDO, BitwuzlaKind.BV_SADD_OVERFLOW),
    (BzlaSolver.OP_BV_UMULO, BitwuzlaKind.BV_UMUL_OVERFLOW),
    (BzlaSolver.OP_BV_SMULO, BitwuzlaKind.BV_SMUL_OVERFLOW),
    (BzlaSolver.OP_BV_USUBO, BitwuzlaKind.BV_USUB_OVERFLOW),
    (BzlaSolver.OP_BV_SSUBO, BitwuzlaKind.BV_SSUB_OVERFLOW),
    (BzlaSolver.OP_BV_SDIVO, BitwuzlaKind.BV_SDIV_OVERFLOW) ]

/-- The method `BzlaSolver::init_op_kinds`. -/
def BzlaSolver.init_op_kinds (Op : StdOp → OpKind) (s : BzlaSolver) : BzlaSolver :=
  { s with d_op_kinds := init_op_kinds_table Op }

/-- The method `BzlaSolver::new_solver`. -/
def BzlaSolver.new_solver (be : Backend) (Op : StdOp → OpKind) (s : BzlaSolver) : Outcome Unit :=
  if s.d_solver ≠ 0 then (.error .assertion, s)
  else
    let r := s.call be .new
    (.ok (), ({ r.2 with d_solver := r.1 }).init_op_kinds Op)

/-- The method `BzlaSolver::delete_solver`. -/
def BzlaSolver.delete_solver (be : Backend) (s : BzlaSolver) : Outcome Unit :=
  if s.d_solver = 0 then (.error .assertion, s)
  else
    let r := s.call be (.delete s.d_solver)
    (.ok (), { r.2 with d_solver := 0 })

/-- The destructor `BzlaSolver::~BzlaSolver`. -/
def BzlaSolver.destructor (be : Backend) (s : BzlaSolver) : BzlaSolver :=
  if s.d_solver ≠ 0 then
    let r := s.call be (.delete s.d_solver)
    { r.2 with d_solver := 0 }
  else s

/-- The method `BzlaSolver::is_initialized`. -/
def BzlaSolver.is_initialized (s : BzlaSolver) : Bool :=
  s.d_solver != 0

/-- The method `BzlaSolver::reset_assertions`; its body is empty ("Bitwuzla
does not support this yet"). -/
def BzlaSolver.reset_assertions (s : BzlaSolver) : Outcome Unit :=
  (.ok (), s)

/-- The method `BzlaSolver::get_option_name_unsat_assumptions`. -/
def BzlaSolver.get_option_name_unsat_assumptions : String :=
  "produce-unsat-assumptions"

/-- The method `BzlaSolver::option_unsat_assumptions_enabled`. -/
def BzlaSolver.option_unsat_assumptions_enabled (_s : BzlaSolver) : Bool :=
  true

/-- The method `BzlaSolver::get_unsupported_op_kinds`. -/
def BzlaSolver.get_unsupported_op_kinds (Op : StdOp → OpKind) : List OpKind :=
  [Op .FP_TO_REAL]

/-- The method `BzlaSolver::terms_to_bzla_terms`: the loop that pushes
`get_bzla_term(t)` for every term, in order. -/
def terms_to_bzla_terms : List Term → Except Error (List Ptr)
  | [] => .ok []
  | t :: terms =>
    match get_bzla_term t with
    | .error e => .error e
    | .ok bzla_term =>
      match terms_to_bzla_terms terms with
      | .error e => .error e
      | .ok res => .ok (bzla_term :: res)

/-- The method `BzlaSolver::mk_term`. -/
def BzlaSolver.mk_term (be : Backend) (s : BzlaSolver) (kind : OpKind) (args : List Term)
    (params : List Nat) : Outcome Term :=
  match s.d_op_kinds.lookup kind with
  | none => (.error (.config ("BzlaSolver: operator kind '" ++ kind ++ "' not configured")), s)
  | some bzla_kind =>
    match terms_to_bzla_terms args with
    | .error e => (.error e, s)
    | .ok bzla_args =>
      let r := s.call be
        (if params.length ≠ 0 then
          .mk_term_indexed s.d_solver bzla_kind args.length bzla_args params.length params
        else
          .mk_term s.d_solver bzla_kind args.length bzla_args)
      r.2.wrap_term r.1

/-- The enumeration `TheoryId` of `theory.hpp`. -/
inductive TheoryId
  | THEORY_ARRAY
  | THEORY_BAG
  | THEORY_BOOL
  | THEORY_BV
  | THEORY_DT
  | THEORY_FP
  | THEORY_INT
  | THEORY_QUANT
  | THEORY_REAL
  | THEORY_SEQ
  | THEORY_SET
  | THEORY_STRING
  | THEORY_TRANSCENDENTAL
  | THEORY_UF
  | THEORY_ALL
  deriving DecidableEq, Repr

/-- The arguments of one call `smgr->add_op_kind(kind, arity, nparams,
sort_kind, sort_kind_args, theory)`. -/
structure AddOpKind where
  kind : OpKind
  arity : Int
  nparams : Nat
  sort_kind : SortKind
  sort_kind_args : List SortKind
  theory : TheoryId
  deriving DecidableEq, Repr

/-- The method `BzlaSolver::configure_smgr`: the calls of `add_op_kind` it
makes on the solver manager, in order. -/
def BzlaSolver.configure_smgr : List AddOpKind :=
  [ ⟨BzlaSolver.OP_BV_DEC, 1, 0, .SORT_BV, [.SORT_BV], .THEORY_BV⟩,
    ⟨BzlaSolver.OP_BV_INC, 1, 0, .SORT_BV, [.SORT_BV], .THEORY_BV⟩,
    ⟨BzlaSolver.OP_BV_REDAND, 1, 0, .SORT_BV, [.SORT_BV], .THEORY_BV⟩,
    ⟨BzlaSolver.OP_BV_REDOR, 1, 0, .SORT_BV, [.SORT_BV], .THEORY_BV⟩,
    ⟨BzlaSolver.OP_BV_REDXOR, 1, 0, .SORT_BV, [.SORT_BV], .THEORY_BV⟩,
    ⟨BzlaSolver.OP_BV_UADDO, 2, 0, .SORT_BV, [.SORT_BV], .THEORY_BV⟩,
    ⟨BzlaSolver.OP_BV_UMULO, 2, 0, .SORT_BV, [.SORT_BV], .THEORY_BV⟩,
    ⟨BzlaSolver.OP_BV_USUBO, 2, 0, .SORT_BV, [.SORT_BV], .THEORY_BV⟩,
    ⟨BzlaSolver.OP_BV_SADDO, 2, 0, .SORT_BV, [.SORT_BV], .THEORY_BV⟩,
    ⟨BzlaSolver.OP_BV_SDIVO, 2, 0, .SORT_BV, [.SORT_BV], .THEORY_BV⟩,
    ⟨BzlaSolver.OP_BV_SMULO, 2, 0, .SORT_BV, [.SORT_BV], .THEORY_BV⟩,
    ⟨BzlaSolver.OP_BV_SSUBO, 2, 0, .SORT_BV, [.SORT_BV], .THEORY_BV⟩ ]

/-- The operator kinds that `configure_smgr` registers with the solver manager. -/
def registered_op_kinds : List OpKind :=
  BzlaSolver.configure_smgr.map AddOpKind.kind

/-! ## The consistency check on bit-vector special values -/

/-- The names of the constants `Solver::SPECIAL_VALUE_*` that
`bzla_solver.cpp` mentions. -/
inductive SpecialValueKind
  | SPECIAL_VALUE_BV_ZERO
  | SPECIAL_VALUE_BV_ONE
  | SPECIAL_VALUE_BV_ONES
  | SPECIAL_VALUE_BV_MIN_SIGNED
  | SPECIAL_VALUE_BV_MAX_SIGNED
  | SPECIAL_VALUE_FP_POS_INF
  | SPECIAL_VALUE_FP_NEG_INF
  | SPECIAL_VALUE_FP_POS_ZERO
  | SPECIAL_VALUE_FP_NEG_ZERO
  | SPECIAL_VALUE_FP_NAN
  | SPECIAL_VALUE_RM_RNA
  | SPECIAL_VALUE_RM_RNE
  | SPECIAL_VALUE_RM_RTN
  | SPECIAL_VALUE_RM_RTP
  | SPECIAL_VALUE_RM_RTZ
  deriving DecidableEq, Repr

/-- The five bit-vector special value kinds. -/
def SpecialValueKind.is_bv : SpecialValueKind → Bool
  | .SPECIAL_VALUE_BV_ZERO => true
  | .SPECIAL_VALUE_BV_ONE => true
  | .SPECIAL_VALUE_BV_ONES => true
  | .SPECIAL_VALUE_BV_MIN_SIGNED => true
  | .SPECIAL_VALUE_BV_MAX_SIGNED => true
  | _ => false

/-- The five Bitwuzla recognisers that `check_is_bv_value` chooses from
(`bitwuzla_term_is_bv_value_zero` and so on): the type `BzlaTermFunBoolUnary`
restricted to the functions the source stores in it. -/
inductive BzlaTermFunBoolUnary
  | bitwuzla_term_is_bv_value_zero
  | bitwuzla_term_is_bv_value_one
  | bitwuzla_term_is_bv_value_ones
  | bitwuzla_term_is_bv_value_min_signed
  | bitwuzla_term_is_bv_value_max_signed
  deriving DecidableEq, Repr

/-- What the library knows about a bit-vector value term: its width
(`bitwuzla_term_bv_get_size`) and the number its bits denote. -/
structure BvValue where
  bw : Nat
  val : Nat
  deriving DecidableEq, Repr

/-- The standard meaning of the recognisers on a bit-vector value: zero is
`0`, one is `1`, ones is `2^bw - 1`, min_signed is `2^(bw-1)` and max_signed is
`2^(bw-1) - 1`. -/
def BzlaTermFunBoolUnary.apply (f : BzlaTermFunBoolUnary) (node : BvValue) : Bool :=
  match f with
  | .bitwuzla_term_is_bv_value_zero => node.val == 0
  | .bitwuzla_term_is_bv_value_one => node.val == 1
  | .bitwuzla_term_is_bv_value_ones => node.val == 2 ^ node.bw - 1
  | .bitwuzla_term_is_bv_value_min_signed => node.val == 2 ^ (node.bw - 1)
  | .bitwuzla_term_is_bv_value_max_signed => node.val == 2 ^ (node.bw - 1) - 1

/-- The term that the library constructor of a bit-vector special value
(`bitwuzla_mk_bv_zero`, `_one`, `_ones`, `_min_signed`, `_max_signed`) builds
for a sort of width `bw`. -/
def special_bv_value (kind : SpecialValueKind) (bw : Nat) : BvValue :=
  match kind with
  | .SPECIAL_VALUE_BV_ONE => ⟨bw, 1⟩
  | .SPECIAL_VALUE_BV_ONES => ⟨bw, 2 ^ bw - 1⟩
  | .SPECIAL_VALUE_BV_MIN_SIGNED => ⟨bw, 2 ^ (bw - 1)⟩
  | .SPECIAL_VALUE_BV_MAX_SIGNED => ⟨bw, 2 ^ (bw - 1) - 1⟩
  | _ => ⟨bw, 0⟩

/-- The enumeration `RNGenerator::Choice`. -/
inductive Choice
  | FIRST
  | SECOND
  | THIRD
  deriving DecidableEq, Repr

/-- The vectors `is_funs` and `is_not_funs` that `check_is_bv_value` fills in
its first branch, for a special value kind and the width `bw` of the node. The
last `else` asserts that the kind is `SPECIAL_VALUE_BV_MAX_SIGNED`. -/
def check_is_bv_value_funs (kind : SpecialValueKind) (bw : Nat) :
    Except Error (List BzlaTermFunBoolUnary × List BzlaTermFunBoolUnary) :=
  if kind = .SPECIAL_VALUE_BV_ONE then
    if bw > 1 then
      .ok ([.bitwuzla_term_is_bv_value_one],
        [.bitwuzla_term_is_bv_value_zero, .bitwuzla_term_is_bv_value_ones,
         .bitwuzla_term_is_bv_value_min_signed, .bitwuzla_term_is_bv_value_max_signed])
    else
      .ok ([.bitwuzla_term_is_bv_value_one, .bitwuzla_term_is_bv_value_ones,
          .bitwuzla_term_is_bv_value_min_signed],
        [.bitwuzla_term_is_bv_value_zero, .bitwuzla_term_is_bv_value_max_signed])
  else if kind = .SPECIAL_VALUE_BV_ONES then
    if bw > 1 then
      .ok ([.bitwuzla_term_is_bv_value_ones],
        [.bitwuzla_term_is_bv_value_one, .bitwuzla_term_is_bv_value_zero,
         .bitwuzla_term_is_bv_value_min_signed, .bitwuzla_term_is_bv_value_max_signed])
    else
      .ok ([.bitwuzla_term_is_bv_value_ones, .bitwuzla_term_is_bv_value_one,
          .bitwuzla_term_is_bv_value_min_signed],
        [.bitwuzla_term_is_bv_value_zero, .bitwuzla_term_is_bv_value_max_signed])
  else if kind = .SPECIAL_VALUE_BV_ZERO then
    if bw > 1 then
      .ok ([.bitwuzla_term_is_bv_value_zero],
        [.bitwuzla_term_is_bv_value_one, .bitwuzla_term_is_bv_value_ones,
         .bitwuzla_term_is_bv_value_min_signed, .bitwuzla_term_is_bv_value_max_signed])
    else
      .ok ([.bitwuzla_term_is_bv_value_zero, .bitwuzla_term_is_bv_value_max_signed],
        [.bitwuzla_term_is_bv_value_one, .bitwuzla_term_is_bv_value_ones,
         .bitwuzla_term_is_bv_value_min_signed])
  else if kind = .SPECIAL_VALUE_BV_MIN_SIGNED then
    if bw > 1 then
      .ok ([.bitwuzla_term_is_bv_value_min_signed],
        [.bitwuzla_term_is_bv_value_zero, .bitwuzla_term_is_bv_value_one,
         .bitwuzla_term_is_bv_value_ones, .bitwuzla_term_is_bv_value_max_signed])
    else
      .ok ([.bitwuzla_term_is_bv_value_min_signed, .bitwuzla_term_is_bv_value_one,
          .bitwuzla_term_is_bv_value_ones],
        [.bitwuzla_term_is_bv_value_zero, .bitwuzla_term_is_bv_value_max_signed])
  else if kind ≠ .SPECIAL_VALUE_BV_MAX_SIGNED then
    .error .assertion
  else if bw > 1 then
    .ok ([.bitwuzla_term_is_bv_value_max_signed],
      [.bitwuzla_term_is_bv_value_zero, .bitwuzla_term_is_bv_value_one,
       .bitwuzla_term_is_bv_value_ones, .bitwuzla_term_is_bv_value_min_signed])
  else
    .ok ([.bitwuzla_term_is_bv_value_max_signed, .bitwuzla_term_is_bv_value_zero],
      [.bitwuzla_term_is_bv_value_one, .bitwuzla_term_is_bv_value_ones,
       .bitwuzla_term_is_bv_value_max_signed])

/-- The method `BzlaSolver::pick_fun_bool_unary`: `d_rng.pick_from_set` draws
the element at position `draw` modulo the size; drawing from an empty vector
is undefined. -/
def pick_fun_bool_unary (funs : List BzlaTermFunBoolUnary) (draw : Nat) :
    Except Error BzlaTermFunBoolUnary :=
  match funs[draw % funs.length]? with
  | some f => .ok f
  | none => .error .undefined_behaviour

/-- The method `BzlaSolver::check_is_bv_value` on a bit-vector value term.
`pick` is the outcome of `d_rng.pick_one_of_three()`, `coin` of
`d_rng.flip_coin()` and `draw` of the draw inside `pick_fun_bool_unary`. A
bit-vector value is a value (`bitwuzla_term_is_bv_value`) and is not a
constant (`bitwuzla_term_is_const`), so the second and third branch pass. -/
def check_is_bv_value (kind : SpecialValueKind) (node : BvValue) (pick : Choice) (coin : Bool)
    (draw : Nat) : Except Error Unit :=
  match pick with
  | .FIRST =>
    match check_is_bv_value_funs kind node.bw with
    | .error e => .error e
    | .ok (is_funs, is_not_funs) =>
      if coin then
        match pick_fun_bool_unary is_funs draw with
        | .error e => .error e
        | .ok f => if f.apply node then .ok () else .error .assertion
      else
        match pick_fun_bool_unary is_not_funs draw with
        | .error e => .error e
        | .ok f => if !f.apply node then .ok () else .error .assertion
  | .SECOND => .ok ()
  | .THIRD => .ok ()

/-- The consistency check inside `BzlaSolver::mk_value(Sort, bool)`, entered
when `d_rng.pick_with_prob(10)` holds: the result of `bitwuzla_mk_true` is the
bit-vector `1` of width 1 and is checked as `SPECIAL_VALUE_BV_ONE`, the result
of `bitwuzla_mk_false` is the bit-vector `0` of width 1 and is checked as
`SPECIAL_VALUE_BV_ZERO`. -/
def mk_value_bool_check (value : Bool) (pick : Choice) (coin : Bool) (draw : Nat) :
    Except Error Unit :=
  if value then check_is_bv_value .SPECIAL_VALUE_BV_ONE ⟨1, 1⟩ pick coin draw
  else check_is_bv_value .SPECIAL_VALUE_BV_ZERO ⟨1, 0⟩ pick coin draw

/-- The check that `BzlaSolver::mk_special_value` runs on the bit-vector
special value it has just built for a sort of width `bw`, when
`d_rng.pick_with_prob(10)` holds. -/
def mk_special_value_check (kind : SpecialValueKind) (bw : Nat) (pick : Choice) (coin : Bool)
    (draw : Nat) : Except Error Unit :=
  check_is_bv_value kind (special_bv_value kind bw) pick coin draw

/-! ## Special values -/

/-- The constructor call of the `SORT_BV` case of `mk_special_value`; the last
`else` asserts that the value is `SPECIAL_VALUE_BV_MAX_SIGNED`. -/
def mk_special_value_bv_call (bzla bzla_sort : Ptr) (value : SpecialValueKind) :
    Except Error BzlaCall :=
  if value = .SPECIAL_VALUE_BV_ZERO then .ok (.mk_bv_zero bzla bzla_sort)
  else if value = .SPECIAL_VALUE_BV_ONE then .ok (.mk_bv_one bzla bzla_sort)
  else if value = .SPECIAL_VALUE_BV_ONES then .ok (.mk_bv_ones bzla bzla_sort)
  else if value = .SPECIAL_VALUE_BV_MIN_SIGNED then .ok (.mk_bv_min_signed bzla bzla_sort)
  else if value = .SPECIAL_VALUE_BV_MAX_SIGNED then .ok (.mk_bv_max_signed bzla bzla_sort)
  else .error .assertion

/-- The constructor call of the `SORT_FP` case of `mk_special_value`; the last
`else` asserts that the value is `SPECIAL_VALUE_FP_NAN`. -/
def mk_special_value_fp_call (bzla bzla_sort : Ptr) (value : SpecialValueKind) :
    Except Error BzlaCall :=
  if value = .SPECIAL_VALUE_FP_POS_INF then .ok (.mk_fp_pos_inf bzla bzla_sort)
  else if value = .SPECIAL_VALUE_FP_NEG_INF then .ok (.mk_fp_neg_inf bzla bzla_sort)
  else if value = .SPECIAL_VALUE_FP_POS_ZERO then .ok (.mk_fp_pos_zero bzla bzla_sort)
  else if value = .SPECIAL_VALUE_FP_NEG_ZERO then .ok (.mk_fp_neg_zero bzla bzla_sort)
  else if value = .SPECIAL_VALUE_FP_NAN then .ok (.mk_fp_nan bzla bzla_sort)
  else .error .assertion

/-- The constructor call of the `SORT_RM` case of `mk_special_value`; the last
`else` asserts that the value is `SPECIAL_VALUE_RM_RTZ`. -/
def mk_special_value_rm_call (bzla : Ptr) (value : SpecialValueKind) : Except Error BzlaCall :=
  if value = .SPECIAL_VALUE_RM_RNA then .ok (.mk_rm_value bzla .BITWUZLA_RM_RNA)
  else if value = .SPECIAL_VALUE_RM_RNE then .ok (.mk_rm_value bzla .BITWUZLA_RM_RNE)
  else if value = .SPECIAL_VALUE_RM_RTN then .ok (.mk_rm_value bzla .BITWUZLA_RM_RTN)
  else if value = .SPECIAL_VALUE_RM_RTP then .ok (.mk_rm_value bzla .BITWUZLA_RM_RTP)
  else if value = .SPECIAL_VALUE_RM_RTZ then .ok (.mk_rm_value bzla .BITWUZLA_RM_RTZ)
  else .error .assertion

/-- The method `BzlaSolver::mk_special_value`. `check` is the outcome of
`d_rng.pick_with_prob(10)`; `pick`, `coin` and `draw` are the choices drawn
inside `check_is_bv_value`, which sees the value just built at the width of
the sort. In the `default` case the condition of `MURXLA_CHECK_CONFIG` is
`sort->is_bv()`, which asks the library about the handle; when it holds, the
method goes on to `assert(bzla_res)` with `bzla_res` still null. -/
def BzlaSolver.mk_special_value (be : Backend) (s : BzlaSolver) (sort : SortPtr)
    (value : SpecialValueKind) (check : Bool) (pick : Choice) (coin : Bool) (draw : Nat) :
    Outcome Term :=
  match dynamic_cast_BzlaSort sort with
  | none => (.error .assertion, s)
  | some bzla_sort =>
    match bzla_sort.d_kind with
    | .SORT_BV =>
      match mk_special_value_bv_call s.d_solver bzla_sort.d_sort value with
      | .error e => (.error e, s)
      | .ok c =>
        let r := s.call be c
        if check then
          match check_is_bv_value value
              (special_bv_value value (be.sort_bv_get_size bzla_sort.d_sort)) pick coin draw with
          | .error e => (.error e, r.2)
          | .ok _ => r.2.wrap_term r.1
        else r.2.wrap_term r.1
    | .SORT_FP =>
      match mk_special_value_fp_call s.d_solver bzla_sort.d_sort value with
      | .error e => (.error e, s)
      | .ok c =>
        let r := s.call be c
        r.2.wrap_term r.1
    | .SORT_RM =>
      match mk_special_value_rm_call s.d_solver value with
      | .error e => (.error e, s)
      | .ok c =>
        let r := s.call be c
        r.2.wrap_term r.1
    | kind =>
      if be.sort_is_bv bzla_sort.d_sort then (.error .assertion, s)
      else
        (.error (.config ("unexpected sort of kind '" ++ kind.str
          ++ "' as argument to BzlaSolver::mk_special_value, expected "
          ++ "bit-vector, floating-point or RoundingMode sort")), s)

/-! ## The solver manager and the Bitwuzla-specific actions -/

/-- The enumeration `Solver::Result` of `solver.hpp`. -/
inductive Result
  | UNKNOWN
  | SAT
  | UNSAT
  deriving DecidableEq, Repr

/-- The class `SolverManager` (`solver_manager.hpp`), as far as the Bitwuzla
actions read or write it: the solver it owns, the flags of the solver state,
the set of assumed formulas, the term database and the map from untraced ids
to terms. The trace stream `d_trace` is the trace part of `d_solver.log`. -/
structure SolverManager where
  d_solver : BzlaSolver
  d_incremental : Bool := false
  d_sat_called : Bool := false
  d_sat_result : Result := Result.UNKNOWN
  d_assumptions : List Term := []
  d_term_db : List Term := []
  d_untraced_terms : List (Nat × Term) := []
  d_simple_symbols : Bool := false
  d_n_symbols : Nat := 0
  deriving DecidableEq, Repr

/-- What an action leaves behind: the value it returns or the way it fails,
and the state of the solver manager. -/
abbrev ActionOutcome (α : Type) := Except Error α × SolverManager

/-- The functions of `util.cpp` that `untrace` calls. `util.cpp` is not among
the sources, so they are parameters; either may reject its argument. -/
structure Util where
  str_to_uint32 : String → Except Error Nat
  str_to_str : String → Except Error String

/-- Modelled from the spec: `SolverManager::get_term` of `solver_manager.cpp`,
which is not among the sources. It returns the term registered for an id of
the trace, and the null pointer when the id is not registered ("Missing ids
are a fatal parse error" is then raised by the caller). -/
def SolverManager.get_term (smgr : SolverManager) (id : Nat) : Term :=
  match smgr.d_untraced_terms.lookup id with
  | some term => term
  | none => none

/-- Modelled from the spec: `SolverManager::clear` of `solver_manager.cpp`,
which is not among the sources: "`clear` drops data structures but keeps
config". -/
def SolverManager.clear (smgr : SolverManager) : SolverManager :=
  { smgr with d_assumptions := [], d_term_db := [], d_untraced_terms := [] }

/-- Modelled from the spec: the stream operator for `Term` (of `solver.cpp`,
not among the sources); in a trace line a term is referenced by id, `t`
followed by the number. -/
def Term.str : Term → String
  | some (.bzla t) => "t" ++ toString t.d_id
  | some (.foreign d_id) => "t" ++ toString d_id
  | none => "(null)"

/-- Modelled from the spec: the macro `MURXLA_TRACE`, whose header is not among
the sources: the streamed text becomes one line of the trace ("the tracer
emits one line per action executed"). -/
def SolverManager.MURXLA_TRACE (smgr : SolverManager) (line : String) : SolverManager :=
  { smgr with d_solver := { smgr.d_solver with log := smgr.d_solver.log ++ [Event.trace line] } }

/-- Issue a call into Bitwuzla through the solver the manager owns. -/
def SolverManager.call (be : Backend) (smgr : SolverManager) (c : BzlaCall) :
    Nat × SolverManager :=
  ((smgr.d_solver.call be c).1, { smgr with d_solver := (smgr.d_solver.call be c).2 })

/-- Modelled from the spec: the macro `MURXLA_CHECK_TRACE_NTOKENS` of
`except.hpp`, not among the sources: a trace error unless the line has the
expected number of tokens. -/
def MURXLA_CHECK_TRACE_NTOKENS (kind : ActionKind) (expected ntokens : Nat) : Except Error Unit :=
  if ntokens = expected then .ok ()
  else .error (.trace ("expected " ++ toString expected ++ " argument(s) to '" ++ kind
    ++ "', got " ++ toString ntokens))

/-- Modelled from the spec: the macro `MURXLA_CHECK_TRACE_EMPTY` of
`except.hpp`, not among the sources: a trace error unless the line has no token. -/
def MURXLA_CHECK_TRACE_EMPTY (kind : ActionKind) (tokens : List String) : Except Error Unit :=
  if tokens.isEmpty then .ok ()
  else .error (.trace ("unexpected argument(s) to '" ++ kind ++ "'"))

/-- Modelled from the spec: the macro `MURXLA_CHECK_TRACE_TERM` of
`except.hpp`, not among the sources: a trace error when the term is the null
pointer ("Missing ids are a fatal parse error"). -/
def MURXLA_CHECK_TRACE_TERM (kind : ActionKind) (term : Term) (id : String) :
    Except Error Unit :=
  if term.isSome then .ok ()
  else .error (.trace ("unknown term id '" ++ id ++ "' as argument to '" ++ kind ++ "'"))

namespace BzlaSolver

def ACTION_IS_UNSAT_ASSUMPTION : ActionKind := "bzla-is-unsat-assumption"
def ACTION_FIXATE_ASSUMPTIONS : ActionKind := "bzla-fixate-assumptions"
def ACTION_RESET_ASSUMPTIONS : ActionKind := "bzla-reset-assumptions"
def ACTION_SIMPLIFY : ActionKind := "bzla-simplify"
def ACTION_TERM_SET_SYMBOL : ActionKind := "bzla-term-set-symbol"
def STATE_FIX_RESET_ASSUMPTIONS : StateKind := "bzla-fix-reset-assumptions"

end BzlaSolver

/-- The method `BzlaActionIsUnsatAssumption::_run`. -/
def BzlaActionIsUnsatAssumption._run (be : Backend) (smgr : SolverManager) (term : Term) :
    ActionOutcome Unit :=
  let traced := smgr.MURXLA_TRACE (BzlaSolver.ACTION_IS_UNSAT_ASSUMPTION ++ " " ++ Term.str term)
  match get_bzla_term term with
  | .error e => (.error e, traced)
  | .ok bzla_term =>
    (.ok (), (traced.call be (.is_unsat_assumption traced.d_solver.d_solver bzla_term)).2)

/-- The method `BzlaActionIsUnsatAssumption::untrace`. -/
def BzlaActionIsUnsatAssumption.untrace (be : Backend) (util : Util) (smgr : SolverManager)
    (tokens : List String) : ActionOutcome Nat :=
  match MURXLA_CHECK_TRACE_NTOKENS BzlaSolver.ACTION_IS_UNSAT_ASSUMPTION 1 tokens.length with
  | .error e => (.error e, smgr)
  | .ok _ =>
    match tokens[0]? with
    | none => (.error .undefined_behaviour, smgr)
    | some token0 =>
      match util.str_to_uint32 token0 with
      | .error e => (.error e, smgr)
      | .ok id =>
        let term := smgr.get_term id
        match MURXLA_CHECK_TRACE_TERM BzlaSolver.ACTION_IS_UNSAT_ASSUMPTION term token0 with
        | .error e => (.error e, smgr)
        | .ok _ =>
          match BzlaActionIsUnsatAssumption._run be smgr term with
          | (.error e, after) => (.error e, after)
          | (.ok _, after) => (.ok 0, after)

/-- The method `BzlaActionFixateAssumptions::_run`. -/
def BzlaActionFixateAssumptions._run (be : Backend) (smgr : SolverManager) : ActionOutcome Unit :=
  let cleared := (smgr.MURXLA_TRACE BzlaSolver.ACTION_FIXATE_ASSUMPTIONS).clear
  (.ok (), (cleared.call be (.fixate_assumptions cleared.d_solver.d_solver)).2)

/-- The method `BzlaActionFixateAssumptions::untrace`. -/
def BzlaActionFixateAssumptions.untrace (be : Backend) (smgr : SolverManager)
    (tokens : List String) : ActionOutcome Nat :=
  match MURXLA_CHECK_TRACE_EMPTY BzlaSolver.ACTION_FIXATE_ASSUMPTIONS tokens with
  | .error e => (.error e, smgr)
  | .ok _ =>
    match BzlaActionFixateAssumptions._run be smgr with
    | (.error e, after) => (.error e, after)
    | (.ok _, after) => (.ok 0, after)

/-- The method `BzlaActionResetAssumptions::_run`. -/
def BzlaActionResetAssumptions._run (be : Backend) (smgr : SolverManager) : ActionOutcome Unit :=
  let cleared := (smgr.MURXLA_TRACE BzlaSolver.ACTION_RESET_ASSUMPTIONS).clear
  (.ok (), (cleared.call be (.reset_assumptions cleared.d_solver.d_solver)).2)

/-- The method `BzlaActionResetAssumptions::untrace`. -/
def BzlaActionResetAssumptions.untrace (be : Backend) (smgr : SolverManager)
    (tokens : List String) : ActionOutcome Nat :=
  match MURXLA_CHECK_TRACE_EMPTY BzlaSolver.ACTION_RESET_ASSUMPTIONS tokens with
  | .error e => (.error e, smgr)
  | .ok _ =>
    match BzlaActionResetAssumptions._run be smgr with
    | (.error e, after) => (.error e, after)
    | (.ok _, after) => (.ok 0, after)

/-- The method `BzlaActionSimplify::_run`. -/
def BzlaActionSimplify._run (be : Backend) (smgr : SolverManager) : ActionOutcome Unit :=
  let traced := smgr.MURXLA_TRACE BzlaSolver.ACTION_SIMPLIFY
  (.ok (), (traced.call be (.simplify traced.d_solver.d_solver)).2)

/-- The method `BzlaActionSimplify::untrace`. -/
def BzlaActionSimplify.untrace (be : Backend) (smgr : SolverManager)
    (tokens : List String) : ActionOutcome Nat :=
  match MURXLA_CHECK_TRACE_EMPTY BzlaSolver.ACTION_SIMPLIFY tokens with
  | .error e => (.error e, smgr)
  | .ok _ =>
    match BzlaActionSimplify._run be smgr with
    | (.error e, after) => (.error e, after)
    | (.ok _, after) => (.ok 0, after)

/-- The method `BzlaActionTermSetSymbol::_run`. -/
def BzlaActionTermSetSymbol._run (be : Backend) (smgr : SolverManager) (term : Term)
    (symbol : String) : ActionOutcome Unit :=
  let traced := smgr.MURXLA_TRACE
    (BzlaSolver.ACTION_TERM_SET_SYMBOL ++ " " ++ Term.str term ++ " \"" ++ symbol ++ "\"")
  match get_bzla_term term with
  | .error e => (.error e, traced)
  | .ok bzla_term => (.ok (), (traced.call be (.term_set_symbol bzla_term symbol)).2)

/-- The method `BzlaActionTermSetSymbol::untrace`. -/
def BzlaActionTermSetSymbol.untrace (be : Backend) (util : Util) (smgr : SolverManager)
    (tokens : List String) : ActionOutcome Nat :=
  match MURXLA_CHECK_TRACE_NTOKENS BzlaSolver.ACTION_TERM_SET_SYMBOL 2 tokens.length with
  | .error e => (.error e, smgr)
  | .ok _ =>
    match tokens[0]?, tokens[1]? with
    | some token0, some token1 =>
      match util.str_to_uint32 token0 with
      | .error e => (.error e, smgr)
      | .ok id =>
        let term := smgr.get_term id
        match MURXLA_CHECK_TRACE_TERM BzlaSolver.ACTION_TERM_SET_SYMBOL term token0 with
        | .error e => (.error e, smgr)
        | .ok _ =>
          match util.str_to_str token1 with
          | .error e => (.error e, smgr)
          | .ok symbol =>
            match BzlaActionTermSetSymbol._run be smgr term symbol with
            | (.error e, after) => (.error e, after)
            | (.ok _, after) => (.ok 0, after)
    | _, _ => (.error .undefined_behaviour, smgr)

/-- The statement `return value;` that follows a call of `_run`: when the call
has failed, its failure is the outcome. -/
def then_return {α : Type} (o : ActionOutcome Unit) (value : α) : ActionOutcome α :=
  match o with
  | (.error e, after) => (.error e, after)
  | (.ok _, after) => (.ok value, after)

/-- Modelled from the spec: `SolverManager::has_assumed` of
`solver_manager.cpp`, which is not among the sources; its declaration says
"Return true if d_assumptions is not empty". -/
def SolverManager.has_assumed (smgr : SolverManager) : Bool :=
  !smgr.d_assumptions.isEmpty

/-- Modelled from the spec: `SolverManager::pick_assumed_assumption` of
`solver_manager.cpp`, which is not among the sources; its declaration says
"Pick assumption out of the assumed assumptions list. Requires that
d_assumptions is not empty". `draw` is the random draw. -/
def SolverManager.pick_assumed_assumption (smgr : SolverManager) (draw : Nat) :
    Except Error Term :=
  match smgr.d_assumptions[draw % smgr.d_assumptions.length]? with
  | some term => .ok term
  | none => .error .assertion

/-- Modelled from the spec: `SolverManager::has_term()` of `solver_manager.cpp`,
which is not among the sources; its declaration says "Return true if term
database contains any term". -/
def SolverManager.has_term (smgr : SolverManager) : Bool :=
  !smgr.d_term_db.isEmpty

/-- Modelled from the spec: `SolverManager::pick_term()` of
`solver_manager.cpp`, which is not among the sources; its declaration says
"Pick any term. Requires that terms of any sort kind exist". `draw` is the
random draw. -/
def SolverManager.pick_term (smgr : SolverManager) (draw : Nat) : Except Error Term :=
  match smgr.d_term_db[draw % smgr.d_term_db.length]? with
  | some term => .ok term
  | none => .error .assertion

/-- Modelled from the spec: `SolverManager::pick_symbol` of
`solver_manager.cpp`, which is not among the sources: "`pick_symbol` returns
either a fresh `_sN` when "simple symbols" is on, or a randomly drawn
printable name otherwise". `drawn` is the randomly drawn name; the counter
`d_n_symbols` is a `uint32_t`. -/
def SolverManager.pick_symbol (smgr : SolverManager) (drawn : String) :
    String × SolverManager :=
  if smgr.d_simple_symbols then
    ("_s" ++ toString smgr.d_n_symbols,
      { smgr with d_n_symbols := (smgr.d_n_symbols + 1) % 2 ^ 32 })
  else (drawn, smgr)

/-- The method `BzlaActionIsUnsatAssumption::run`; `draw` is the random draw
of `pick_assumed_assumption`. -/
def BzlaActionIsUnsatAssumption.run (be : Backend) (smgr : SolverManager) (draw : Nat) :
    ActionOutcome Bool :=
  if !smgr.d_solver.is_initialized then (.error .assertion, smgr)
  else if !smgr.d_sat_called then (.ok false, smgr)
  else if smgr.d_sat_result ≠ Result.UNSAT then (.ok false, smgr)
  else if !smgr.d_incremental then (.ok false, smgr)
  else if !smgr.has_assumed then (.ok false, smgr)
  else
    match smgr.pick_assumed_assumption draw with
    | .error e => (.error e, smgr)
    | .ok term =>
      then_return (BzlaActionIsUnsatAssumption._run be smgr term) true

/-- The method `BzlaActionFixateAssumptions::run`. -/
def BzlaActionFixateAssumptions.run (be : Backend) (smgr : SolverManager) : ActionOutcome Bool :=
  if !smgr.d_solver.is_initialized then (.error .assertion, smgr)
  else if !smgr.d_incremental then (.ok false, smgr)
  else
    then_return (BzlaActionFixateAssumptions._run be smgr) true

/-- The method `BzlaActionResetAssumptions::run`. -/
def BzlaActionResetAssumptions.run (be : Backend) (smgr : SolverManager) : ActionOutcome Bool :=
  if !smgr.d_solver.is_initialized then (.error .assertion, smgr)
  else if !smgr.d_incremental then (.ok false, smgr)
  else
    then_return (BzlaActionResetAssumptions._run be smgr) true

/-- The method `BzlaActionSimplify::run`. -/
def BzlaActionSimplify.run (be : Backend) (smgr : SolverManager) : ActionOutcome Bool :=
  if !smgr.d_solver.is_initialized then (.error .assertion, smgr)
  else if smgr.d_solver.d_solver = 0 then (.ok false, smgr)
  else
    then_return (BzlaActionSimplify._run be smgr) true

/-- The method `BzlaActionTermSetSymbol::run`; `draw` is the random draw of
`pick_term` and `drawn` the name drawn by `pick_symbol`. -/
def BzlaActionTermSetSymbol.run (be : Backend) (smgr : SolverManager) (draw : Nat)
    (drawn : String) : ActionOutcome Bool :=
  if !smgr.d_solver.is_initialized then (.error .assertion, smgr)
  else if !smgr.has_term then (.ok false, smgr)
  else
    match smgr.pick_term draw with
    | .error e => (.error e, smgr)
    | .ok term =>
      let picked := smgr.pick_symbol drawn
      then_return (BzlaActionTermSetSymbol._run be picked.2 term picked.1) true

/-- The five Bitwuzla-specific actions. -/
inductive BzlaAction
  | is_unsat_assumption
  | fixate_assumptions
  | reset_assumptions
  | simplify
  | term_set_symbol
  deriving DecidableEq, Repr

/-- The virtual method `Action::untrace`, dispatched on the action. -/
def BzlaAction.untrace (be : Backend) (util : Util) (smgr : SolverManager)
    (tokens : List String) : BzlaAction → ActionOutcome Nat
  | .is_unsat_assumption => BzlaActionIsUnsatAssumption.untrace be util smgr tokens
  | .fixate_assumptions => BzlaActionFixateAssumptions.untrace be smgr tokens
  | .reset_assumptions => BzlaActionResetAssumptions.untrace be smgr tokens
  | .simplify => BzlaActionSimplify.untrace be smgr tokens
  | .term_set_symbol => BzlaActionTermSetSymbol.untrace be util smgr tokens

/-- The virtual method `Action::run`, dispatched on the action; `draw` and
`drawn` are the random choices of the actions that pick their arguments. -/
def BzlaAction.run (be : Backend) (smgr : SolverManager) (draw : Nat) (drawn : String) :
    BzlaAction → ActionOutcome Bool
  | .is_unsat_assumption => BzlaActionIsUnsatAssumption.run be smgr draw
  | .fixate_assumptions => BzlaActionFixateAssumptions.run be smgr
  | .reset_assumptions => BzlaActionResetAssumptions.run be smgr
  | .simplify => BzlaActionSimplify.run be smgr
  | .term_set_symbol => BzlaActionTermSetSymbol.run be smgr draw drawn

/-- The private method `_run` of an action, dispatched on the action; the
actions without arguments ignore `term` and `symbol`, and
`bzla-is-unsat-assumption` ignores `symbol`. -/
def BzlaAction._run (be : Backend) (smgr : SolverManager) (term : Term) (symbol : String) :
    BzlaAction → ActionOutcome Unit
  | .is_unsat_assumption => BzlaActionIsUnsatAssumption._run be smgr term
  | .fixate_assumptions => BzlaActionFixateAssumptions._run be smgr
  | .reset_assumptions => BzlaActionResetAssumptions._run be smgr
  | .simplify => BzlaActionSimplify._run be smgr
  | .term_set_symbol => BzlaActionTermSetSymbol._run be smgr term symbol

/-- The line that an action streams into `MURXLA_TRACE`: its kind, followed by
its term and by its symbol in double quotes when it has them. -/
def BzlaAction.line (term : Term) (symbol : String) : BzlaAction → String
  | .is_unsat_assumption => BzlaSolver.ACTION_IS_UNSAT_ASSUMPTION ++ " " ++ Term.str term
  | .fixate_assumptions => BzlaSolver.ACTION_FIXATE_ASSUMPTIONS
  | .reset_assumptions => BzlaSolver.ACTION_RESET_ASSUMPTIONS
  | .simplify => BzlaSolver.ACTION_SIMPLIFY
  | .term_set_symbol =>
    BzlaSolver.ACTION_TERM_SET_SYMBOL ++ " " ++ Term.str term ++ " \"" ++ symbol ++ "\""

/-- The number of tokens that the trace line of an action is to carry: the
term id for `bzla-is-unsat-assumption`, the term id and the symbol for
`bzla-term-set-symbol`, nothing for the other three. -/
def BzlaAction.ntokens : BzlaAction → Nat
  | .is_unsat_assumption => 1
  | .term_set_symbol => 2
  | _ => 0

/-- The tokens of a trace line resolve to the arguments that `run` picks in
the manager state `smgr` with the random choices `draw` and `drawn`: the id
token is mapped to the picked term, the symbol token to the picked symbol, and
an action without arguments has no token. -/
def resolves (util : Util) (smgr : SolverManager) (draw : Nat) (drawn : String)
    (tokens : List String) : BzlaAction → Prop
  | .is_unsat_assumption =>
    ∃ token0 id, tokens = [token0] ∧ util.str_to_uint32 token0 = .ok id
      ∧ smgr.pick_assumed_assumption draw = .ok (smgr.get_term id)
  | .term_set_symbol =>
    ∃ token0 token1 id, tokens = [token0, token1] ∧ util.str_to_uint32 token0 = .ok id
      ∧ smgr.pick_term draw = .ok (smgr.get_term id)
      ∧ util.str_to_str token1 = .ok (smgr.pick_symbol drawn).1
  | _ => tokens = []

/-- The kinds that the Bitwuzla backend defines: its fourteen operator kinds,
its five action kinds and its state kind. -/
def backend_defined_kinds : List String :=
  solver_specific_op_kinds
    ++ [BzlaSolver.ACTION_IS_UNSAT_ASSUMPTION, BzlaSolver.ACTION_FIXATE_ASSUMPTIONS,
        BzlaSolver.ACTION_RESET_ASSUMPTIONS, BzlaSolver.ACTION_SIMPLIFY,
        BzlaSolver.ACTION_TERM_SET_SYMBOL]
    ++ [BzlaSolver.STATE_FIX_RESET_ASSUMPTIONS]

/-- Whether a string begins with the solver id `bzla-`. -/
def begins_with_bzla (kind : String) : Bool :=
  kind.toList.take 5 == ['b', 'z', 'l', 'a', '-']

/-! ## The state machine -/

/-- The actions that `configure_fsm` creates with `fsm->new_action<T>()`. -/
inductive FsmAction
  | TransitionDefault
  | bzla (action : BzlaAction)
  deriving DecidableEq, Repr

/-- Modelled from the spec: an entry of the action list of a state (`fsm.hpp`,
not among the sources): "Each state owns a weighted list of actions". `d_next`
is the state to move to after the action, `none` for the null pointer; a state
is referred to by its position in the machine. -/
structure ActionTuple where
  d_action : FsmAction
  d_priority : Nat
  d_next : Option Nat
  deriving DecidableEq, Repr

/-- Modelled from the spec: the class `State` (`fsm.hpp`, not among the
sources): the kind of the state and its weighted list of actions. -/
structure State where
  d_kind : StateKind
  d_actions : List ActionTuple := []
  deriving DecidableEq, Repr

/-- Modelled from the spec: the class `FSM` (`fsm.hpp`, not among the
sources): its states, in the order of their creation. -/
structure FSM where
  d_states : List State := []
  deriving DecidableEq, Repr

/-- Modelled from the spec: `State::add_action(action, priority, next)`
(`fsm.cpp`, not among the sources) appends an entry to the action list. -/
def State.add_action (state : State) (action : FsmAction) (priority : Nat)
    (next : Option Nat) : State :=
  { state with d_actions := state.d_actions ++ [⟨action, priority, next⟩] }

/-- Modelled from the spec: `FSM::get_state(kind)` (`fsm.cpp`, not among the
sources): the state of the given kind, `none` when the machine has none. -/
def FSM.get_state (fsm : FSM) (kind : StateKind) : Option Nat :=
  if (fsm.d_states.map State.d_kind).indexOf kind < fsm.d_states.length then
    some ((fsm.d_states.map State.d_kind).indexOf kind)
  else none

/-- Modelled from the spec: `FSM::new_state(kind)` (`fsm.cpp`, not among the
sources) creates a state without actions and returns it. -/
def FSM.new_state (fsm : FSM) (kind : StateKind) : Nat × FSM :=
  (fsm.d_states.length, { d_states := fsm.d_states ++ [{ d_kind := kind }] })

/-- The call `state->add_action(action, priority, next)` on a state of the machine. -/
def FSM.add_action (fsm : FSM) (state : Nat) (action : FsmAction) (priority : Nat)
    (next : Option Nat) : FSM :=
  match fsm.d_states[state]? with
  | some st => { d_states := fsm.d_states.set state (st.add_action action priority next) }
  | none => fsm

/-- Modelled from the spec: `FSM::add_action_to_all_states(action, priority,
excluded_states, next)` (`fsm.cpp`, not among the sources) adds the action to
every state whose kind is not excluded. -/
def FSM.add_action_to_all_states (fsm : FSM) (action : FsmAction) (priority : Nat)
    (excluded_states : List StateKind) (next : Option Nat) : FSM :=
  { d_states := fsm.d_states.map fun st =>
      if st.d_kind ∈ excluded_states then st else st.add_action action priority next }

/-- Modelled from the spec: `FSM::add_action_to_all_states_next(transition,
priority, target, excluded_states)` (`fsm.cpp`, not among the sources) adds
the transition into the target state to every state whose kind is not
excluded. -/
def FSM.add_action_to_all_states_next (fsm : FSM) (action : FsmAction) (priority : Nat)
    (state : Nat) (excluded_states : List StateKind) : FSM :=
  fsm.add_action_to_all_states action priority excluded_states (some state)

/-- The method `BzlaSolver::configure_fsm`. `ASSERT` and `OPT` are the kinds
`State::ASSERT` and `State::OPT` of `fsm.hpp`, which is not among the sources. -/
def BzlaSolver.configure_fsm (ASSERT OPT : StateKind) (fsm : FSM) : FSM :=
  let s_assert := fsm.get_state ASSERT
  let created := fsm.new_state BzlaSolver.STATE_FIX_RESET_ASSUMPTIONS
  let s_fix_reset_assumptions := created.1
  let t_default := FsmAction.TransitionDefault
  let a_failed := FsmAction.bzla .is_unsat_assumption
  let fsm1 := created.2.add_action_to_all_states a_failed 100 [] none
  let a_fix_assumptions := FsmAction.bzla .fixate_assumptions
  let a_reset_assumptions := FsmAction.bzla .reset_assumptions
  let fsm2 := fsm1.add_action s_fix_reset_assumptions a_fix_assumptions 5 none
  let fsm3 := fsm2.add_action s_fix_reset_assumptions a_reset_assumptions 5 none
  let fsm4 := fsm3.add_action s_fix_reset_assumptions t_default 1 s_assert
  let fsm5 := fsm4.add_action_to_all_states_next t_default 2 s_fix_reset_assumptions [OPT]
  let a_simplify := FsmAction.bzla .simplify
  let fsm6 := fsm5.add_action_to_all_states a_simplify 100 [] none
  let a_set_symbol := FsmAction.bzla .term_set_symbol
  fsm6.add_action_to_all_states a_set_symbol 100 [] none

/-- Modelled from the spec: the method `run` of an action of the machine.
`TransitionDefault::run` (`fsm.hpp`, not among the sources) is the escape
transition of a state: it is always enabled and does nothing. -/
def FsmAction.run (be : Backend) (smgr : SolverManager) (draw : Nat) (drawn : String) :
    FsmAction → ActionOutcome Bool
  | .TransitionDefault => (.ok true, smgr)
  | .bzla action => action.run be smgr draw drawn

/-- The second machine keeps the states of the first at their positions, with
their kinds and with the actions they had. -/
def FSM.kept_by (fsm later : FSM) : Prop :=
  ∀ (i : Nat) (st : State), fsm.d_states[i]? = some st →
    ∃ st1, later.d_states[i]? = some st1 ∧ st1.d_kind = st.d_kind
      ∧ ∀ t ∈ st.d_actions, t ∈ st1.d_actions

/-! ## The random number generator in the actions -/

/-- The state of the random number generator `d_rng`, which the solver manager
holds by reference (`RNGenerator& d_rng`). The class is not among the sources;
its state is kept as a number, and a draw may change it. -/
structure RNGenerator where
  state : Nat
  deriving DecidableEq, Repr

/-- The picks of the solver manager that `run` of a Bitwuzla-specific action
calls: `pick_assumed_assumption()`, `pick_term()` and `pick_symbol()`. Their
bodies are in `solver_manager.cpp`, which is not among the sources, so they are
parameters: each reads the manager and the state of `d_rng`, and returns what
it has picked together with the state of the generator after its draws.
`pick_symbol` also returns the manager, whose symbol counter it may step. -/
structure Picks where
  pick_assumed_assumption : SolverManager → RNGenerator → Except Error Term × RNGenerator
  pick_term : SolverManager → RNGenerator → Except Error Term × RNGenerator
  pick_symbol : SolverManager → RNGenerator → (String × SolverManager) × RNGenerator

/-- The method `BzlaActionIsUnsatAssumption::run`, with the generator as part
of the state: the outcome of `run` and the state of `d_rng` it leaves. The one
pick follows the four gates. -/
def BzlaActionIsUnsatAssumption.run_rng (be : Backend) (picks : Picks) (smgr : SolverManager)
    (rng : RNGenerator) : ActionOutcome Bool × RNGenerator :=
  if !smgr.d_solver.is_initialized then ((.error .assertion, smgr), rng)
  else if !smgr.d_sat_called then ((.ok false, smgr), rng)
  else if smgr.d_sat_result ≠ Result.UNSAT then ((.ok false, smgr), rng)
  else if !smgr.d_incremental then ((.ok false, smgr), rng)
  else if !smgr.has_assumed then ((.ok false, smgr), rng)
  else
    let picked := picks.pick_assumed_assumption smgr rng
    match picked.1 with
    | .error e => ((.error e, smgr), picked.2)
    | .ok term =>
      (then_return (BzlaActionIsUnsatAssumption._run be smgr term) true, picked.2)

/-- The method `BzlaActionFixateAssumptions::run`, with the generator as part
of the state; neither `run` nor `_run` picks anything. -/
def BzlaActionFixateAssumptions.run_rng (be : Backend) (smgr : SolverManager)
    (rng : RNGenerator) : ActionOutcome Bool × RNGenerator :=
  if !smgr.d_solver.is_initialized then ((.error .assertion, smgr), rng)
  else if !smgr.d_incremental then ((.ok false, smgr), rng)
  else
    (then_return (BzlaActionFixateAssumptions._run be smgr) true, rng)

/-- The method `BzlaActionResetAssumptions::run`, with the generator as part
of the state; neither `run` nor `_run` picks anything. -/
def BzlaActionResetAssumptions.run_rng (be : Backend) (smgr : SolverManager)
    (rng : RNGenerator) : ActionOutcome Bool × RNGenerator :=
  if !smgr.d_solver.is_initialized then ((.error .assertion, smgr), rng)
  else if !smgr.d_incremental then ((.ok false, smgr), rng)
  else
    (then_return (BzlaActionResetAssumptions._run be smgr) true, rng)

/-- The method `BzlaActionSimplify::run`, with the generator as part of the
state; neither `run` nor `_run` picks anything. -/
def BzlaActionSimplify.run_rng (be : Backend) (smgr : SolverManager)
    (rng : RNGenerator) : ActionOutcome Bool × RNGenerator :=
  if !smgr.d_solver.is_initialized then ((.error .assertion, smgr), rng)
  else if smgr.d_solver.d_solver = 0 then ((.ok false, smgr), rng)
  else
    (then_return (BzlaActionSimplify._run be smgr) true, rng)

/-- The method `BzlaActionTermSetSymbol::run`, with the generator as part of
the state. The two picks follow the gate, `pick_term()` before
`pick_symbol()`. -/
def BzlaActionTermSetSymbol.run_rng (be : Backend) (picks : Picks) (smgr : SolverManager)
    (rng : RNGenerator) : ActionOutcome Bool × RNGenerator :=
  if !smgr.d_solver.is_initialized then ((.error .assertion, smgr), rng)
  else if !smgr.has_term then ((.ok false, smgr), rng)
  else
    let picked := picks.pick_term smgr rng
    match picked.1 with
    | .error e => ((.error e, smgr), picked.2)
    | .ok term =>
      let symbol := picks.pick_symbol smgr picked.2
      (then_return (BzlaActionTermSetSymbol._run be symbol.1.2 term symbol.1.1) true, symbol.2)

/-- The virtual method `Action::run`, dispatched on the action, with the
generator as part of the state. -/
def BzlaAction.run_rng (be : Backend) (picks : Picks) (smgr : SolverManager)
    (rng : RNGenerator) : BzlaAction → ActionOutcome Bool × RNGenerator
  | .is_unsat_assumption => BzlaActionIsUnsatAssumption.run_rng be picks smgr rng
  | .fixate_assumptions => BzlaActionFixateAssumptions.run_rng be smgr rng
  | .reset_assumptions => BzlaActionResetAssumptions.run_rng be smgr rng
  | .simplify => BzlaActionSimplify.run_rng be smgr rng
  | .term_set_symbol => BzlaActionTermSetSymbol.run_rng be picks smgr rng

/-- Picks that draw the given values: each pick is the pick of the manager
for the value drawn and steps the generator once. -/
def Picks.drawing (draw : Nat) (drawn : String) : Picks where
  pick_assumed_assumption := fun smgr rng =>
    (smgr.pick_assumed_assumption draw, { state := rng.state + 1 })
  pick_term := fun smgr rng => (smgr.pick_term draw, { state := rng.state + 1 })
  pick_symbol := fun smgr rng => (smgr.pick_symbol drawn, { state := rng.state + 1 })

/-! ## Checking satisfiability -/

/-- The enumerator `BITWUZLA_UNKNOWN` of `BitwuzlaResult`, with its value in
the header of the library. -/
def BITWUZLA_UNKNOWN : Nat := 0

/-- The enumerator `BITWUZLA_SAT` of `BitwuzlaResult`. -/
def BITWUZLA_SAT : Nat := 10

/-- The enumerator `BITWUZLA_UNSAT` of `BitwuzlaResult`. -/
def BITWUZLA_UNSAT : Nat := 20

/-- The method `BzlaSolver::check_sat`. -/
def BzlaSolver.check_sat (be : Backend) (s : BzlaSolver) : Outcome Result :=
  let r := s.call be (.check_sat s.d_solver)
  if r.1 = BITWUZLA_SAT then (.ok Result.SAT, r.2)
  else if r.1 = BITWUZLA_UNSAT then (.ok Result.UNSAT, r.2)
  else if r.1 = BITWUZLA_UNKNOWN then (.ok Result.UNKNOWN, r.2)
  else (.error .assertion, r.2)

/-- The loop of `BzlaSolver::check_sat_assuming`:
`for (const Term& t : assumptions) bitwuzla_assume(d_solver, get_bzla_term(t))`. -/
def BzlaSolver.assume_each (be : Backend) : BzlaSolver → List Term → Outcome Unit
  | s, [] => (.ok (), s)
  | s, t :: assumptions =>
    match get_bzla_term t with
    | .error e => (.error e, s)
    | .ok bzla_term =>
      BzlaSolver.assume_each be (s.call be (.assume s.d_solver bzla_term)).2 assumptions

/-- The method `BzlaSolver::check_sat_assuming`. -/
def BzlaSolver.check_sat_assuming (be : Backend) (s : BzlaSolver) (assumptions : List Term) :
    Outcome Result :=
  match s.assume_each be assumptions with
  | (.error e, after) => (.error e, after)
  | (.ok _, after) =>
    let r := after.call be (.check_sat after.d_solver)
    if r.1 = BITWUZLA_SAT then (.ok Result.SAT, r.2)
    else if r.1 = BITWUZLA_UNSAT then (.ok Result.UNSAT, r.2)
    else if r.1 = BITWUZLA_UNKNOWN then (.ok Result.UNKNOWN, r.2)
    else (.error .assertion, r.2)

/-- A backend that stores the value of an option: `bitwuzla_get_option`
right after `bitwuzla_set_option` on the same option returns the value set. -/
def Backend.stores_options (be : Backend) : Prop :=
  ∀ (calls : List BzlaCall) (bzla : Ptr) (opt : BitwuzlaOption) (val : Nat),
    be.ret (calls ++ [.set_option bzla opt val]) (.get_option bzla opt) = val

/-! ## Bit-vector values from strings -/

/-- The enumeration `Solver::Base` of `solver.hpp`. -/
inductive Base
  | BIN
  | DEC
  | HEX
  deriving DecidableEq, Repr

/-- The values of the enumerators of `Solver::Base`: `BIN = 2`, `DEC = 10`,
`HEX = 16`. -/
def Base.value : Base → Nat
  | .BIN => 2
  | .DEC => 10
  | .HEX => 16

/-- The digit that a character stands for in `strtoull`: a decimal digit
stands for itself, a letter of either case for ten and up. -/
def digit_of (c : Char) : Option Nat :=
  if c.isDigit then some (c.toNat - 48)
  else if c.isLower then some (c.toNat - 97 + 10)
  else if c.isUpper then some (c.toNat - 65 + 10)
  else none

/-- A machine with three of the canonical states, before a backend configures it. -/
def exampleFSM : FSM where
  d_states := [{ d_kind := "new" }, { d_kind := "opt" }, { d_kind := "assert" }]

/-- A solver manager after an incremental check with the result UNSAT: the
term `9` is assumed, and the id `3` of a trace is mapped to it. -/
def exampleUnsatManager : SolverManager where
  d_solver := { d_solver := 1 }
  d_incremental := true
  d_sat_called := true
  d_sat_result := Result.UNSAT
  d_assumptions := [BzlaTerm.wrap 9]
  d_term_db := [BzlaTerm.wrap 9]
  d_untraced_terms := [(3, BzlaTerm.wrap 9)]

/-- A backend that answers every call with the non-null handle `1`, in which
the terms `1` and `2` are two terms of the one sort `7`, and which hashes a
handle to itself. The sort `7` is its Boolean sort, which is the bit-vector
sort of width 1, as in Bitwuzla. -/
def exampleBackend : Backend where
  ret := fun _ _ => 1
  term_get_sort := fun t => if t = 1 ∨ t = 2 then 7 else t
  term_hash := fun t => t
  sort_hash := fun sort => sort
  sort_is_bv := fun sort => sort == 7
  sort_bv_get_size := fun _ => 1

/-- The value that the last `bitwuzla_set_option` on an option has set, and 0
when the option has not been set. -/
def last_option_set (opt : BitwuzlaOption) (calls : List BzlaCall) : Nat :=
  calls.foldl (fun acc c =>
    match c with
    | .set_option _ o val => if o = opt then val else acc
    | _ => acc) 0

/-- A backend like `exampleBackend` that stores the options it is given and
answers every check with `BITWUZLA_UNSAT`. -/
def exampleStoringBackend : Backend where
  ret := fun calls c =>
    match c with
    | .get_option _ opt => last_option_set opt calls
    | .check_sat _ => BITWUZLA_UNSAT
    | _ => 1
  term_get_sort := exampleBackend.term_get_sort
  term_hash := exampleBackend.term_hash
  sort_hash := exampleBackend.sort_hash
  sort_is_bv := exampleBackend.sort_is_bv
  sort_bv_get_size := exampleBackend.sort_bv_get_size

/-- The library hands out a non-null handle for every call. -/
def Backend.never_null (be : Backend) : Prop :=
  ∀ (calls : List BzlaCall) (c : BzlaCall), be.ret calls c ≠ 0

/-- Every sort of the list is a Bitwuzla sort. -/
def all_bzla_sorts (sorts : List SortPtr) : Prop :=
  ∀ sort ∈ sorts, (dynamic_cast_BzlaSort sort).isSome = true

/-- Example strings for the constants of `op.hpp`: the name of the constant
after `OP_`. -/
def exampleOp : StdOp → OpKind
  | .DISTINCT => "OP_DISTINCT"
  | .EQUAL => "OP_EQUAL"
  | .ITE => "OP_ITE"
  | .AND => "OP_AND"
  | .OR => "OP_OR"
  | .NOT => "OP_NOT"
  | .XOR => "OP_XOR"
  | .IMPLIES => "OP_IMPLIES"
  | .ARRAY_SELECT => "OP_ARRAY_SELECT"
  | .ARRAY_STORE => "OP_ARRAY_STORE"
  | .BV_EXTRACT => "OP_BV_EXTRACT"
  | .BV_REPEAT => "OP_BV_REPEAT"
  | .BV_ROTATE_LEFT => "OP_BV_ROTATE_LEFT"
  | .BV_ROTATE_RIGHT => "OP_BV_ROTATE_RIGHT"
  | .BV_SIGN_EXTEND => "OP_BV_SIGN_EXTEND"
  | .BV_ZERO_EXTEND => "OP_BV_ZERO_EXTEND"
  | .BV_CONCAT => "OP_BV_CONCAT"
  | .BV_AND => "OP_BV_AND"
  | .BV_OR => "OP_BV_OR"
  | .BV_XOR => "OP_BV_XOR"
  | .BV_MULT => "OP_BV_MULT"
  | .BV_ADD => "OP_BV_ADD"
  | .BV_NOT => "OP_BV_NOT"
  | .BV_NEG => "OP_BV_NEG"
  | .BV_NAND => "OP_BV_NAND"
  | .BV_NOR => "OP_BV_NOR"
  | .BV_XNOR => "OP_BV_XNOR"
  | .BV_COMP => "OP_BV_COMP"
  | .BV_SUB => "OP_BV_SUB"
  | .BV_UDIV => "OP_BV_UDIV"
  | .BV_UREM => "OP_BV_UREM"
  | .BV_SDIV => "OP_BV_SDIV"
  | .BV_SREM => "OP_BV_SREM"
  | .BV_SMOD => "OP_BV_SMOD"
  | .BV_SHL => "OP_BV_SHL"
  | .BV_LSHR => "OP_BV_LSHR"
  | .BV_ASHR => "OP_BV_ASHR"
  | .BV_ULT => "OP_BV_ULT"
  | .BV_ULE => "OP_BV_ULE"
  | .BV_UGT => "OP_BV_UGT"
  | .BV_UGE => "OP_BV_UGE"
  | .BV_SLT => "OP_BV_SLT"
  | .BV_SLE => "OP_BV_SLE"
  | .BV_SGT => "OP_BV_SGT"
  | .BV_SGE => "OP_BV_SGE"
  | .FP_ABS => "OP_FP_ABS"
  | .FP_ADD => "OP_FP_ADD"
  | .FP_DIV => "OP_FP_DIV"
  | .FP_EQ => "OP_FP_EQ"
  | .FP_FMA => "OP_FP_FMA"
  | .FP_FP => "OP_FP_FP"
  | .FP_IS_NORMAL => "OP_FP_IS_NORMAL"
  | .FP_IS_SUBNORMAL => "OP_FP_IS_SUBNORMAL"
  | .FP_IS_INF => "OP_FP_IS_INF"
  | .FP_IS_NAN => "OP_FP_IS_NAN"
  | .FP_IS_NEG => "OP_FP_IS_NEG"
  | .FP_IS_POS => "OP_FP_IS_POS"
  | .FP_IS_ZERO => "OP_FP_IS_ZERO"
  | .FP_LT => "OP_FP_LT"
  | .FP_LEQ => "OP_FP_LEQ"
  | .FP_GT => "OP_FP_GT"
  | .FP_GEQ => "OP_FP_GEQ"
  | .FP_MAX => "OP_FP_MAX"
  | .FP_MIN => "OP_FP_MIN"
  | .FP_MUL => "OP_FP_MUL"
  | .FP_NEG => "OP_FP_NEG"
  | .FP_REM => "OP_FP_REM"
  | .FP_RTI => "OP_FP_RTI"
  | .FP_SQRT => "OP_FP_SQRT"
  | .FP_SUB => "OP_FP_SUB"
  | .FP_TO_FP_FROM_BV => "OP_FP_TO_FP_FROM_BV"
  | .FP_TO_FP_FROM_SBV => "OP_FP_TO_FP_FROM_SBV"
  | .FP_TO_FP_FROM_FP => "OP_FP_TO_FP_FROM_FP"
  | .FP_TO_FP_FROM_UBV => "OP_FP_TO_FP_FROM_UBV"
  | .FP_TO_SBV => "OP_FP_TO_SBV"
  | .FP_TO_UBV => "OP_FP_TO_UBV"
  | .FP_TO_REAL => "OP_FP_TO_REAL"
  | .FORALL => "OP_FORALL"
  | .EXISTS => "OP_EXISTS"
  | .UF_APPLY => "OP_UF_APPLY"

/-- Example functions for `util.cpp`: an id is a decimal numeral, a symbol is
the token itself. -/
def exampleUtil : Util where
  str_to_uint32 := fun token =>
    match stoul token with
    | .ok n => .ok (n % 2 ^ 32)
    | .error e => .error e
  str_to_str := fun token => .ok token

/-- Three calls on one solver, two of them with the same name and one without a name. -/
def exampleCalls : List SymbolCall :=
  [.mk_const (BzlaSort.wrap 1 5) "x" true, .mk_var (BzlaSort.wrap 1 5) "x",
   .mk_const (BzlaSort.wrap 1 5) "" false]

/-- A solver manager that maps the id `3` of a trace to the term `9`. -/
def exampleManager : SolverManager where
  d_solver := { d_solver := 1 }
  d_untraced_terms := [(3, BzlaTerm.wrap 9)]

/-! ## Theorems -/

/-- C9. `BzlaSort::equals` is the identity of the wrapped backend sort handle:
on Bitwuzla sorts it holds exactly when the two `d_sort` handles are the same,
it is an equivalence relation, and it returns `false` (it does not fail) for
every sort that is not a Bitwuzla sort. -/
theorem BzlaSort_equals_is_handle_identity :
    (∀ a b : BzlaSort, a.equals (some (.bzla b)) = true ↔ a.d_sort = b.d_sort)
    ∧ Equivalence (fun a b : BzlaSort => a.equals (some (.bzla b)) = true)
    ∧ (∀ (a : BzlaSort) (other : SortPtr), dynamic_cast_BzlaSort other = none →
        a.equals other = false) := by
  refine ⟨?_, ⟨?_, ?_, ?_⟩, ?_⟩
  · intro a b
    simp [BzlaSort.equals, dynamic_cast_BzlaSort]
  · intro a
    simp [BzlaSort.equals, dynamic_cast_BzlaSort]
  · intro a b h
    simp [BzlaSort.equals, dynamic_cast_BzlaSort] at h ⊢
    exact h.symm
  · intro a b c h1 h2
    simp [BzlaSort.equals, dynamic_cast_BzlaSort] at h1 h2 ⊢
    exact h1.trans h2
  · intro a other h
    simp [BzlaSort.equals, h]

/-- C8. `BzlaTerm::equals` does not compare the wrapped terms: it returns what
`bitwuzla_term_is_equal_sort` returns, that is, whether the two terms have the
same sort. For the two different terms `1` and `2` of one sort it returns true,
although they wrap different backend terms and have different hashes. -/
theorem BzlaTerm_equals_compares_sorts :
    (∀ (be : Backend) (a b : BzlaTerm),
        a.equals be (some (.bzla b))
          = .ok (be.term_get_sort a.d_term == be.term_get_sort b.d_term))
    ∧ BzlaTerm.equals exampleBackend { d_term := 1 } (BzlaTerm.wrap 2) = .ok true
    ∧ ({ d_term := 1 } : BzlaTerm).d_term ≠ ({ d_term := 2 } : BzlaTerm).d_term
    ∧ BzlaTerm.hash exampleBackend { d_term := 1 } ≠ BzlaTerm.hash exampleBackend { d_term := 2 } := by
  refine ⟨?_, by decide, by decide, by decide⟩
  intro be a b
  simp [BzlaTerm.equals, dynamic_cast_BzlaTerm, Backend.term_is_equal_sort]

/-- C2. `set_opt` parses the value before it looks at the option name: for the
option `produce-unsat-cores`, which it does not forward, and the value
`false` it does not return but throws `std::invalid_argument` (from
`std::stoul`), and likewise for an empty value. No backend call is made. -/
theorem set_opt_throws_on_dropped_option (be : Backend) (s : BzlaSolver) :
    s.set_opt be "produce-unsat-cores" "false" = (.error .invalid_argument, s)
    ∧ s.set_opt be "produce-unsat-cores" "" = (.error .invalid_argument, s) :=
  ⟨rfl, rfl⟩

/-- C5. `configure_smgr` registers twelve of the fourteen operator kinds that
the backend defines and that `init_op_kinds` maps: the two rotations by term,
`OP_BV_ROL` and `OP_BV_ROR`, are keys of the table but are not registered. -/
theorem configure_smgr_omits_rotations (Op : StdOp → OpKind) :
    BzlaSolver.OP_BV_ROL ∈ (init_op_kinds_table Op).map Prod.fst
    ∧ BzlaSolver.OP_BV_ROR ∈ (init_op_kinds_table Op).map Prod.fst
    ∧ BzlaSolver.OP_BV_ROL ∉ registered_op_kinds
    ∧ BzlaSolver.OP_BV_ROR ∉ registered_op_kinds
    ∧ solver_specific_op_kinds.filter (fun kind => kind ∉ registered_op_kinds)
        = [BzlaSolver.OP_BV_ROL, BzlaSolver.OP_BV_ROR] := by
  refine ⟨?_, ?_, by decide, by decide, by decide⟩
  · simp [init_op_kinds_table]
  · simp [init_op_kinds_table]

/-- C7. The negative side of the consistency check fails on three inputs. For
`SPECIAL_VALUE_BV_MAX_SIGNED` at width 1 the vector `is_not_funs` holds
`bitwuzla_term_is_bv_value_max_signed`, which is true of the value; at width 2
the value one and the value max_signed are both `01`, yet `is_not_funs` holds
`..._max_signed` for `SPECIAL_VALUE_BV_ONE` and `..._one` for
`SPECIAL_VALUE_BV_MAX_SIGNED`. In each case the `assert` on the picked
recogniser fails. -/
theorem check_is_bv_value_is_not_funs_fail :
    mk_special_value_check .SPECIAL_VALUE_BV_MAX_SIGNED 1 .FIRST false 2 = .error .assertion
    ∧ mk_special_value_check .SPECIAL_VALUE_BV_ONE 2 .FIRST false 3 = .error .assertion
    ∧ mk_special_value_check .SPECIAL_VALUE_BV_MAX_SIGNED 2 .FIRST false 1 = .error .assertion
    ∧ BzlaTermFunBoolUnary.apply .bitwuzla_term_is_bv_value_max_signed
        (special_bv_value .SPECIAL_VALUE_BV_MAX_SIGNED 1) = true
    ∧ check_is_bv_value_funs .SPECIAL_VALUE_BV_MAX_SIGNED 1
        = .ok ([.bitwuzla_term_is_bv_value_max_signed, .bitwuzla_term_is_bv_value_zero],
            [.bitwuzla_term_is_bv_value_one, .bitwuzla_term_is_bv_value_ones,
             .bitwuzla_term_is_bv_value_max_signed]) := by
  decide

/-- A draw from a non-empty vector of recognisers yields one of its members. -/
theorem pick_fun_bool_unary_mem (funs : List BzlaTermFunBoolUnary) (draw : Nat)
    (hne : funs ≠ []) : ∃ f, f ∈ funs ∧ pick_fun_bool_unary funs draw = .ok f := by
  have hlen : 0 < funs.length := List.length_pos.mpr hne
  have hlt : draw % funs.length < funs.length := Nat.mod_lt _ hlen
  refine ⟨funs[draw % funs.length], List.getElem_mem _, ?_⟩
  simp [pick_fun_bool_unary, List.getElem?_eq_getElem hlt]

/-- When every member of `is_funs` accepts the node, the check passes whenever
the coin selects `is_funs`. -/
theorem check_is_bv_value_passes (kind : SpecialValueKind) (node : BvValue)
    (is_funs is_not_funs : List BzlaTermFunBoolUnary)
    (hfuns : check_is_bv_value_funs kind node.bw = .ok (is_funs, is_not_funs))
    (hne : is_funs ≠ []) (hall : ∀ f ∈ is_funs, f.apply node = true)
    (pick : Choice) (draw : Nat) : check_is_bv_value kind node pick true draw = .ok () := by
  cases pick
  · obtain ⟨f, hf, hpick⟩ := pick_fun_bool_unary_mem is_funs draw hne
    simp [check_is_bv_value, hfuns, hpick, hall f hf]
  · rfl
  · rfl

/-- The vectors that the check builds for a bit-vector kind, case by case. -/
theorem check_is_bv_value_funs_positive (kind : SpecialValueKind) (bw : Nat)
    (hkind : kind.is_bv = true) (hbw : 1 ≤ bw) :
    ∃ is_funs is_not_funs, check_is_bv_value_funs kind bw = .ok (is_funs, is_not_funs)
      ∧ is_funs ≠ [] ∧ ∀ f ∈ is_funs, f.apply (special_bv_value kind bw) = true := by
  by_cases hgt : bw > 1
  · cases kind <;> simp [SpecialValueKind.is_bv] at hkind <;>
      simp [check_is_bv_value_funs, hgt, BzlaTermFunBoolUnary.apply, special_bv_value]
  · have h1 : bw = 1 := by omega
    subst h1
    cases kind <;> simp [SpecialValueKind.is_bv] at hkind <;>
      simp [check_is_bv_value_funs, BzlaTermFunBoolUnary.apply, special_bv_value]

/-- C6. For every bit-vector special value kind and every width `bw ≥ 1`, the
check builds its two vectors, every recogniser it puts into `is_funs` is true
of the value of that kind at that width, and therefore the check passes
whenever the coin selects the positive side, whatever is drawn; so does the
check of the Boolean values in `mk_value(sort, bool)`. -/
theorem check_is_bv_value_is_funs_hold (kind : SpecialValueKind) (bw : Nat)
    (hkind : kind.is_bv = true) (hbw : 1 ≤ bw) :
    (∃ funs, check_is_bv_value_funs kind bw = .ok funs)
    ∧ (∀ is_funs is_not_funs, check_is_bv_value_funs kind bw = .ok (is_funs, is_not_funs) →
        ∀ f ∈ is_funs, f.apply (special_bv_value kind bw) = true)
    ∧ (∀ pick draw, mk_special_value_check kind bw pick true draw = .ok ())
    ∧ (∀ value pick draw, mk_value_bool_check value pick true draw = .ok ()) := by
  obtain ⟨is_funs, is_not_funs, hfuns, hne, hall⟩ :=
    check_is_bv_value_funs_positive kind bw hkind hbw
  refine ⟨⟨_, hfuns⟩, ?_, ?_, ?_⟩
  · intro is_funs1 is_not_funs1 h1 f hf
    rw [hfuns] at h1
    cases h1
    exact hall f hf
  · intro pick draw
    have hbw1 : (special_bv_value kind bw).bw = bw := by
      cases kind <;> rfl
    exact check_is_bv_value_passes kind (special_bv_value kind bw) is_funs is_not_funs
      (by rw [hbw1]; exact hfuns) hne hall pick draw
  · intro value pick draw
    cases value
    · obtain ⟨fs, nfs, h0, hne0, hall0⟩ :=
        check_is_bv_value_funs_positive .SPECIAL_VALUE_BV_ZERO 1 rfl (le_refl 1)
      exact check_is_bv_value_passes .SPECIAL_VALUE_BV_ZERO ⟨1, 0⟩ fs nfs h0 hne0 hall0 pick draw
    · obtain ⟨fs, nfs, h0, hne0, hall0⟩ :=
        check_is_bv_value_funs_positive .SPECIAL_VALUE_BV_ONE 1 rfl (le_refl 1)
      exact check_is_bv_value_passes .SPECIAL_VALUE_BV_ONE ⟨1, 1⟩ fs nfs h0 hne0 hall0 pick draw

/-- C6, at an input: the value min_signed of width 1 is also one and ones. -/
theorem check_is_bv_value_is_funs_hold_witness :
    (∃ funs, check_is_bv_value_funs .SPECIAL_VALUE_BV_MIN_SIGNED 1 = .ok funs)
    ∧ (∀ is_funs is_not_funs,
        check_is_bv_value_funs .SPECIAL_VALUE_BV_MIN_SIGNED 1 = .ok (is_funs, is_not_funs) →
        ∀ f ∈ is_funs, f.apply (special_bv_value .SPECIAL_VALUE_BV_MIN_SIGNED 1) = true)
    ∧ (∀ pick draw,
        mk_special_value_check .SPECIAL_VALUE_BV_MIN_SIGNED 1 pick true draw = .ok ())
    ∧ (∀ value pick draw, mk_value_bool_check value pick true draw = .ok ()) :=
  check_is_bv_value_is_funs_hold .SPECIAL_VALUE_BV_MIN_SIGNED 1 (by decide) (by decide)

/-- Wrapping a non-null handle returns, and leaves the state alone. -/
theorem wrap_sort_of_ne_zero (s : BzlaSolver) (bzla_res : Ptr) (h : bzla_res ≠ 0) :
    s.wrap_sort bzla_res = (.ok (BzlaSort.wrap s.d_solver bzla_res), s) := by
  simp [BzlaSolver.wrap_sort, h]

/-- Wrapping a handle never fails with a configuration error. -/
theorem wrap_sort_not_config (s : BzlaSolver) (bzla_res : Ptr) :
    fails_config (s.wrap_sort bzla_res).1 = false := by
  unfold BzlaSolver.wrap_sort
  split <;> rfl

/-- Converting a list of Bitwuzla sorts succeeds. -/
theorem sorts_to_bzla_sorts_ok (sorts : List SortPtr) (h : all_bzla_sorts sorts) :
    ∃ domain, sorts_to_bzla_sorts sorts = .ok domain := by
  induction sorts with
  | nil => exact ⟨[], rfl⟩
  | cons sort rest ih =>
    have hs : (dynamic_cast_BzlaSort sort).isSome = true := h sort (List.mem_cons_self _ _)
    obtain ⟨b, hb⟩ := Option.isSome_iff_exists.mp hs
    obtain ⟨domain, hd⟩ := ih (fun x hx => h x (List.mem_cons_of_mem _ hx))
    exact ⟨b.d_sort :: domain, by simp [sorts_to_bzla_sorts, get_bzla_sort, hb, hd]⟩

/-- Unwrapping a Bitwuzla sort succeeds. -/
theorem get_bzla_sort_ok (sort : SortPtr) (h : (dynamic_cast_BzlaSort sort).isSome = true) :
    ∃ bzla_sort, get_bzla_sort sort = .ok bzla_sort := by
  obtain ⟨b, hb⟩ := Option.isSome_iff_exists.mp h
  exact ⟨b.d_sort, by simp [get_bzla_sort, hb]⟩

/-- Unwrapping a sort fails only by its assertion. -/
theorem get_bzla_sort_error (sort : SortPtr) (e : Error) (h : get_bzla_sort sort = .error e) :
    e = .assertion := by
  unfold get_bzla_sort at h
  split at h <;> simp at h
  exact h.symm

/-- Converting a list of sorts fails only by the assertion of `get_bzla_sort`. -/
theorem sorts_to_bzla_sorts_error (sorts : List SortPtr) (e : Error)
    (h : sorts_to_bzla_sorts sorts = .error e) : e = .assertion := by
  induction sorts generalizing e with
  | nil => simp [sorts_to_bzla_sorts] at h
  | cons sort rest ih =>
    unfold sorts_to_bzla_sorts at h
    split at h
    · rename_i e1 h1
      simp at h
      rw [← h]
      exact get_bzla_sort_error _ _ h1
    · split at h
      · rename_i e2 h2
        simp at h
        rw [← h]
        exact ih e2 h2
      · simp at h

/-- The composite overload never fails with a configuration error on an array kind. -/
theorem mk_sort_kind_sorts_array_not_config (be : Backend) (s : BzlaSolver)
    (sorts : List SortPtr) :
    fails_config (s.mk_sort_kind_sorts be .SORT_ARRAY sorts).1 = false := by
  unfold BzlaSolver.mk_sort_kind_sorts
  simp only
  split
  · split
    · exact wrap_sort_not_config _ _
    · rename_i e h
      rw [get_bzla_sort_error _ _ h]
      rfl
    · rename_i e h _
      rw [get_bzla_sort_error _ _ h]
      rfl
  · rfl

/-- The composite overload never fails with a configuration error on a function kind. -/
theorem mk_sort_kind_sorts_fun_not_config (be : Backend) (s : BzlaSolver)
    (sorts : List SortPtr) :
    fails_config (s.mk_sort_kind_sorts be .SORT_FUN sorts).1 = false := by
  unfold BzlaSolver.mk_sort_kind_sorts
  simp only
  split
  · rfl
  · split
    · exact wrap_sort_not_config _ _
    · rename_i e h
      rw [get_bzla_sort_error _ _ h]
      rfl
    · rename_i e h _
      rw [sorts_to_bzla_sorts_error _ _ h]
      rfl

/-- The composite overload on an array kind with two Bitwuzla sorts. -/
theorem mk_sort_kind_sorts_array_returns (be : Backend) (s : BzlaSolver) (sorts : List SortPtr)
    (hbe : be.never_null) (hlen : 2 ≤ sorts.length) (hall : all_bzla_sorts sorts) :
    returns (s.mk_sort_kind_sorts be .SORT_ARRAY sorts).1 = true := by
  match sorts, hlen, hall with
  | s0 :: s1 :: rest, _, hall =>
    obtain ⟨i, hi⟩ := get_bzla_sort_ok s0 (hall s0 (by simp))
    obtain ⟨e, he⟩ := get_bzla_sort_ok s1 (hall s1 (by simp))
    simp [BzlaSolver.mk_sort_kind_sorts, hi, he, BzlaSolver.call,
      wrap_sort_of_ne_zero _ _ (hbe _ _), returns]

/-- The composite overload on a function kind with Bitwuzla sorts. -/
theorem mk_sort_kind_sorts_fun_returns (be : Backend) (s : BzlaSolver) (sorts : List SortPtr)
    (hbe : be.never_null) (hlen : 1 ≤ sorts.length) (hall : all_bzla_sorts sorts) :
    returns (s.mk_sort_kind_sorts be .SORT_FUN sorts).1 = true := by
  have hne : sorts ≠ [] := by
    intro h
    simp [h] at hlen
  have hlast : sorts.getLast? = some (sorts.getLast hne) := List.getLast?_eq_getLast _ hne
  obtain ⟨c, hc⟩ := get_bzla_sort_ok (sorts.getLast hne) (hall _ (List.getLast_mem hne))
  obtain ⟨d, hd⟩ := sorts_to_bzla_sorts_ok sorts.dropLast
    (fun x hx => hall x (List.dropLast_subset _ hx))
  simp [BzlaSolver.mk_sort_kind_sorts, hlast, hc, hd, BzlaSolver.call,
    wrap_sort_of_ne_zero _ _ (hbe _ _), returns]

/-- C3. Each overload of `mk_sort` fails with a configuration error exactly
for the sort kinds it is not meant for, and then leaves the solver as it was
(no backend call has been made); it returns a sort only for its own kinds, and
for these it does return one when the library hands out a non-null handle
(and, for the composite overload, the children are Bitwuzla sorts, two or more
for an array and one or more for a function). The kinds are BOOL and RM for
`mk_sort(kind)`, BV for `mk_sort(kind, size)`, FP for
`mk_sort(kind, esize, ssize)`, ARRAY and FUN for `mk_sort(kind, sorts)`. -/
theorem mk_sort_accepts_exactly_its_kinds (be : Backend) (s : BzlaSolver) (kind : SortKind)
    (size esize ssize : Nat) (sorts : List SortPtr) :
    ((fails_config (s.mk_sort_kind be kind).1 = true ↔ ¬(kind = .SORT_BOOL ∨ kind = .SORT_RM))
      ∧ (¬(kind = .SORT_BOOL ∨ kind = .SORT_RM) → (s.mk_sort_kind be kind).2 = s)
      ∧ (returns (s.mk_sort_kind be kind).1 = true → kind = .SORT_BOOL ∨ kind = .SORT_RM)
      ∧ (kind = .SORT_BOOL ∨ kind = .SORT_RM → be.never_null →
          returns (s.mk_sort_kind be kind).1 = true))
    ∧ ((fails_config (s.mk_sort_kind_size be kind size).1 = true ↔ kind ≠ .SORT_BV)
      ∧ (kind ≠ .SORT_BV → (s.mk_sort_kind_size be kind size).2 = s)
      ∧ (returns (s.mk_sort_kind_size be kind size).1 = true → kind = .SORT_BV)
      ∧ (kind = .SORT_BV → be.never_null →
          returns (s.mk_sort_kind_size be kind size).1 = true))
    ∧ ((fails_config (s.mk_sort_kind_esize_ssize be kind esize ssize).1 = true
          ↔ kind ≠ .SORT_FP)
      ∧ (kind ≠ .SORT_FP → (s.mk_sort_kind_esize_ssize be kind esize ssize).2 = s)
      ∧ (returns (s.mk_sort_kind_esize_ssize be kind esize ssize).1 = true → kind = .SORT_FP)
      ∧ (kind = .SORT_FP → be.never_null →
          returns (s.mk_sort_kind_esize_ssize be kind esize ssize).1 = true))
    ∧ ((fails_config (s.mk_sort_kind_sorts be kind sorts).1 = true
          ↔ ¬(kind = .SORT_ARRAY ∨ kind = .SORT_FUN))
      ∧ (¬(kind = .SORT_ARRAY ∨ kind = .SORT_FUN) → (s.mk_sort_kind_sorts be kind sorts).2 = s)
      ∧ (returns (s.mk_sort_kind_sorts be kind sorts).1 = true
          → kind = .SORT_ARRAY ∨ kind = .SORT_FUN)
      ∧ (kind = .SORT_ARRAY → be.never_null → 2 ≤ sorts.length → all_bzla_sorts sorts →
          returns (s.mk_sort_kind_sorts be kind sorts).1 = true)
      ∧ (kind = .SORT_FUN → be.never_null → 1 ≤ sorts.length → all_bzla_sorts sorts →
          returns (s.mk_sort_kind_sorts be kind sorts).1 = true)) := by
  refine ⟨⟨?_, ?_, ?_, ?_⟩, ⟨?_, ?_, ?_, ?_⟩, ⟨?_, ?_, ?_, ?_⟩, ⟨?_, ?_, ?_, ?_, ?_⟩⟩
  · by_cases h : kind = .SORT_BOOL ∨ kind = .SORT_RM
    · simp [BzlaSolver.mk_sort_kind, h, wrap_sort_not_config]
    · simp [BzlaSolver.mk_sort_kind, h, fails_config]
  · intro h
    simp [BzlaSolver.mk_sort_kind, h]
  · intro hr
    by_contra h
    simp [BzlaSolver.mk_sort_kind, h, returns] at hr
  · intro h hbe
    simp [BzlaSolver.mk_sort_kind, h, BzlaSolver.call, wrap_sort_of_ne_zero _ _ (hbe _ _), returns]
  · by_cases h : kind = .SORT_BV
    · simp [BzlaSolver.mk_sort_kind_size, h, wrap_sort_not_config]
    · simp [BzlaSolver.mk_sort_kind_size, h, fails_config]
  · intro h
    simp [BzlaSolver.mk_sort_kind_size, h]
  · intro hr
    by_contra h
    simp [BzlaSolver.mk_sort_kind_size, h, returns] at hr
  · intro h hbe
    simp [BzlaSolver.mk_sort_kind_size, h, BzlaSolver.call,
      wrap_sort_of_ne_zero _ _ (hbe _ _), returns]
  · by_cases h : kind = .SORT_FP
    · simp [BzlaSolver.mk_sort_kind_esize_ssize, h, wrap_sort_not_config]
    · simp [BzlaSolver.mk_sort_kind_esize_ssize, h, fails_config]
  · intro h
    simp [BzlaSolver.mk_sort_kind_esize_ssize, h]
  · intro hr
    by_contra h
    simp [BzlaSolver.mk_sort_kind_esize_ssize, h, returns] at hr
  · intro h hbe
    simp [BzlaSolver.mk_sort_kind_esize_ssize, h, BzlaSolver.call,
      wrap_sort_of_ne_zero _ _ (hbe _ _), returns]
  · cases kind <;>
      simp [mk_sort_kind_sorts_array_not_config, mk_sort_kind_sorts_fun_not_config] <;>
      simp [BzlaSolver.mk_sort_kind_sorts, fails_config]
  · intro h
    cases kind <;> simp at h <;> rfl
  · intro hr
    cases kind <;> simp <;> simp [BzlaSolver.mk_sort_kind_sorts, returns] at hr
  · intro h hbe hlen hall
    subst h
    exact mk_sort_kind_sorts_array_returns be s sorts hbe hlen hall
  · intro h hbe hlen hall
    subst h
    exact mk_sort_kind_sorts_fun_returns be s sorts hbe hlen hall

/-- Wrapping a term handle never fails with a configuration error and leaves the state alone. -/
theorem wrap_term_frame (s : BzlaSolver) (bzla_res : Ptr) :
    fails_config (s.wrap_term bzla_res).1 = false ∧ (s.wrap_term bzla_res).2 = s := by
  unfold BzlaSolver.wrap_term
  split <;> exact ⟨rfl, rfl⟩

/-- Unwrapping a term fails only by its assertion. -/
theorem get_bzla_term_error (term : Term) (e : Error) (h : get_bzla_term term = .error e) :
    e = .assertion := by
  unfold get_bzla_term at h
  split at h <;> simp at h
  exact h.symm

/-- Converting the arguments fails only by the assertion of `get_bzla_term`. -/
theorem terms_to_bzla_terms_error (terms : List Term) (e : Error)
    (h : terms_to_bzla_terms terms = .error e) : e = .assertion := by
  induction terms generalizing e with
  | nil => simp [terms_to_bzla_terms] at h
  | cons t rest ih =>
    unfold terms_to_bzla_terms at h
    split at h
    · rename_i e1 h1
      simp at h
      rw [← h]
      exact get_bzla_term_error _ _ h1
    · split at h
      · rename_i e2 h2
        simp at h
        rw [← h]
        exact ih e2 h2
      · simp at h

/-- The converted arguments are the handles of the given terms, in the given
order and number. -/
theorem terms_to_bzla_terms_forall₂ (terms : List Term) (res : List Ptr)
    (h : terms_to_bzla_terms terms = .ok res) :
    List.Forall₂ (fun t p => get_bzla_term t = .ok p) terms res := by
  induction terms generalizing res with
  | nil =>
    simp [terms_to_bzla_terms] at h
    subst h
    exact List.Forall₂.nil
  | cons t rest ih =>
    unfold terms_to_bzla_terms at h
    split at h
    · simp at h
    · rename_i p hp
      split at h
      · simp at h
      · rename_i ps hps
        simp at h
        subst h
        exact List.Forall₂.cons hp (ih ps hps)

/-- The kind `Op::FP_TO_REAL` is not a key of the table of `init_op_kinds`,
when it differs from the other constants of `op.hpp` and from the kinds the
backend defines. -/
theorem init_op_kinds_table_lookup_fp_to_real (Op : StdOp → OpKind)
    (hdiff : ∀ k, k ≠ StdOp.FP_TO_REAL → Op StdOp.FP_TO_REAL ≠ Op k)
    (hstd : Op .FP_TO_REAL ∉ solver_specific_op_kinds) :
    (init_op_kinds_table Op).lookup (Op .FP_TO_REAL) = none := by
  simp only [solver_specific_op_kinds, List.mem_cons, List.mem_singleton, not_or,
    List.not_mem_nil, or_false] at hstd
  obtain ⟨h1, h2, h3, h4, h5, h6, h7, h8, h9, h10, h11, h12, h13, h14⟩ := hstd
  have hd : ∀ k, k ≠ StdOp.FP_TO_REAL → (Op StdOp.FP_TO_REAL = Op k) = False := by
    intro k hk
    exact eq_false (hdiff k hk)
  rw [List.lookup_eq_none_iff]
  simp [init_op_kinds_table, hd, h1, h2, h3, h4, h5, h6, h7, h8, h9, h10, h11, h12,
    h13, h14]

/-- C4. `mk_term` fails with a configuration error exactly when the operator
kind is not a key of `d_op_kinds`, and then makes no backend call. The table is
the one `init_op_kinds` builds once `new_solver` has run; before that it is
empty and every kind is rejected. `Op::FP_TO_REAL`, the one kind that
`get_unsupported_op_kinds` returns, is rejected after `init_op_kinds` (the
string it stands for being different from the other constants of `op.hpp` and
from the kinds the backend defines). For a configured kind and arguments that are Bitwuzla
terms, exactly one call is appended to the log: `bitwuzla_mk_term_indexed` when
`params` is non-empty and `bitwuzla_mk_term` when it is empty, with the mapped
kind, the number of arguments and their handles in the given order. -/
theorem mk_term_fails_iff_kind_not_configured (be : Backend) (Op : StdOp → OpKind)
    (s : BzlaSolver) (kind : OpKind) (args : List Term) (params : List Nat) :
    (fails_config (s.mk_term be kind args params).1 = true ↔ s.d_op_kinds.lookup kind = none)
    ∧ (s.d_op_kinds.lookup kind = none → (s.mk_term be kind args params).2 = s)
    ∧ (s.d_op_kinds = [] → fails_config (s.mk_term be kind args params).1 = true)
    ∧ (s.d_solver = 0 → (s.new_solver be Op).2.d_op_kinds = init_op_kinds_table Op)
    ∧ ((∀ k, k ≠ StdOp.FP_TO_REAL → Op StdOp.FP_TO_REAL ≠ Op k) →
        Op StdOp.FP_TO_REAL ∉ solver_specific_op_kinds →
        ∀ k ∈ BzlaSolver.get_unsupported_op_kinds Op,
          fails_config ((s.init_op_kinds Op).mk_term be k args params).1 = true)
    ∧ (∀ bzla_kind bzla_args, s.d_op_kinds.lookup kind = some bzla_kind →
        terms_to_bzla_terms args = .ok bzla_args →
        List.Forall₂ (fun t p => get_bzla_term t = .ok p) args bzla_args
        ∧ (s.mk_term be kind args params).2.log = s.log ++ [Event.api
            (if params = [] then BzlaCall.mk_term s.d_solver bzla_kind args.length bzla_args
             else BzlaCall.mk_term_indexed s.d_solver bzla_kind args.length bzla_args
               params.length params)]) := by
  have hiff : fails_config (s.mk_term be kind args params).1 = true
      ↔ s.d_op_kinds.lookup kind = none := by
    unfold BzlaSolver.mk_term
    split
    · rename_i h
      simp [h, fails_config]
    · rename_i bzla_kind h
      simp only [h]
      split
      · rename_i e he
        rw [terms_to_bzla_terms_error _ _ he]
        simp [fails_config]
      · simp [(wrap_term_frame _ _).1]
  refine ⟨hiff, ?_, ?_, ?_, ?_, ?_⟩
  · intro h
    simp [BzlaSolver.mk_term, h]
  · intro h
    exact hiff.mpr (by simp [h, List.lookup])
  · intro h
    simp [BzlaSolver.new_solver, h, BzlaSolver.init_op_kinds]
  · intro hinj hstd k hk
    simp only [BzlaSolver.get_unsupported_op_kinds, List.mem_singleton] at hk
    subst hk
    simp [BzlaSolver.mk_term, BzlaSolver.init_op_kinds,
      init_op_kinds_table_lookup_fp_to_real Op hinj hstd, fails_config]
  · intro bzla_kind bzla_args hk hargs
    refine ⟨terms_to_bzla_terms_forall₂ _ _ hargs, ?_⟩
    by_cases hp : params = []
    · simp [BzlaSolver.mk_term, hk, hargs, hp, (wrap_term_frame _ _).2, BzlaSolver.call]
    · simp [BzlaSolver.mk_term, hk, hargs, hp, (wrap_term_frame _ _).2, BzlaSolver.call]

/-- C10. `untrace` of a Bitwuzla-specific action validates its line. A line
whose number of tokens is not the one the action takes (1 for
`bzla-is-unsat-assumption`, 2 for `bzla-term-set-symbol`, 0 for the other
three) is a trace error, and so is a term id that the manager maps to no term;
in both cases the manager and the solver are left as they were, so nothing
has been traced and no backend call has been made. Whenever `untrace` returns,
it returns 0; and it does return for a line of the right length whose id
resolves to a Bitwuzla term (and whose symbol token `str_to_str` accepts). -/
theorem untrace_validates_its_line (be : Backend) (util : Util) (smgr : SolverManager)
    (tokens : List String) (a : BzlaAction) :
    (tokens.length ≠ a.ntokens →
        fails_trace (a.untrace be util smgr tokens).1 = true
        ∧ (a.untrace be util smgr tokens).2 = smgr)
    ∧ (∀ token0 rest id, a = .is_unsat_assumption ∨ a = .term_set_symbol →
        tokens = token0 :: rest → tokens.length = a.ntokens →
        util.str_to_uint32 token0 = .ok id → smgr.get_term id = none →
        fails_trace (a.untrace be util smgr tokens).1 = true
        ∧ (a.untrace be util smgr tokens).2 = smgr)
    ∧ (∀ v, (a.untrace be util smgr tokens).1 = .ok v → v = 0)
    ∧ (a = .fixate_assumptions ∨ a = .reset_assumptions ∨ a = .simplify → tokens = [] →
        (a.untrace be util smgr tokens).1 = .ok 0)
    ∧ (∀ token0 id t, a = .is_unsat_assumption → tokens = [token0] →
        util.str_to_uint32 token0 = .ok id → smgr.get_term id = some (.bzla t) →
        (a.untrace be util smgr tokens).1 = .ok 0)
    ∧ (∀ token0 token1 id t symbol, a = .term_set_symbol → tokens = [token0, token1] →
        util.str_to_uint32 token0 = .ok id → smgr.get_term id = some (.bzla t) →
        util.str_to_str token1 = .ok symbol →
        (a.untrace be util smgr tokens).1 = .ok 0) := by
  refine ⟨?_, ?_, ?_, ?_, ?_, ?_⟩
  · intro hlen
    cases a <;>
      simp [BzlaAction.ntokens] at hlen <;>
      simp [BzlaAction.untrace, BzlaActionIsUnsatAssumption.untrace,
        BzlaActionFixateAssumptions.untrace, BzlaActionResetAssumptions.untrace,
        BzlaActionSimplify.untrace, BzlaActionTermSetSymbol.untrace,
        MURXLA_CHECK_TRACE_NTOKENS, MURXLA_CHECK_TRACE_EMPTY, hlen, fails_trace]
  · intro token0 rest id ha htok hlen hid hterm
    subst htok
    rcases ha with ha | ha <;> subst ha
    · simp [BzlaAction.ntokens] at hlen
      subst hlen
      simp [BzlaAction.untrace, BzlaActionIsUnsatAssumption.untrace,
        MURXLA_CHECK_TRACE_NTOKENS, MURXLA_CHECK_TRACE_TERM, hid, hterm, fails_trace]
    · simp [BzlaAction.ntokens] at hlen
      match rest, hlen with
      | [token1], _ =>
        simp [BzlaAction.untrace, BzlaActionTermSetSymbol.untrace,
          MURXLA_CHECK_TRACE_NTOKENS, MURXLA_CHECK_TRACE_TERM, hid, hterm, fails_trace]
  · intro v hv
    cases a <;>
      simp only [BzlaAction.untrace, BzlaActionIsUnsatAssumption.untrace,
        BzlaActionFixateAssumptions.untrace, BzlaActionResetAssumptions.untrace,
        BzlaActionSimplify.untrace, BzlaActionTermSetSymbol.untrace] at hv <;>
      (repeat' split at hv) <;> simp_all
  · intro ha htok
    subst htok
    rcases ha with ha | ha | ha <;> subst ha <;>
      simp [BzlaAction.untrace, BzlaActionFixateAssumptions.untrace,
        BzlaActionResetAssumptions.untrace, BzlaActionSimplify.untrace,
        MURXLA_CHECK_TRACE_EMPTY, BzlaActionFixateAssumptions._run,
        BzlaActionResetAssumptions._run, BzlaActionSimplify._run]
  · intro token0 id t ha htok hid hterm
    subst ha htok
    simp [BzlaAction.untrace, BzlaActionIsUnsatAssumption.untrace,
      MURXLA_CHECK_TRACE_NTOKENS, MURXLA_CHECK_TRACE_TERM, hid, hterm,
      BzlaActionIsUnsatAssumption._run, get_bzla_term, dynamic_cast_BzlaTerm]
  · intro token0 token1 id t symbol ha htok hid hterm hsym
    subst ha htok
    simp [BzlaAction.untrace, BzlaActionTermSetSymbol.untrace,
      MURXLA_CHECK_TRACE_NTOKENS, MURXLA_CHECK_TRACE_TERM, hid, hterm, hsym,
      BzlaActionTermSetSymbol._run, get_bzla_term, dynamic_cast_BzlaTerm]

/-- The decimal digit characters denote their digit and are digits. -/
theorem digitChar_spec (m : Nat) (hm : m < 10) :
    (Nat.digitChar m).toNat - 48 = m ∧ Nat.digitChar m ≠ '@' := by
  interval_cases m <;> decide

/-- The number that a list of decimal digit characters denotes. -/
theorem toDigitsCore_spec (fuel n : Nat) (ds : List Char) (hfuel : n < fuel) :
    ∃ pre, Nat.toDigitsCore 10 fuel n ds = pre ++ ds ∧ '@' ∉ pre
      ∧ pre.foldl (fun acc c => 10 * acc + (c.toNat - 48)) 0 = n := by
  induction fuel generalizing n ds with
  | zero => omega
  | succ fuel ih =>
    have hd := digitChar_spec (n % 10) (Nat.mod_lt _ (by decide))
    unfold Nat.toDigitsCore
    by_cases h0 : n / 10 = 0
    · refine ⟨[Nat.digitChar (n % 10)], by simp [h0], by simpa using hd.2.symm, ?_⟩
      simp only [List.foldl_cons, List.foldl_nil, hd.1]
      omega
    · obtain ⟨pre, hpre, hat, hval⟩ := ih (n / 10) (Nat.digitChar (n % 10) :: ds) (by omega)
      refine ⟨pre ++ [Nat.digitChar (n % 10)], by simp [h0, hpre], ?_, ?_⟩
      · simp only [List.mem_append, List.mem_singleton, not_or]
        exact ⟨hat, hd.2.symm⟩
      · simp only [List.foldl_append, List.foldl_cons, List.foldl_nil, hval, hd.1]
        omega

/-- The decimal rendering of a number has no `@` and determines the number. -/
theorem toDigits_spec (n : Nat) :
    '@' ∉ Nat.toDigits 10 n
    ∧ (Nat.toDigits 10 n).foldl (fun acc c => 10 * acc + (c.toNat - 48)) 0 = n := by
  obtain ⟨pre, hpre, hat, hval⟩ := toDigitsCore_spec (n + 1) n [] (Nat.lt_succ_self n)
  unfold Nat.toDigits
  rw [hpre, List.append_nil]
  exact ⟨hat, hval⟩

/-- Two lists that agree up to and after the first occurrence of a separator
have the same part before it. -/
theorem eq_of_append_cons_eq {x : Char} (l1 l2 r1 r2 : List Char) (h1 : x ∉ l1) (h2 : x ∉ l2)
    (h : l1 ++ x :: r1 = l2 ++ x :: r2) : l1 = l2 := by
  induction l1 generalizing l2 with
  | nil =>
    cases l2 with
    | nil => rfl
    | cons b l2 =>
      simp only [List.nil_append, List.cons_append, List.cons.injEq] at h
      exact absurd (h.1 ▸ List.mem_cons_self b l2) h2
  | cons a l1 ih =>
    cases l2 with
    | nil =>
      simp only [List.nil_append, List.cons_append, List.cons.injEq] at h
      exact absurd (h.1 ▸ List.mem_cons_self a l1) h1
    | cons b l2 =>
      simp only [List.cons_append, List.cons.injEq] at h
      rw [h.1, ih l2 (fun hx => h1 (List.mem_cons_of_mem _ hx))
        (fun hx => h2 (List.mem_cons_of_mem _ hx)) h.2]

/-- Symbols built from different counter values are different, whatever the names. -/
theorem mk_symbol_counter_injective (n m : Nat) (name1 name2 : String)
    (h : mk_symbol n name1 = mk_symbol m name2) : n = m := by
  have hd : (mk_symbol n name1).data = (mk_symbol m name2).data := by rw [h]
  have hn : (toString n).data = Nat.toDigits 10 n := rfl
  have hm : (toString m).data = Nat.toDigits 10 m := rfl
  simp only [mk_symbol, String.data_append, hn, hm, List.append_assoc] at hd
  have hd2 := List.append_cancel_left hd
  simp only [List.singleton_append] at hd2
  have heq := eq_of_append_cons_eq _ _ _ _ (toDigits_spec n).1 (toDigits_spec m).1 hd2
  rw [← (toDigits_spec n).2, ← (toDigits_spec m).2, heq]

/-- The symbols of a log are those of its parts. -/
theorem symbolsPassed_append (l1 l2 : List Event) :
    symbolsPassed (l1 ++ l2) = symbolsPassed l1 ++ symbolsPassed l2 := by
  simp [symbolsPassed, apiCalls, List.filterMap_append]

/-- The block that builds the symbol touches the counter only. -/
theorem unique_symbol_spec (w : Nat) (s : BzlaSolver) (name : String) :
    (s.unique_symbol w name).2.log = s.log
    ∧ (s.unique_symbol w name).2.d_num_symbols
        = (if name ≠ "" then (s.d_num_symbols + 1) % 2 ^ w else s.d_num_symbols)
    ∧ (s.unique_symbol w name).1
        = (if name ≠ "" then some (mk_symbol s.d_num_symbols name) else none) := by
  unfold BzlaSolver.unique_symbol
  split <;> simp_all

/-- What `mk_var` adds to the log, and the counter it leaves. -/
theorem mk_var_effect (be : Backend) (w : Nat) (s : BzlaSolver) (sort : SortPtr)
    (name : String) :
    ∃ new, (s.mk_var be w sort name).2.log = s.log ++ new
      ∧ (symbolsPassed new = [] ∨ symbolsPassed new = (s.unique_symbol w name).1.toList)
      ∧ (s.mk_var be w sort name).2.d_num_symbols = (s.unique_symbol w name).2.d_num_symbols := by
  obtain ⟨hlog, -, -⟩ := unique_symbol_spec w s name
  unfold BzlaSolver.mk_var
  cases hs : get_bzla_sort sort with
  | error e => exact ⟨[], by simp [hlog], Or.inl rfl, rfl⟩
  | ok bzla_sort =>
    refine ⟨[Event.api (.mk_var (s.unique_symbol w name).2.d_solver bzla_sort
      (s.unique_symbol w name).1)], ?_, ?_, ?_⟩
    · simp only [BzlaSolver.wrap_term, BzlaSolver.call]
      split <;> simp [hlog]
    · right
      cases (s.unique_symbol w name).1 <;> rfl
    · simp only [BzlaSolver.wrap_term, BzlaSolver.call]
      split <;> rfl

/-- What `mk_const` adds to the log, and the counter it leaves. -/
theorem mk_const_effect (be : Backend) (w : Nat) (s : BzlaSolver) (sort : SortPtr)
    (name : String) (pick : Bool) :
    ∃ new, (s.mk_const be w sort name pick).2.log = s.log ++ new
      ∧ (symbolsPassed new = [] ∨ symbolsPassed new = (s.unique_symbol w name).1.toList)
      ∧ (s.mk_const be w sort name pick).2.d_num_symbols
          = (s.unique_symbol w name).2.d_num_symbols := by
  obtain ⟨hlog, -, -⟩ := unique_symbol_spec w s name
  unfold BzlaSolver.mk_const
  cases hs : get_bzla_sort sort with
  | error e => exact ⟨[], by simp [hlog], Or.inl rfl, rfl⟩
  | ok bzla_sort =>
    simp only [BzlaSolver.wrap_term, BzlaSolver.call]
    have hsym : ∀ (o : Option String) (b p : Ptr),
        symbolsPassed [Event.api (BzlaCall.mk_const p b o)] = o.toList := by
      intro o b p
      cases o <;> rfl
    split
    · exact ⟨[Event.api (.mk_const (s.unique_symbol w name).2.d_solver bzla_sort
        (s.unique_symbol w name).1)], by simp [hlog], Or.inr (hsym _ _ _), rfl⟩
    · split
      · refine ⟨[Event.api (.mk_const (s.unique_symbol w name).2.d_solver bzla_sort
            (s.unique_symbol w name).1),
          Event.api (.term_is_equal_sort
            (be.ret (apiCalls (s.unique_symbol w name).2.log)
              (.mk_const (s.unique_symbol w name).2.d_solver bzla_sort
                (s.unique_symbol w name).1))
            (be.ret (apiCalls (s.unique_symbol w name).2.log)
              (.mk_const (s.unique_symbol w name).2.d_solver bzla_sort
                (s.unique_symbol w name).1)))], ?_, ?_, ?_⟩
        · split <;> simp [hlog]
        · right
          cases (s.unique_symbol w name).1 <;> rfl
        · split <;> rfl
      · refine ⟨[Event.api (.mk_const (s.unique_symbol w name).2.d_solver bzla_sort
            (s.unique_symbol w name).1)], ?_, Or.inr (hsym _ _ _), ?_⟩
        · simp [hlog]
        · rfl

/-- What one call adds to the log, and the counter it leaves. -/
theorem step_effect (be : Backend) (w : Nat) (s : BzlaSolver) (c : SymbolCall) :
    ∃ new, (s.step be w c).2.log = s.log ++ new
      ∧ (symbolsPassed new = []
          ∨ (c.name ≠ "" ∧ symbolsPassed new = [mk_symbol s.d_num_symbols c.name]))
      ∧ (s.step be w c).2.d_num_symbols
          = (if c.name ≠ "" then (s.d_num_symbols + 1) % 2 ^ w else s.d_num_symbols) := by
  obtain ⟨-, hnum, hsym⟩ := unique_symbol_spec w s c.name
  have key : ∃ new, (s.step be w c).2.log = s.log ++ new
      ∧ (symbolsPassed new = [] ∨ symbolsPassed new = (s.unique_symbol w c.name).1.toList)
      ∧ (s.step be w c).2.d_num_symbols = (s.unique_symbol w c.name).2.d_num_symbols := by
    cases c with
    | mk_var sort name => exact mk_var_effect be w s sort name
    | mk_const sort name pick => exact mk_const_effect be w s sort name pick
  obtain ⟨new, hlog, hsyms, hcount⟩ := key
  refine ⟨new, hlog, ?_, by rw [hcount, hnum]⟩
  rcases hsyms with h | h
  · exact Or.inl h
  · by_cases hname : c.name = ""
    · left
      rw [h, hsym]
      simp [hname]
    · right
      refine ⟨hname, ?_⟩
      rw [h, hsym]
      simp [hname]

/-- The number of named calls of a sequence, call by call. -/
theorem namedCalls_cons (c : SymbolCall) (cs : List SymbolCall) :
    namedCalls (c :: cs) = (if c.name ≠ "" then 1 else 0) + namedCalls cs := by
  unfold namedCalls
  by_cases h : c.name = ""
  · simp [List.filter_cons, h]
  · simp [List.filter_cons, h]
    omega

/-- The symbols a run hands to the backend are pairwise different and carry
counter values from the initial one upwards, as long as the counter does not
overflow. -/
theorem run_symbols (be : Backend) (w : Nat) (calls : List SymbolCall) :
    ∀ s : BzlaSolver, s.d_num_symbols + namedCalls calls < 2 ^ w →
      ∃ new, (s.run be w calls).log = s.log ++ new ∧ (symbolsPassed new).Nodup
        ∧ ∀ sym ∈ symbolsPassed new, ∃ n name, s.d_num_symbols ≤ n ∧ sym = mk_symbol n name := by
  induction calls with
  | nil =>
    intro s _
    exact ⟨[], by simp [BzlaSolver.run], by simp [symbolsPassed, apiCalls],
      by simp [symbolsPassed, apiCalls]⟩
  | cons c cs ih =>
    intro s hfit
    rw [namedCalls_cons] at hfit
    obtain ⟨new1, hlog1, hsyms1, hcount1⟩ := step_effect be w s c
    have hnodup1 : (symbolsPassed new1).Nodup := by
      rcases hsyms1 with h | ⟨_, h⟩ <;> rw [h] <;> simp
    have hfrom1 : ∀ sym ∈ symbolsPassed new1, sym = mk_symbol s.d_num_symbols c.name := by
      intro sym hsym
      rcases hsyms1 with h | ⟨_, h⟩ <;> rw [h] at hsym <;> simp at hsym
      exact hsym
    unfold BzlaSolver.run
    cases hr : s.step be w c with
    | mk res s1 =>
      rw [hr] at hlog1 hcount1
      simp only at hlog1 hcount1
      cases res with
      | error e =>
        refine ⟨new1, hlog1, hnodup1, ?_⟩
        intro sym hsym
        exact ⟨s.d_num_symbols, c.name, le_refl _, hfrom1 sym hsym⟩
      | ok t =>
        have hs1 : s.d_num_symbols ≤ s1.d_num_symbols
            ∧ s1.d_num_symbols + namedCalls cs < 2 ^ w
            ∧ (symbolsPassed new1 ≠ [] → s.d_num_symbols < s1.d_num_symbols) := by
          by_cases hname : c.name = ""
          · simp only [hname, ne_eq, not_true_eq_false, if_false] at hcount1 hfit
            refine ⟨by omega, by omega, ?_⟩
            intro hne
            rcases hsyms1 with h | ⟨h, _⟩
            · exact absurd h hne
            · exact absurd hname h
          · simp only [ne_eq, hname, not_false_eq_true, if_true] at hcount1 hfit
            have hlt : s.d_num_symbols + 1 < 2 ^ w := by omega
            rw [Nat.mod_eq_of_lt hlt] at hcount1
            exact ⟨by omega, by omega, fun _ => by omega⟩
        obtain ⟨new2, hlog2, hnodup2, hfrom2⟩ := ih s1 hs1.2.1
        refine ⟨new1 ++ new2, ?_, ?_, ?_⟩
        · simp only [hlog2, hlog1, List.append_assoc]
        · rw [symbolsPassed_append]
          refine List.Nodup.append hnodup1 hnodup2 ?_
          intro sym h1 h2
          obtain ⟨n, name, hn, hsym⟩ := hfrom2 sym h2
          have hlt := hs1.2.2 (List.ne_nil_of_mem h1)
          have heq := mk_symbol_counter_injective _ _ _ _ ((hfrom1 sym h1).symm.trans hsym)
          omega
        · intro sym hsym
          rw [symbolsPassed_append, List.mem_append] at hsym
          rcases hsym with h | h
          · exact ⟨s.d_num_symbols, c.name, le_refl _, hfrom1 sym h⟩
          · obtain ⟨n, name, hn, hsym⟩ := hfrom2 sym h
            exact ⟨n, name, by omega, hsym⟩

/-- C1. Symbol uniqueness. For every sequence of `mk_var` and `mk_const` calls
on one solver object during which the counter `d_num_symbols` does not
overflow its `w` bits, the symbols handed to the backend are pairwise
different (repeated names included). One call with a non-empty name advances
the counter by exactly one, and hands the symbol `sym<counter>@<name>` to the
backend when its sort is a Bitwuzla sort; a call with an empty name leaves the
counter alone and hands no symbol to the backend. -/
theorem symbols_are_unique (be : Backend) (w : Nat) (s : BzlaSolver) (calls : List SymbolCall)
    (c : SymbolCall) (hfit : s.d_num_symbols + namedCalls calls < 2 ^ w)
    (hone : s.d_num_symbols + 1 < 2 ^ w) :
    (∃ new, (s.run be w calls).log = s.log ++ new ∧ (symbolsPassed new).Nodup)
    ∧ (s.log = [] → (symbolsPassed (s.run be w calls).log).Nodup)
    ∧ (c.name ≠ "" → (s.step be w c).2.d_num_symbols = s.d_num_symbols + 1)
    ∧ (c.name ≠ "" → (dynamic_cast_BzlaSort c.sort).isSome = true →
        symbolsPassed (s.step be w c).2.log
          = symbolsPassed s.log ++ [mk_symbol s.d_num_symbols c.name])
    ∧ (c.name = "" → (s.step be w c).2.d_num_symbols = s.d_num_symbols
        ∧ symbolsPassed (s.step be w c).2.log = symbolsPassed s.log) := by
  obtain ⟨new, hlog, hnodup, -⟩ := run_symbols be w calls s hfit
  obtain ⟨new1, hlog1, hsyms1, hcount1⟩ := step_effect be w s c
  refine ⟨⟨new, hlog, hnodup⟩, ?_, ?_, ?_, ?_⟩
  · intro hempty
    rw [hlog, hempty, List.nil_append]
    exact hnodup
  · intro hname
    rw [hcount1, if_pos hname, Nat.mod_eq_of_lt hone]
  · intro hname hsort
    obtain ⟨b, hb⟩ := Option.isSome_iff_exists.mp hsort
    have hs : get_bzla_sort c.sort = .ok b.d_sort := by simp [get_bzla_sort, hb]
    have hone1 : symbolsPassed [Event.api (BzlaCall.mk_var s.d_solver b.d_sort
        (some (mk_symbol s.d_num_symbols c.name)))] = [mk_symbol s.d_num_symbols c.name] := rfl
    have hone2 : symbolsPassed [Event.api (BzlaCall.mk_const s.d_solver b.d_sort
        (some (mk_symbol s.d_num_symbols c.name)))] = [mk_symbol s.d_num_symbols c.name] := rfl
    have htwo : ∀ t0 t1, symbolsPassed [Event.api (BzlaCall.mk_const s.d_solver b.d_sort
        (some (mk_symbol s.d_num_symbols c.name))), Event.api (BzlaCall.term_is_equal_sort t0 t1)]
        = [mk_symbol s.d_num_symbols c.name] := fun _ _ => rfl
    cases c with
    | mk_var sort name =>
      simp only [SymbolCall.sort, SymbolCall.name] at hs hname hone1
      simp only [BzlaSolver.step, BzlaSolver.mk_var, hs, BzlaSolver.wrap_term, BzlaSolver.call,
        BzlaSolver.unique_symbol, hname, SymbolCall.name, if_true, ne_eq, not_false_eq_true]
      split <;> simp [symbolsPassed_append, hone1]
    | mk_const sort name pick =>
      simp only [SymbolCall.sort, SymbolCall.name] at hs hname hone2 htwo
      simp only [BzlaSolver.step, BzlaSolver.mk_const, hs, BzlaSolver.wrap_term, BzlaSolver.call,
        BzlaSolver.unique_symbol, hname, SymbolCall.name, if_true, ne_eq, not_false_eq_true]
      split
      · simp [symbolsPassed_append, hone2]
      · split
        · split <;>
            simp only [symbolsPassed_append, List.append_assoc, List.singleton_append, htwo]
        · simp [symbolsPassed_append, hone2]
  · intro hname
    refine ⟨by rw [hcount1]; simp [hname], ?_⟩
    rw [hlog1, symbolsPassed_append]
    rcases hsyms1 with h | ⟨h, _⟩
    · rw [h, List.append_nil]
    · exact absurd hname h

/-- The example backend never returns the null pointer. -/
theorem exampleBackend_never_null : exampleBackend.never_null :=
  fun _ _ => Nat.one_ne_zero

/-- C1, at an input: two calls with the name `x` and one without a name, on a
fresh solver with a 64-bit counter, hand the symbols `sym0@x` and `sym1@x` to
the backend. -/
theorem symbols_are_unique_witness :
    (symbolsPassed (BzlaSolver.run exampleBackend 64 {} exampleCalls).log).Nodup
    ∧ (BzlaSolver.step exampleBackend 64 {} (.mk_var (BzlaSort.wrap 1 5) "x")).2.d_num_symbols
        = 0 + 1
    ∧ symbolsPassed (BzlaSolver.run exampleBackend 64 {} exampleCalls).log
        = ["sym0@x", "sym1@x"] :=
  ⟨(symbols_are_unique exampleBackend 64 {} exampleCalls (.mk_var (BzlaSort.wrap 1 5) "x")
      (by decide) (by decide)).2.1 rfl,
    (symbols_are_unique exampleBackend 64 {} exampleCalls (.mk_var (BzlaSort.wrap 1 5) "x")
      (by decide) (by decide)).2.2.1 (by decide),
    by decide⟩

/-- C3, at an input: the size overload returns a sort for BV and rejects FP,
and the composite overload returns a sort for an array of two Bitwuzla sorts. -/
theorem mk_sort_accepts_exactly_its_kinds_witness :
    returns (BzlaSolver.mk_sort_kind_size exampleBackend {} .SORT_BV 8).1 = true
    ∧ fails_config (BzlaSolver.mk_sort_kind_size exampleBackend {} .SORT_FP 8).1 = true
    ∧ returns (BzlaSolver.mk_sort_kind_sorts exampleBackend {} .SORT_ARRAY
        [BzlaSort.wrap 1 5, BzlaSort.wrap 1 6]).1 = true :=
  ⟨(mk_sort_accepts_exactly_its_kinds exampleBackend {} .SORT_BV 8 0 0 []).2.1.2.2.2 rfl
      exampleBackend_never_null,
    (mk_sort_accepts_exactly_its_kinds exampleBackend {} .SORT_FP 8 0 0 []).2.1.1.mpr
      (by decide),
    (mk_sort_accepts_exactly_its_kinds exampleBackend {} .SORT_ARRAY 0 0 0
      [BzlaSort.wrap 1 5, BzlaSort.wrap 1 6]).2.2.2.2.2.2.1 rfl exampleBackend_never_null
      (by decide) (by intro x hx; simp at hx; rcases hx with rfl | rfl <;> rfl)⟩

/-- C4, at an input: after `init_op_kinds`, `OP_FP_TO_REAL` is rejected, and
`OP_BV_ADD` on two terms and no index leads to the one call
`bitwuzla_mk_term(BITWUZLA_KIND_BV_ADD, 2, args)`. -/
theorem mk_term_fails_iff_kind_not_configured_witness :
    fails_config ((BzlaSolver.init_op_kinds exampleOp {}).mk_term exampleBackend
        (exampleOp .FP_TO_REAL) [] []).1 = true
    ∧ ((BzlaSolver.init_op_kinds exampleOp {}).mk_term exampleBackend (exampleOp .BV_ADD)
        [BzlaTerm.wrap 3, BzlaTerm.wrap 4] []).2.log
        = [Event.api (BzlaCall.mk_term 0 BitwuzlaKind.BV_ADD 2 [3, 4])] :=
  ⟨(mk_term_fails_iff_kind_not_configured exampleBackend exampleOp {} (exampleOp .FP_TO_REAL)
      [] []).2.2.2.2.1
      (by intro k hk; cases k <;> first | exact absurd rfl hk | decide)
      (by decide) _ (List.mem_singleton_self _),
    ((mk_term_fails_iff_kind_not_configured exampleBackend exampleOp
      (BzlaSolver.init_op_kinds exampleOp {}) (exampleOp .BV_ADD)
      [BzlaTerm.wrap 3, BzlaTerm.wrap 4] []).2.2.2.2.2 .BV_ADD [3, 4] (by decide) rfl).2⟩

/-- C10, at an input: the line `bzla-is-unsat-assumption 3` is replayed and
returns 0, the same action without a token is a trace error, and so is the id
`4`, which the manager does not know. -/
theorem untrace_validates_its_line_witness :
    (BzlaAction.untrace exampleBackend exampleUtil exampleManager ["3"]
        .is_unsat_assumption).1 = .ok 0
    ∧ fails_trace (BzlaAction.untrace exampleBackend exampleUtil exampleManager []
        .is_unsat_assumption).1 = true
    ∧ fails_trace (BzlaAction.untrace exampleBackend exampleUtil exampleManager ["4"]
        .is_unsat_assumption).1 = true :=
  ⟨(untrace_validates_its_line exampleBackend exampleUtil exampleManager ["3"]
      .is_unsat_assumption).2.2.2.2.1 "3" 3 { d_term := 9 } rfl rfl (by decide) (by decide),
    ((untrace_validates_its_line exampleBackend exampleUtil exampleManager []
      .is_unsat_assumption).1 (by decide)).1,
    ((untrace_validates_its_line exampleBackend exampleUtil exampleManager ["4"]
      .is_unsat_assumption).2.1 "4" [] 4 (Or.inl rfl) rfl (by decide) (by decide)
      (by decide)).1⟩

/-- C18. `BzlaSolver::reset_assertions` is a no-op: for every state of the
solver it returns, leaves the solver object as it was, and so adds no backend
call to the log. -/
theorem reset_assertions_is_noop (s : BzlaSolver) :
    s.reset_assertions = (.ok (), s)
    ∧ apiCalls (s.reset_assertions).2.log = apiCalls s.log :=
  ⟨rfl, rfl⟩

/-- C19. Every operator kind, action kind and state kind that the Bitwuzla
backend defines begins with the solver id `bzla-`, and the twenty strings are
pairwise different. -/
theorem backend_kinds_are_namespaced :
    (∀ kind ∈ backend_defined_kinds, begins_with_bzla kind = true)
    ∧ backend_defined_kinds.Nodup
    ∧ backend_defined_kinds.length = 20 := by
  decide

/-- C20. Unsat assumptions cannot be configured and are always enabled:
`set_opt` with the option `produce-unsat-assumptions` returns for every value
string, parsable or not, and leaves the solver as it was (no backend call);
that option name is what `get_option_name_unsat_assumptions` returns; and
`option_unsat_assumptions_enabled` is true in every state of the solver. -/
theorem unsat_assumptions_always_enabled (be : Backend) (s : BzlaSolver) (value : String) :
    s.set_opt be "produce-unsat-assumptions" value = (.ok (), s)
    ∧ s.set_opt be BzlaSolver.get_option_name_unsat_assumptions value = (.ok (), s)
    ∧ BzlaSolver.get_option_name_unsat_assumptions = "produce-unsat-assumptions"
    ∧ s.option_unsat_assumptions_enabled = true := by
  refine ⟨?_, ?_, rfl, rfl⟩
  · simp [BzlaSolver.set_opt]
  · simp [BzlaSolver.set_opt, BzlaSolver.get_option_name_unsat_assumptions]

/-- C15. Lifecycle of the backend handle. `is_initialized` holds exactly when
`d_solver` is not null. On an uninitialized solver, `new_solver` returns and
leaves the solver initialized (the library handing out a non-null handle) with
the table of `init_op_kinds` in `d_op_kinds`, and `delete_solver` fails its
assertion. On an initialized solver, `delete_solver` returns and leaves the
solver uninitialized, after which `new_solver` returns again and initializes
it, and `new_solver` fails its assertion. -/
theorem solver_lifecycle (be : Backend) (Op : StdOp → OpKind) (s : BzlaSolver) :
    (s.is_initialized = true ↔ s.d_solver ≠ 0)
    ∧ (s.is_initialized = false → be.never_null →
        (s.new_solver be Op).1 = .ok ()
        ∧ (s.new_solver be Op).2.is_initialized = true
        ∧ (s.new_solver be Op).2.d_op_kinds = init_op_kinds_table Op)
    ∧ (s.is_initialized = false →
        s.delete_solver be = (.error .assertion, s))
    ∧ (s.is_initialized = true →
        (s.delete_solver be).1 = .ok ()
        ∧ (s.delete_solver be).2.is_initialized = false
        ∧ (be.never_null →
            ((s.delete_solver be).2.new_solver be Op).1 = .ok ()
            ∧ ((s.delete_solver be).2.new_solver be Op).2.is_initialized = true))
    ∧ (s.is_initialized = true →
        s.new_solver be Op = (.error .assertion, s)) := by
  have hinit : s.is_initialized = true ↔ s.d_solver ≠ 0 := by
    simp [BzlaSolver.is_initialized]
  have hnot : s.is_initialized = false ↔ s.d_solver = 0 := by
    simp [BzlaSolver.is_initialized]
  refine ⟨hinit, ?_, ?_, ?_, ?_⟩
  · intro h hbe
    have h0 := hnot.mp h
    simp [BzlaSolver.new_solver, h0, BzlaSolver.init_op_kinds, BzlaSolver.call,
      BzlaSolver.is_initialized, hbe _ _]
  · intro h
    simp [BzlaSolver.delete_solver, hnot.mp h]
  · intro h
    have h0 := hinit.mp h
    refine ⟨by simp [BzlaSolver.delete_solver, h0],
      by simp [BzlaSolver.delete_solver, h0, BzlaSolver.is_initialized], ?_⟩
    intro hbe
    simp [BzlaSolver.delete_solver, h0, BzlaSolver.new_solver, BzlaSolver.init_op_kinds,
      BzlaSolver.call, BzlaSolver.is_initialized, hbe _ _]
  · intro h
    simp [BzlaSolver.new_solver, hinit.mp h]

/-- C15, at an input: a fresh solver is uninitialized, `new_solver`
initializes it, and `delete_solver` on the result leaves it uninitialized. -/
theorem solver_lifecycle_witness :
    (BzlaSolver.new_solver exampleBackend exampleOp {}).1 = .ok ()
    ∧ (BzlaSolver.new_solver exampleBackend exampleOp {}).2.is_initialized = true
    ∧ (BzlaSolver.delete_solver exampleBackend
        (BzlaSolver.new_solver exampleBackend exampleOp {}).2).2.is_initialized = false :=
  ⟨((solver_lifecycle exampleBackend exampleOp {}).2.1 rfl exampleBackend_never_null).1,
    ((solver_lifecycle exampleBackend exampleOp {}).2.1 rfl exampleBackend_never_null).2.1,
    ((solver_lifecycle exampleBackend exampleOp
      (BzlaSolver.new_solver exampleBackend exampleOp {}).2).2.2.2.1 rfl).2.1⟩

/-- C16. `mk_special_value` does not fail with a configuration error for every
sort whose kind is none of BV, FP and RM: the `default` case checks
`sort->is_bv()`, which asks the library about the handle. For a sort of kind
`SORT_BOOL` whose handle is the Boolean sort of the library, which is the
bit-vector sort of width 1, the check passes and the method fails at
`assert(bzla_res)` instead. No backend call is made. -/
theorem mk_special_value_bool_sort_fails_assertion (s : BzlaSolver) (value : SpecialValueKind)
    (check : Bool) (pick : Choice) (coin : Bool) (draw : Nat) :
    s.mk_special_value exampleBackend
        (some (.bzla { d_solver := 1, d_sort := 7, d_kind := .SORT_BOOL }))
        value check pick coin draw = (.error .assertion, s)
    ∧ fails_config (s.mk_special_value exampleBackend
        (some (.bzla { d_solver := 1, d_sort := 7, d_kind := .SORT_BOOL }))
        value check pick coin draw).1 = false
    ∧ fails_config (s.mk_special_value exampleBackend
        (some (.bzla { d_solver := 1, d_sort := 8, d_kind := .SORT_BOOL }))
        value check pick coin draw).1 = true :=
  ⟨rfl, rfl, rfl⟩

/-- Wrapping a sort handle leaves the solver alone. -/
theorem wrap_sort_state (s : BzlaSolver) (bzla_res : Ptr) : (s.wrap_sort bzla_res).2 = s := by
  unfold BzlaSolver.wrap_sort
  split <;> rfl

/-- The converted sorts are the handles of the given sorts, in the given order
and number. -/
theorem sorts_to_bzla_sorts_forall₂ (sorts : List SortPtr) (res : List Ptr)
    (h : sorts_to_bzla_sorts sorts = .ok res) :
    List.Forall₂ (fun sort p => get_bzla_sort sort = .ok p) sorts res := by
  induction sorts generalizing res with
  | nil =>
    simp [sorts_to_bzla_sorts] at h
    subst h
    exact List.Forall₂.nil
  | cons sort rest ih =>
    unfold sorts_to_bzla_sorts at h
    split at h
    · simp at h
    · rename_i p hp
      split at h
      · simp at h
      · rename_i ps hps
        simp at h
        subst h
        exact List.Forall₂.cons hp (ih ps hps)

/-- C17. Child-sort layout of composite sorts. For an array, `mk_sort` hands
the handle of `sorts[0]` to the backend as the index sort and the handle of
`sorts[1]` as the element sort. For a function over Bitwuzla sorts, it hands
over a domain and a codomain such that the domain followed by the codomain is
the list of the handles of the given sorts, in order; the domain has one
element less than the given list and its length is passed as the arity. -/
theorem mk_sort_child_layout (be : Backend) (s : BzlaSolver) (sorts : List SortPtr) :
    (∀ s0 s1 rest index element, sorts = s0 :: s1 :: rest →
        get_bzla_sort s0 = .ok index → get_bzla_sort s1 = .ok element →
        (s.mk_sort_kind_sorts be .SORT_ARRAY sorts).2.log
          = s.log ++ [Event.api (.mk_array_sort s.d_solver index element)])
    ∧ (sorts ≠ [] → all_bzla_sorts sorts →
        ∃ domain codomain,
          (s.mk_sort_kind_sorts be .SORT_FUN sorts).2.log
            = s.log ++ [Event.api (.mk_fun_sort s.d_solver domain.length domain codomain)]
          ∧ List.Forall₂ (fun sort p => get_bzla_sort sort = .ok p) sorts (domain ++ [codomain])
          ∧ domain.length = sorts.length - 1) := by
  constructor
  · intro s0 s1 rest index element hs h0 h1
    subst hs
    simp [BzlaSolver.mk_sort_kind_sorts, h0, h1, wrap_sort_state, BzlaSolver.call]
  · intro hne hall
    have hlast : sorts.getLast? = some (sorts.getLast hne) := List.getLast?_eq_getLast _ hne
    obtain ⟨c, hc⟩ := get_bzla_sort_ok (sorts.getLast hne) (hall _ (List.getLast_mem hne))
    obtain ⟨d, hd⟩ := sorts_to_bzla_sorts_ok sorts.dropLast
      (fun x hx => hall x (List.dropLast_subset _ hx))
    have hfd := sorts_to_bzla_sorts_forall₂ _ _ hd
    refine ⟨d, c, ?_, ?_, ?_⟩
    · simp [BzlaSolver.mk_sort_kind_sorts, hlast, hc, hd, wrap_sort_state, BzlaSolver.call]
    · have happ : List.Forall₂ (fun sort p => get_bzla_sort sort = .ok p)
          (sorts.dropLast ++ [sorts.getLast hne]) (d ++ [c]) :=
        List.rel_append hfd (List.Forall₂.cons hc List.Forall₂.nil)
      rwa [List.dropLast_append_getLast hne] at happ
    · rw [← hfd.length_eq, List.length_dropLast]

/-- What `_run` of an action adds to the log: its trace line, followed by at
most one backend call. -/
theorem _run_effect (be : Backend) (smgr : SolverManager) (term : Term) (symbol : String)
    (a : BzlaAction) :
    ∃ calls : List BzlaCall, (a._run be smgr term symbol).2.d_solver.log
        = smgr.d_solver.log ++ Event.trace (a.line term symbol) :: calls.map Event.api
      ∧ calls.length ≤ 1
      ∧ ((a._run be smgr term symbol).1 = .ok () → calls.length = 1) := by
  cases a
  · simp only [BzlaAction._run, BzlaActionIsUnsatAssumption._run, BzlaAction.line]
    cases hterm : get_bzla_term term with
    | error e => exact ⟨[], by simp [SolverManager.MURXLA_TRACE], by simp, by simp⟩
    | ok p =>
      exact ⟨[BzlaCall.is_unsat_assumption smgr.d_solver.d_solver p],
        by simp [SolverManager.MURXLA_TRACE, SolverManager.call, BzlaSolver.call], by simp,
        by simp⟩
  · exact ⟨[BzlaCall.fixate_assumptions smgr.d_solver.d_solver],
      by simp [BzlaAction._run, BzlaActionFixateAssumptions._run, BzlaAction.line,
        SolverManager.MURXLA_TRACE, SolverManager.call, BzlaSolver.call, SolverManager.clear],
      by simp, by simp⟩
  · exact ⟨[BzlaCall.reset_assumptions smgr.d_solver.d_solver],
      by simp [BzlaAction._run, BzlaActionResetAssumptions._run, BzlaAction.line,
        SolverManager.MURXLA_TRACE, SolverManager.call, BzlaSolver.call, SolverManager.clear],
      by simp, by simp⟩
  · exact ⟨[BzlaCall.simplify smgr.d_solver.d_solver],
      by simp [BzlaAction._run, BzlaActionSimplify._run, BzlaAction.line,
        SolverManager.MURXLA_TRACE, SolverManager.call, BzlaSolver.call],
      by simp, by simp⟩
  · simp only [BzlaAction._run, BzlaActionTermSetSymbol._run, BzlaAction.line]
    cases hterm : get_bzla_term term with
    | error e => exact ⟨[], by simp [SolverManager.MURXLA_TRACE], by simp, by simp⟩
    | ok p =>
      exact ⟨[BzlaCall.term_set_symbol p symbol],
        by simp [SolverManager.MURXLA_TRACE, SolverManager.call, BzlaSolver.call], by simp,
        by simp⟩

/-- Backend calls are not trace lines. -/
theorem traceLines_append_trace (old : List Event) (line : String) (calls : List BzlaCall) :
    traceLines (old ++ Event.trace line :: calls.map Event.api) = traceLines old ++ [line] := by
  have hcalls : traceLines (calls.map Event.api) = [] := by
    induction calls with
    | nil => rfl
    | cons c cs ih => simp [traceLines]
  have hcons : traceLines (Event.trace line :: calls.map Event.api)
      = line :: traceLines (calls.map Event.api) := by
    simp [traceLines]
  simp only [traceLines, List.filterMap_append] at hcalls hcons ⊢
  rw [hcons, hcalls]

/-- Picking a symbol does not touch the solver. -/
theorem pick_symbol_solver (smgr : SolverManager) (drawn : String) :
    (smgr.pick_symbol drawn).2.d_solver = smgr.d_solver := by
  unfold SolverManager.pick_symbol
  split <;> rfl

/-- A pick from a non-empty set of assumptions yields one of its members. -/
theorem pick_assumed_assumption_mem (smgr : SolverManager) (draw : Nat)
    (hne : smgr.d_assumptions ≠ []) :
    ∃ term, term ∈ smgr.d_assumptions ∧ smgr.pick_assumed_assumption draw = .ok term := by
  have hlen : 0 < smgr.d_assumptions.length := List.length_pos.mpr hne
  have hlt : draw % smgr.d_assumptions.length < smgr.d_assumptions.length := Nat.mod_lt _ hlen
  refine ⟨smgr.d_assumptions[draw % smgr.d_assumptions.length], List.getElem_mem _, ?_⟩
  simp [SolverManager.pick_assumed_assumption, List.getElem?_eq_getElem hlt]

/-- Returning after a call keeps the state the call has left, and returns the
value exactly when the call has returned. -/
theorem then_return_spec {α : Type} (o : ActionOutcome Unit) (value : α) :
    (then_return o value).2 = o.2
    ∧ ((then_return o value).1 = .ok value ↔ o.1 = .ok ())
    ∧ (∀ v, (then_return o value).1 = .ok v → v = value) := by
  rcases o with ⟨r, after⟩
  cases r <;> simp [then_return]

/-- What `run` of an action adds to the log: nothing, or what its `_run` adds. -/
theorem run_effect (be : Backend) (smgr : SolverManager) (draw : Nat) (drawn : String)
    (a : BzlaAction) :
    ∃ new, (a.run be smgr draw drawn).2.d_solver.log = smgr.d_solver.log ++ new
      ∧ (new = [] ∨ ∃ line, ∃ calls : List BzlaCall,
          new = Event.trace line :: calls.map Event.api ∧ calls.length ≤ 1) := by
  have hnone : ∀ r : Except Error Bool, ∃ new, ((r, smgr) : ActionOutcome Bool).2.d_solver.log
      = smgr.d_solver.log ++ new ∧ (new = [] ∨ ∃ line, ∃ calls : List BzlaCall,
          new = Event.trace line :: calls.map Event.api ∧ calls.length ≤ 1) :=
    fun _ => ⟨[], by simp, Or.inl rfl⟩
  have hsome : ∀ (start : SolverManager) (term : Term) (symbol : String),
      start.d_solver = smgr.d_solver →
      ∃ new, (then_return (a._run be start term symbol) true).2.d_solver.log
          = smgr.d_solver.log ++ new
        ∧ (new = [] ∨ ∃ line, ∃ calls : List BzlaCall,
          new = Event.trace line :: calls.map Event.api ∧ calls.length ≤ 1) := by
    intro start term symbol hstart
    obtain ⟨calls, hlog, hlen, -⟩ := _run_effect be start term symbol a
    exact ⟨_, by rw [(then_return_spec _ _).1, hlog, hstart], Or.inr ⟨_, calls, rfl, hlen⟩⟩
  cases a
  · simp only [BzlaAction.run, BzlaActionIsUnsatAssumption.run]
    repeat' split
    all_goals first
      | exact hnone _
      | exact hsome smgr _ "" rfl
  · simp only [BzlaAction.run, BzlaActionFixateAssumptions.run]
    repeat' split
    all_goals first
      | exact hnone _
      | exact hsome smgr none "" rfl
  · simp only [BzlaAction.run, BzlaActionResetAssumptions.run]
    repeat' split
    all_goals first
      | exact hnone _
      | exact hsome smgr none "" rfl
  · simp only [BzlaAction.run, BzlaActionSimplify.run]
    repeat' split
    all_goals first
      | exact hnone _
      | exact hsome smgr none "" rfl
  · simp only [BzlaAction.run, BzlaActionTermSetSymbol.run]
    repeat' split
    all_goals first
      | exact hnone _
      | exact hsome _ _ _ (pick_symbol_solver smgr drawn)

/-- C13. In every Bitwuzla-specific action the trace line is written before
the backend call is issued. What `_run` adds to the log is the line of the
action followed by at most one backend call, so the line is the last line of
the trace when the call is made; and what `run` adds to the log is either
nothing or again a trace line followed by at most one backend call. -/
theorem trace_line_precedes_backend_call (be : Backend) (smgr : SolverManager) (term : Term)
    (symbol : String) (draw : Nat) (drawn : String) (a : BzlaAction) :
    (∃ calls : List BzlaCall, (a._run be smgr term symbol).2.d_solver.log
        = smgr.d_solver.log ++ Event.trace (a.line term symbol) :: calls.map Event.api
      ∧ calls.length ≤ 1
      ∧ ((a._run be smgr term symbol).1 = .ok () → calls.length = 1))
    ∧ traceLines (a._run be smgr term symbol).2.d_solver.log
        = traceLines smgr.d_solver.log ++ [a.line term symbol]
    ∧ (∃ new, (a.run be smgr draw drawn).2.d_solver.log = smgr.d_solver.log ++ new
        ∧ (new = [] ∨ ∃ line, ∃ calls : List BzlaCall,
            new = Event.trace line :: calls.map Event.api ∧ calls.length ≤ 1)) := by
  refine ⟨_run_effect be smgr term symbol a, ?_, run_effect be smgr draw drawn a⟩
  obtain ⟨calls, hlog, -, -⟩ := _run_effect be smgr term symbol a
  rw [hlog, traceLines_append_trace]

/-- Unwrapping a Bitwuzla term succeeds. -/
theorem get_bzla_term_ok (term : Term) (h : (dynamic_cast_BzlaTerm term).isSome = true) :
    ∃ bzla_term, get_bzla_term term = .ok bzla_term := by
  obtain ⟨b, hb⟩ := Option.isSome_iff_exists.mp h
  exact ⟨b.d_term, by simp [get_bzla_term, hb]⟩

/-- C12. Sat freshness for the unsat-assumption query. On an initialized
solver whose assumptions are Bitwuzla terms, `BzlaActionIsUnsatAssumption::run`
returns true exactly when `d_sat_called` is set, the last result is UNSAT,
`d_incremental` is set and the set of assumptions is not empty. When one of
the four fails it returns false and leaves the manager as it was; when all
hold it writes its trace line and then asks the backend about a term that is a
member of the set of assumptions. -/
theorem is_unsat_assumption_run_iff (be : Backend) (smgr : SolverManager) (draw : Nat)
    (hinit : smgr.d_solver.is_initialized = true)
    (hbzla : ∀ t ∈ smgr.d_assumptions, (dynamic_cast_BzlaTerm t).isSome = true) :
    ((BzlaActionIsUnsatAssumption.run be smgr draw).1 = .ok true
      ↔ (smgr.d_sat_called = true ∧ smgr.d_sat_result = Result.UNSAT
          ∧ smgr.d_incremental = true ∧ smgr.d_assumptions ≠ []))
    ∧ (¬(smgr.d_sat_called = true ∧ smgr.d_sat_result = Result.UNSAT
          ∧ smgr.d_incremental = true ∧ smgr.d_assumptions ≠ []) →
        BzlaActionIsUnsatAssumption.run be smgr draw = (.ok false, smgr))
    ∧ (smgr.d_sat_called = true ∧ smgr.d_sat_result = Result.UNSAT
          ∧ smgr.d_incremental = true ∧ smgr.d_assumptions ≠ [] →
        ∃ term bzla_term, term ∈ smgr.d_assumptions ∧ get_bzla_term term = .ok bzla_term
          ∧ (BzlaActionIsUnsatAssumption.run be smgr draw).2.d_solver.log
            = smgr.d_solver.log
              ++ [Event.trace (BzlaSolver.ACTION_IS_UNSAT_ASSUMPTION ++ " " ++ Term.str term),
                  Event.api (.is_unsat_assumption smgr.d_solver.d_solver bzla_term)]) := by
  have hfalse : ¬(smgr.d_sat_called = true ∧ smgr.d_sat_result = Result.UNSAT
      ∧ smgr.d_incremental = true ∧ smgr.d_assumptions ≠ []) →
      BzlaActionIsUnsatAssumption.run be smgr draw = (.ok false, smgr) := by
    intro hnot
    unfold BzlaActionIsUnsatAssumption.run
    simp only [hinit, Bool.not_true, Bool.false_eq_true, if_false]
    by_cases h1 : smgr.d_sat_called = true
    · by_cases h2 : smgr.d_sat_result = Result.UNSAT
      · by_cases h3 : smgr.d_incremental = true
        · have h4 : smgr.d_assumptions = [] := by
            by_contra h4
            exact hnot ⟨h1, h2, h3, h4⟩
          simp [h1, h2, h3, h4, SolverManager.has_assumed]
        · simp [h1, h2, h3]
      · simp [h1, h2]
    · simp [h1]
  have htrue : smgr.d_sat_called = true ∧ smgr.d_sat_result = Result.UNSAT
      ∧ smgr.d_incremental = true ∧ smgr.d_assumptions ≠ [] →
      ∃ term bzla_term, term ∈ smgr.d_assumptions ∧ get_bzla_term term = .ok bzla_term
        ∧ (BzlaActionIsUnsatAssumption.run be smgr draw).1 = .ok true
        ∧ (BzlaActionIsUnsatAssumption.run be smgr draw).2.d_solver.log
          = smgr.d_solver.log
            ++ [Event.trace (BzlaSolver.ACTION_IS_UNSAT_ASSUMPTION ++ " " ++ Term.str term),
                Event.api (.is_unsat_assumption smgr.d_solver.d_solver bzla_term)] := by
    rintro ⟨h1, h2, h3, h4⟩
    obtain ⟨term, hmem, hpick⟩ := pick_assumed_assumption_mem smgr draw h4
    obtain ⟨p, hp⟩ := get_bzla_term_ok term (hbzla term hmem)
    refine ⟨term, p, hmem, hp, ?_, ?_⟩
    · simp [BzlaActionIsUnsatAssumption.run, hinit, h1, h2, h3, h4, SolverManager.has_assumed,
        hpick, BzlaActionIsUnsatAssumption._run, hp, then_return]
    · simp [BzlaActionIsUnsatAssumption.run, hinit, h1, h2, h3, h4, SolverManager.has_assumed,
        hpick, BzlaActionIsUnsatAssumption._run, hp, then_return, SolverManager.MURXLA_TRACE,
        SolverManager.call, BzlaSolver.call]
  refine ⟨⟨?_, ?_⟩, hfalse, ?_⟩
  · intro hrun
    by_contra hnot
    rw [hfalse hnot] at hrun
    simp at hrun
  · intro hall
    obtain ⟨_, _, _, _, hrun, _⟩ := htrue hall
    exact hrun
  · intro hall
    obtain ⟨term, p, hmem, hp, _, hlog⟩ := htrue hall
    exact ⟨term, p, hmem, hp, hlog⟩

/-- When `run` returns true, its `_run` has returned and has left the state of `run`. -/
theorem then_return_eq_ok {o : ActionOutcome Unit} {after : SolverManager}
    (h : then_return o true = (.ok true, after)) : o = (.ok (), after) := by
  rcases o with ⟨r, st⟩
  cases r <;> simp_all [then_return]

/-- A term that can be unwrapped is not the null pointer. -/
theorem get_bzla_term_isSome (term : Term) (p : Ptr) (h : get_bzla_term term = .ok p) :
    term.isSome = true := by
  cases term with
  | none => simp [get_bzla_term, dynamic_cast_BzlaTerm] at h
  | some t => rfl

/-- A `_run` with a term returns only when the term is not the null pointer. -/
theorem _run_term_isSome (be : Backend) (smgr after : SolverManager) (term : Term)
    (symbol : String) :
    (BzlaActionIsUnsatAssumption._run be smgr term = (.ok (), after) → term.isSome = true)
    ∧ (BzlaActionTermSetSymbol._run be smgr term symbol = (.ok (), after) →
        term.isSome = true) := by
  constructor
  · intro h
    cases hg : get_bzla_term term with
    | error e => simp [BzlaActionIsUnsatAssumption._run, hg] at h
    | ok p => exact get_bzla_term_isSome term p hg
  · intro h
    cases hg : get_bzla_term term with
    | error e => simp [BzlaActionTermSetSymbol._run, hg] at h
    | ok p => exact get_bzla_term_isSome term p hg

/-- The log that `_run` leaves does not depend on the manager it starts from,
only on the solver the manager owns. -/
theorem _run_term_set_symbol_solver (be : Backend) (smgr1 smgr2 : SolverManager) (term : Term)
    (symbol : String) (h : smgr1.d_solver = smgr2.d_solver) :
    (BzlaActionTermSetSymbol._run be smgr1 term symbol).1
      = (BzlaActionTermSetSymbol._run be smgr2 term symbol).1
    ∧ (BzlaActionTermSetSymbol._run be smgr1 term symbol).2.d_solver
      = (BzlaActionTermSetSymbol._run be smgr2 term symbol).2.d_solver := by
  unfold BzlaActionTermSetSymbol._run
  cases get_bzla_term term <;>
    simp [SolverManager.MURXLA_TRACE, SolverManager.call, BzlaSolver.call, h]

/-- C11. Replay re-executes the same call. Whenever `run` of a
Bitwuzla-specific action executes in a manager state, `untrace` in that state,
on tokens that resolve to the arguments `run` has picked, returns 0 and leaves
the solver exactly as `run` has left it: what both have added to the log is
the same one trace line followed by the same one backend call with the same
arguments. -/
theorem untrace_replays_run (be : Backend) (util : Util) (smgr : SolverManager) (draw : Nat)
    (drawn : String) (tokens : List String) (a : BzlaAction) (after : SolverManager)
    (hrun : a.run be smgr draw drawn = (.ok true, after))
    (hres : resolves util smgr draw drawn tokens a) :
    ∃ replayed, a.untrace be util smgr tokens = (.ok 0, replayed)
      ∧ replayed.d_solver = after.d_solver
      ∧ ∃ line call, after.d_solver.log
          = smgr.d_solver.log ++ [Event.trace line, Event.api call] := by
  have hshape : ∀ (start : SolverManager) (term : Term) (symbol : String),
      start.d_solver = smgr.d_solver →
      a._run be start term symbol = (.ok (), after) →
      ∃ line call, after.d_solver.log
        = smgr.d_solver.log ++ [Event.trace line, Event.api call] := by
    intro start term symbol hstart h
    obtain ⟨calls, hlog, -, hone⟩ := _run_effect be start term symbol a
    rw [h] at hlog hone
    match calls, hone rfl with
    | [c], _ => exact ⟨_, c, by rw [hlog, hstart]; rfl⟩
  cases a
  · obtain ⟨token0, id, htok, hid, hpick⟩ := hres
    subst htok
    simp only [BzlaAction.run, BzlaActionIsUnsatAssumption.run] at hrun
    split at hrun
    · simp at hrun
    split at hrun
    · simp at hrun
    split at hrun
    · simp at hrun
    split at hrun
    · simp at hrun
    split at hrun
    · simp at hrun
    rw [hpick] at hrun
    have h := then_return_eq_ok hrun
    have hsome := (_run_term_isSome be smgr after _ "").1 h
    refine ⟨after, ?_, rfl, hshape smgr _ "" rfl h⟩
    simp [BzlaAction.untrace, BzlaActionIsUnsatAssumption.untrace, MURXLA_CHECK_TRACE_NTOKENS,
      MURXLA_CHECK_TRACE_TERM, hid, hsome, h]
  · simp only [resolves] at hres
    subst hres
    simp only [BzlaAction.run, BzlaActionFixateAssumptions.run] at hrun
    split at hrun
    · simp at hrun
    split at hrun
    · simp at hrun
    have h := then_return_eq_ok hrun
    refine ⟨after, ?_, rfl, hshape smgr none "" rfl h⟩
    simp [BzlaAction.untrace, BzlaActionFixateAssumptions.untrace, MURXLA_CHECK_TRACE_EMPTY, h]
  · simp only [resolves] at hres
    subst hres
    simp only [BzlaAction.run, BzlaActionResetAssumptions.run] at hrun
    split at hrun
    · simp at hrun
    split at hrun
    · simp at hrun
    have h := then_return_eq_ok hrun
    refine ⟨after, ?_, rfl, hshape smgr none "" rfl h⟩
    simp [BzlaAction.untrace, BzlaActionResetAssumptions.untrace, MURXLA_CHECK_TRACE_EMPTY, h]
  · simp only [resolves] at hres
    subst hres
    simp only [BzlaAction.run, BzlaActionSimplify.run] at hrun
    split at hrun
    · simp at hrun
    split at hrun
    · simp at hrun
    have h := then_return_eq_ok hrun
    refine ⟨after, ?_, rfl, hshape smgr none "" rfl h⟩
    simp [BzlaAction.untrace, BzlaActionSimplify.untrace, MURXLA_CHECK_TRACE_EMPTY, h]
  · obtain ⟨token0, token1, id, htok, hid, hpick, hsym⟩ := hres
    subst htok
    simp only [BzlaAction.run, BzlaActionTermSetSymbol.run] at hrun
    split at hrun
    · simp at hrun
    split at hrun
    · simp at hrun
    rw [hpick] at hrun
    have h := then_return_eq_ok hrun
    have hsome := (_run_term_isSome be _ after _ _).2 h
    have hsolver := _run_term_set_symbol_solver be smgr (smgr.pick_symbol drawn).2
      (smgr.get_term id) (smgr.pick_symbol drawn).1 (pick_symbol_solver smgr drawn).symm
    rw [h] at hsolver
    refine ⟨(BzlaActionTermSetSymbol._run be smgr (smgr.get_term id)
      (smgr.pick_symbol drawn).1).2, ?_, hsolver.2,
      hshape _ _ _ (pick_symbol_solver smgr drawn) h⟩
    have hres1 : (BzlaActionTermSetSymbol._run be smgr (smgr.get_term id)
        (smgr.pick_symbol drawn).1).1 = .ok () := hsolver.1
    simp only [BzlaAction.untrace, BzlaActionTermSetSymbol.untrace, MURXLA_CHECK_TRACE_NTOKENS,
      MURXLA_CHECK_TRACE_TERM, hid, hsome, hsym, List.length_cons, List.length_nil,
      List.getElem?_cons_zero, List.getElem?_cons_succ, if_true]
    rcases hr : BzlaActionTermSetSymbol._run be smgr (smgr.get_term id)
        (smgr.pick_symbol drawn).1 with ⟨r, st⟩
    rw [hr] at hres1
    simp only at hres1
    subst hres1
    rfl

/-- Keeping the states is transitive. -/
theorem kept_by_trans (a b c : FSM) (hab : a.kept_by b) (hbc : b.kept_by c) : a.kept_by c := by
  intro i st h
  obtain ⟨st1, h1, hk1, ha1⟩ := hab i st h
  obtain ⟨st2, h2, hk2, ha2⟩ := hbc i st1 h1
  exact ⟨st2, h2, hk2.trans hk1, fun t ht => ha2 t (ha1 t ht)⟩

/-- Adding an action to all states keeps the states. -/
theorem add_action_to_all_states_keeps (fsm : FSM) (action : FsmAction) (priority : Nat)
    (excluded : List StateKind) (next : Option Nat) :
    fsm.kept_by (fsm.add_action_to_all_states action priority excluded next) := by
  intro i st h
  simp only [FSM.add_action_to_all_states, List.getElem?_map, h, Option.map_some']
  by_cases hex : st.d_kind ∈ excluded
  · exact ⟨st, by simp [hex], rfl, fun t ht => ht⟩
  · exact ⟨st.add_action action priority next, by simp [hex], rfl,
      fun t ht => by simp [State.add_action, ht]⟩

/-- Adding an action to one state keeps the states, and the state has the action. -/
theorem add_action_keeps (fsm : FSM) (state : Nat) (action : FsmAction) (priority : Nat)
    (next : Option Nat) :
    fsm.kept_by (fsm.add_action state action priority next)
    ∧ ∀ st, fsm.d_states[state]? = some st →
        ∃ st1, (fsm.add_action state action priority next).d_states[state]? = some st1
          ∧ st1.d_kind = st.d_kind ∧ ⟨action, priority, next⟩ ∈ st1.d_actions
          ∧ ∀ t ∈ st.d_actions, t ∈ st1.d_actions := by
  constructor
  · intro i st h
    unfold FSM.add_action
    cases hs : fsm.d_states[state]? with
    | none => exact ⟨st, h, rfl, fun t ht => ht⟩
    | some target =>
      by_cases hi : state = i
      · subst hi
        have heq : target = st := by
          rw [hs] at h
          exact Option.some.inj h
        have hlt : state < fsm.d_states.length := by
          by_contra hge
          rw [List.getElem?_eq_none (by omega)] at hs
          cases hs
        exact ⟨st.add_action action priority next,
          by simp [heq, List.getElem?_set_self hlt], rfl,
          fun t ht => by simp [State.add_action, ht]⟩
      · exact ⟨st, by simp [List.getElem?_set_ne hi, h], rfl, fun t ht => ht⟩
  · intro st hs
    have hlt : state < fsm.d_states.length := by
      by_contra hge
      rw [List.getElem?_eq_none (by omega)] at hs
      cases hs
    exact ⟨st.add_action action priority next,
      by simp [FSM.add_action, hs, List.getElem?_set_self hlt], rfl,
      by simp [State.add_action], fun t ht => by simp [State.add_action, ht]⟩

/-- Creating a state keeps the states, and the new state is the last one. -/
theorem new_state_keeps (fsm : FSM) (kind : StateKind) :
    fsm.kept_by (fsm.new_state kind).2
    ∧ (fsm.new_state kind).2.d_states[(fsm.new_state kind).1]? = some { d_kind := kind } := by
  constructor
  · intro i st h
    have hlt : i < fsm.d_states.length := by
      by_contra hge
      rw [List.getElem?_eq_none (by omega)] at h
      cases h
    exact ⟨st, by simp [FSM.new_state, List.getElem?_append_left hlt, h], rfl,
      fun t ht => ht⟩
  · simp [FSM.new_state]

/-- The state that `get_state` returns is a state of the machine and has the kind asked for. -/
theorem get_state_spec (fsm : FSM) (kind : StateKind) (i : Nat)
    (h : fsm.get_state kind = some i) :
    ∃ st, fsm.d_states[i]? = some st ∧ st.d_kind = kind := by
  unfold FSM.get_state at h
  split at h
  · rename_i hlt
    simp only [Option.some.injEq] at h
    subst h
    have hmem : kind ∈ fsm.d_states.map State.d_kind := by
      rw [← List.indexOf_lt_length]
      simpa using hlt
    have hget := List.getElem?_indexOf hmem
    rw [List.getElem?_map] at hget
    cases hs : fsm.d_states[List.indexOf kind (fsm.d_states.map State.d_kind)]? with
    | none => simp [hs] at hget
    | some st =>
      rw [hs] at hget
      exact ⟨st, rfl, by simpa using hget⟩
  · cases h

/-- C14. The state that the backend adds to the machine can always be left.
The state that `configure_fsm` creates has the kind
`bzla-fix-reset-assumptions` and owns the default transition with weight 1
into the state that `get_state(State::ASSERT)` has returned, next to its two
actions with weight 5 each; that target is still the ASSERT state of the
configured machine. The default transition is enabled in every state of the
manager and changes nothing, while with `d_incremental` off the two actions
of the state are both disabled. -/
theorem fix_reset_state_has_escape (be : Backend) (ASSERT OPT : StateKind) (fsm : FSM)
    (i : Nat) (smgr : SolverManager) (draw : Nat) (drawn : String)
    (hassert : fsm.get_state ASSERT = some i) :
    (∃ st, (BzlaSolver.configure_fsm ASSERT OPT fsm).d_states[fsm.d_states.length]? = some st
      ∧ st.d_kind = BzlaSolver.STATE_FIX_RESET_ASSUMPTIONS
      ∧ ⟨FsmAction.TransitionDefault, 1, some i⟩ ∈ st.d_actions
      ∧ ⟨FsmAction.bzla .fixate_assumptions, 5, none⟩ ∈ st.d_actions
      ∧ ⟨FsmAction.bzla .reset_assumptions, 5, none⟩ ∈ st.d_actions)
    ∧ (∃ target, (BzlaSolver.configure_fsm ASSERT OPT fsm).d_states[i]? = some target
      ∧ target.d_kind = ASSERT)
    ∧ FsmAction.run be smgr draw drawn .TransitionDefault = (.ok true, smgr)
    ∧ (smgr.d_solver.is_initialized = true → smgr.d_incremental = false →
        FsmAction.run be smgr draw drawn (.bzla .fixate_assumptions) = (.ok false, smgr)
        ∧ FsmAction.run be smgr draw drawn (.bzla .reset_assumptions) = (.ok false, smgr)) := by
  have k0 := new_state_keeps fsm BzlaSolver.STATE_FIX_RESET_ASSUMPTIONS
  have k1 := add_action_to_all_states_keeps (fsm.new_state
    BzlaSolver.STATE_FIX_RESET_ASSUMPTIONS).2 (FsmAction.bzla .is_unsat_assumption) 100 [] none
  generalize hf1 : (fsm.new_state BzlaSolver.STATE_FIX_RESET_ASSUMPTIONS).2.add_action_to_all_states
    (FsmAction.bzla .is_unsat_assumption) 100 [] none = fsm1 at k1
  have k2 := add_action_keeps fsm1 fsm.d_states.length (FsmAction.bzla .fixate_assumptions) 5 none
  generalize hf2 : fsm1.add_action fsm.d_states.length
    (FsmAction.bzla .fixate_assumptions) 5 none = fsm2 at k2
  have k3 := add_action_keeps fsm2 fsm.d_states.length (FsmAction.bzla .reset_assumptions) 5 none
  generalize hf3 : fsm2.add_action fsm.d_states.length
    (FsmAction.bzla .reset_assumptions) 5 none = fsm3 at k3
  have k4 := add_action_keeps fsm3 fsm.d_states.length FsmAction.TransitionDefault 1 (some i)
  generalize hf4 : fsm3.add_action fsm.d_states.length
    FsmAction.TransitionDefault 1 (some i) = fsm4 at k4
  have k5 := add_action_to_all_states_keeps fsm4 FsmAction.TransitionDefault 2 [OPT]
    (some fsm.d_states.length)
  generalize hf5 : fsm4.add_action_to_all_states FsmAction.TransitionDefault 2 [OPT]
    (some fsm.d_states.length) = fsm5 at k5
  have k6 := add_action_to_all_states_keeps fsm5 (FsmAction.bzla .simplify) 100 [] none
  generalize hf6 : fsm5.add_action_to_all_states (FsmAction.bzla .simplify) 100 [] none
    = fsm6 at k6
  have k7 := add_action_to_all_states_keeps fsm6 (FsmAction.bzla .term_set_symbol) 100 [] none
  have hcfg : BzlaSolver.configure_fsm ASSERT OPT fsm
      = fsm6.add_action_to_all_states (FsmAction.bzla .term_set_symbol) 100 [] none := by
    simp only [BzlaSolver.configure_fsm, hassert, FSM.add_action_to_all_states_next]
    rw [show (fsm.new_state BzlaSolver.STATE_FIX_RESET_ASSUMPTIONS).1 = fsm.d_states.length
      from rfl, hf1, hf2, hf3, hf4, hf5, hf6]
  rw [hcfg]
  have k47 := kept_by_trans _ _ _ (kept_by_trans _ _ _ k5 k6) k7
  refine ⟨?_, ?_, rfl, ?_⟩
  · obtain ⟨st1, h1, hk1, -⟩ := k1 _ _ k0.2
    obtain ⟨st2, h2, hk2, hfix2, -⟩ := k2.2 st1 h1
    obtain ⟨st3, h3, hk3, hreset3, hkeep3⟩ := k3.2 st2 h2
    obtain ⟨st4, h4, hk4, hdef4, hkeep4⟩ := k4.2 st3 h3
    obtain ⟨st7, h7, hk7, hkeep7⟩ := k47 _ _ h4
    refine ⟨st7, h7, ?_, hkeep7 _ hdef4, hkeep7 _ (hkeep4 _ (hkeep3 _ hfix2)),
      hkeep7 _ (hkeep4 _ hreset3)⟩
    rw [hk7, hk4, hk3, hk2, hk1]
  · obtain ⟨stA, hA, hkA⟩ := get_state_spec fsm ASSERT i hassert
    have kall := kept_by_trans _ _ _ (kept_by_trans _ _ _ (kept_by_trans _ _ _
      (kept_by_trans _ _ _ (kept_by_trans _ _ _ k0.1 k1) k2.1) k3.1) k4.1) k47
    obtain ⟨target, ht, hkt, -⟩ := kall i stA hA
    exact ⟨target, ht, hkt.trans hkA⟩
  · intro hinit hinc
    constructor
    · simp [FsmAction.run, BzlaAction.run, BzlaActionFixateAssumptions.run, hinit, hinc]
    · simp [FsmAction.run, BzlaAction.run, BzlaActionResetAssumptions.run, hinit, hinc]

/-- C11, at an input: after an UNSAT result with the term `9` assumed, the
line `bzla-is-unsat-assumption 3` replays what `run` has done. -/
theorem untrace_replays_run_witness :
    ∃ replayed, BzlaAction.untrace exampleBackend exampleUtil exampleUnsatManager ["3"]
        .is_unsat_assumption = (.ok 0, replayed)
      ∧ replayed.d_solver
        = (BzlaAction.run exampleBackend exampleUnsatManager 0 "" .is_unsat_assumption).2.d_solver
      ∧ ∃ line call,
        (BzlaAction.run exampleBackend exampleUnsatManager 0 "" .is_unsat_assumption).2.d_solver.log
          = exampleUnsatManager.d_solver.log ++ [Event.trace line, Event.api call] :=
  untrace_replays_run exampleBackend exampleUtil exampleUnsatManager 0 "" ["3"]
    .is_unsat_assumption
    (BzlaAction.run exampleBackend exampleUnsatManager 0 "" .is_unsat_assumption).2
    (by decide) ⟨"3", 3, rfl, by decide, by decide⟩

/-- C12, at an input: after an UNSAT result with the term `9` assumed and
incremental solving on, the action runs and asks the backend about the term `9`. -/
theorem is_unsat_assumption_run_iff_witness :
    (BzlaActionIsUnsatAssumption.run exampleBackend exampleUnsatManager 0).1 = .ok true
    ∧ (BzlaActionIsUnsatAssumption.run exampleBackend exampleUnsatManager 0).2.d_solver.log
      = [Event.trace "bzla-is-unsat-assumption t0", Event.api (.is_unsat_assumption 1 9)] :=
  ⟨(is_unsat_assumption_run_iff exampleBackend exampleUnsatManager 0 rfl (by decide)).1.mpr
      (by decide),
    by decide⟩

/-- C14, at an input: in a machine whose third state is the ASSERT state, the
state that `configure_fsm` adds at position 3 has its default transition into
position 2. -/
theorem fix_reset_state_has_escape_witness :
    ∃ st, (BzlaSolver.configure_fsm "assert" "opt" exampleFSM).d_states[3]? = some st
      ∧ st.d_kind = BzlaSolver.STATE_FIX_RESET_ASSUMPTIONS
      ∧ ⟨FsmAction.TransitionDefault, 1, some 2⟩ ∈ st.d_actions
      ∧ ⟨FsmAction.bzla .fixate_assumptions, 5, none⟩ ∈ st.d_actions
      ∧ ⟨FsmAction.bzla .reset_assumptions, 5, none⟩ ∈ st.d_actions :=
  (fix_reset_state_has_escape exampleBackend "assert" "opt" exampleFSM 2 exampleManager 0 ""
    (by decide)).1

/-- C17, at an input: a function sort over the sorts `5`, `6` and `7` has the
domain `5, 6` and the codomain `7`; an array sort over `5` and `6` has the
index sort `5` and the element sort `6`. -/
theorem mk_sort_child_layout_witness :
    (BzlaSolver.mk_sort_kind_sorts exampleBackend {} .SORT_ARRAY
        [BzlaSort.wrap 1 5, BzlaSort.wrap 1 6]).2.log
      = [] ++ [Event.api (.mk_array_sort 0 5 6)]
    ∧ (∃ domain codomain,
        (BzlaSolver.mk_sort_kind_sorts exampleBackend {} .SORT_FUN
            [BzlaSort.wrap 1 5, BzlaSort.wrap 1 6, BzlaSort.wrap 1 7]).2.log
          = [] ++ [Event.api (.mk_fun_sort 0 domain.length domain codomain)]
        ∧ List.Forall₂ (fun sort p => get_bzla_sort sort = .ok p)
            [BzlaSort.wrap 1 5, BzlaSort.wrap 1 6, BzlaSort.wrap 1 7] (domain ++ [codomain])
        ∧ domain.length = 3 - 1)
    ∧ (BzlaSolver.mk_sort_kind_sorts exampleBackend {} .SORT_FUN
        [BzlaSort.wrap 1 5, BzlaSort.wrap 1 6, BzlaSort.wrap 1 7]).2.log
      = [Event.api (.mk_fun_sort 0 2 [5, 6] 7)] :=
  ⟨(mk_sort_child_layout exampleBackend {} [BzlaSort.wrap 1 5, BzlaSort.wrap 1 6]).1
      _ _ _ 5 6 rfl rfl rfl,
    (mk_sort_child_layout exampleBackend {}
      [BzlaSort.wrap 1 5, BzlaSort.wrap 1 6, BzlaSort.wrap 1 7]).2 (by decide)
      (by intro x hx; simp at hx; rcases hx with rfl | rfl | rfl <;> rfl),
    by decide⟩

/-- A kind with an entry in `d_op_kinds` does not make `mk_term` fail with a
configuration error. -/
theorem mk_term_not_config_of_lookup (be : Backend) (s : BzlaSolver) (kind : OpKind)
    (args : List Term) (params : List Nat) (h : (s.d_op_kinds.lookup kind).isSome = true) :
    fails_config (s.mk_term be kind args params).1 = false := by
  obtain ⟨bzla_kind, hk⟩ := Option.isSome_iff_exists.mp h
  unfold BzlaSolver.mk_term
  simp only [hk]
  split
  · rename_i e he
    rw [terms_to_bzla_terms_error _ _ he]
    simp [fails_config]
  · simp [(wrap_term_frame _ _).1]

/-- A key of a list of entries is found by `lookup`. -/
theorem lookup_isSome_of_mem_keys (table : List (OpKind × BitwuzlaKind)) (kind : OpKind)
    (h : kind ∈ table.map Prod.fst) : (table.lookup kind).isSome = true := by
  induction table with
  | nil => simp at h
  | cons entry table ih =>
    obtain ⟨k, v⟩ := entry
    by_cases hk : kind = k
    · subst hk
      simp [List.lookup]
    · have hne : (kind == k) = false := by simpa using hk
      simp only [List.map_cons, List.mem_cons] at h
      rcases h with h | h
      · exact absurd h hk
      · simp only [List.lookup, hne]
        exact ih h

/-- C21. Every operator kind that `configure_smgr` registers is a key of the
table that `init_op_kinds` builds, whatever the strings of the standard
operator kinds are, so `mk_term` on a solver with that table does not fail
with "operator kind not configured" for it, whatever the arguments. Each of
the twelve registrations has arity 1 or 2, no index parameter, the result sort
kind `SORT_BV`, the argument sort kind `SORT_BV` and the theory `THEORY_BV`. -/
theorem registered_op_kinds_are_mapped (be : Backend) (Op : StdOp → OpKind) (s : BzlaSolver)
    (args : List Term) (params : List Nat) (r : AddOpKind)
    (hr : r ∈ BzlaSolver.configure_smgr) :
    r.kind ∈ (init_op_kinds_table Op).map Prod.fst
    ∧ ((s.init_op_kinds Op).d_op_kinds.lookup r.kind).isSome = true
    ∧ fails_config ((s.init_op_kinds Op).mk_term be r.kind args params).1 = false
    ∧ (r.arity = 1 ∨ r.arity = 2)
    ∧ r.nparams = 0
    ∧ r.sort_kind = SortKind.SORT_BV
    ∧ r.sort_kind_args = [SortKind.SORT_BV]
    ∧ r.theory = TheoryId.THEORY_BV
    ∧ BzlaSolver.configure_smgr.length = 12 := by
  have hkey : r.kind ∈ (init_op_kinds_table Op).map Prod.fst := by
    simp only [BzlaSolver.configure_smgr, List.mem_cons, List.mem_singleton,
      List.not_mem_nil, or_false] at hr
    rcases hr with h | h | h | h | h | h | h | h | h | h | h | h <;> subst h <;>
      simp [init_op_kinds_table]
  have hsome : ((s.init_op_kinds Op).d_op_kinds.lookup r.kind).isSome = true :=
    lookup_isSome_of_mem_keys _ _ (by simpa [BzlaSolver.init_op_kinds] using hkey)
  refine ⟨hkey, hsome, mk_term_not_config_of_lookup be _ _ args params hsome, ?_⟩
  simp only [BzlaSolver.configure_smgr, List.mem_cons, List.mem_singleton,
    List.not_mem_nil, or_false] at hr
  rcases hr with h | h | h | h | h | h | h | h | h | h | h | h <;> subst h <;>
    simp [BzlaSolver.configure_smgr]

/-- C21, at an input: the registration of `bzla-OP_BV_UADDO` has arity 2 and
its kind is mapped in a fresh solver after `init_op_kinds`. -/
theorem registered_op_kinds_are_mapped_witness :
    ((BzlaSolver.init_op_kinds exampleOp {}).d_op_kinds.lookup
        BzlaSolver.OP_BV_UADDO).isSome = true
    ∧ fails_config ((BzlaSolver.init_op_kinds exampleOp {}).mk_term exampleBackend
        BzlaSolver.OP_BV_UADDO [BzlaTerm.wrap 1, BzlaTerm.wrap 2] []).1 = false :=
  ⟨(registered_op_kinds_are_mapped exampleBackend exampleOp {} [] []
      ⟨BzlaSolver.OP_BV_UADDO, 2, 0, .SORT_BV, [.SORT_BV], .THEORY_BV⟩ (by decide)).2.1,
    (registered_op_kinds_are_mapped exampleBackend exampleOp {}
      [BzlaTerm.wrap 1, BzlaTerm.wrap 2] []
      ⟨BzlaSolver.OP_BV_UADDO, 2, 0, .SORT_BV, [.SORT_BV], .THEORY_BV⟩ (by decide)).2.2.1⟩

/-- A pick from a non-empty term database yields one of its members. -/
theorem pick_term_mem (smgr : SolverManager) (draw : Nat) (hne : smgr.d_term_db ≠ []) :
    ∃ term, term ∈ smgr.d_term_db ∧ smgr.pick_term draw = .ok term := by
  have hlen : 0 < smgr.d_term_db.length := List.length_pos.mpr hne
  have hlt : draw % smgr.d_term_db.length < smgr.d_term_db.length := Nat.mod_lt _ hlen
  refine ⟨smgr.d_term_db[draw % smgr.d_term_db.length], List.getElem_mem _, ?_⟩
  simp [SolverManager.pick_term, List.getElem?_eq_getElem hlt]

/-- C22. On an initialized solver the value that `run` returns is the gate of
the action: `bzla-fixate-assumptions` and `bzla-reset-assumptions` return
whether incremental solving is on, `bzla-simplify` returns true (the handle is
not null, so its branch for a null handle is not taken), and
`bzla-term-set-symbol` returns whether the term database has a term, the terms
of the database being Bitwuzla terms. On a solver that is not initialized
every one of the four fails its assertion. -/
theorem run_returns_its_gate (be : Backend) (smgr : SolverManager) (draw : Nat)
    (drawn : String) :
    (smgr.d_solver.is_initialized = true →
      (BzlaActionFixateAssumptions.run be smgr).1 = .ok smgr.d_incremental
      ∧ (BzlaActionResetAssumptions.run be smgr).1 = .ok smgr.d_incremental
      ∧ (BzlaActionSimplify.run be smgr).1 = .ok true
      ∧ smgr.d_solver.d_solver ≠ 0
      ∧ ((∀ term ∈ smgr.d_term_db, (dynamic_cast_BzlaTerm term).isSome = true) →
          (BzlaActionTermSetSymbol.run be smgr draw drawn).1 = .ok smgr.has_term))
    ∧ (smgr.d_solver.is_initialized = false →
      BzlaActionFixateAssumptions.run be smgr = (.error .assertion, smgr)
      ∧ BzlaActionResetAssumptions.run be smgr = (.error .assertion, smgr)
      ∧ BzlaActionSimplify.run be smgr = (.error .assertion, smgr)
      ∧ BzlaActionTermSetSymbol.run be smgr draw drawn = (.error .assertion, smgr)) := by
  constructor
  · intro hinit
    have h0 : smgr.d_solver.d_solver ≠ 0 := by
      simpa [BzlaSolver.is_initialized] using hinit
    refine ⟨?_, ?_, ?_, h0, ?_⟩
    · cases hinc : smgr.d_incremental <;>
        simp [BzlaActionFixateAssumptions.run, BzlaActionFixateAssumptions._run, hinit, hinc,
          then_return]
    · cases hinc : smgr.d_incremental <;>
        simp [BzlaActionResetAssumptions.run, BzlaActionResetAssumptions._run, hinit, hinc,
          then_return]
    · simp [BzlaActionSimplify.run, BzlaActionSimplify._run, hinit, h0, then_return]
    · intro hall
      cases hdb : smgr.d_term_db with
      | nil =>
        simp [BzlaActionTermSetSymbol.run, hinit, SolverManager.has_term, hdb]
      | cons t ts =>
        have hne : smgr.d_term_db ≠ [] := by simp [hdb]
        obtain ⟨term, hmem, hpick⟩ := pick_term_mem smgr draw hne
        obtain ⟨p, hp⟩ := get_bzla_term_ok term (hall term hmem)
        have hhas : smgr.has_term = true := by simp [SolverManager.has_term, hdb]
        simp [BzlaActionTermSetSymbol.run, hinit, hhas, hpick, BzlaActionTermSetSymbol._run,
          hp, then_return]
  · intro hinit
    simp [BzlaActionFixateAssumptions.run, BzlaActionResetAssumptions.run,
      BzlaActionSimplify.run, BzlaActionTermSetSymbol.run, hinit]

/-- C22, at an input: on an initialized solver with incremental solving on
and one term in the database, the four actions return true. -/
theorem run_returns_its_gate_witness :
    (BzlaActionFixateAssumptions.run exampleBackend exampleUnsatManager).1 = .ok true
    ∧ (BzlaActionSimplify.run exampleBackend exampleUnsatManager).1 = .ok true
    ∧ (BzlaActionTermSetSymbol.run exampleBackend exampleUnsatManager 0 "x").1 = .ok true :=
  ⟨((run_returns_its_gate exampleBackend exampleUnsatManager 0 "x").1 rfl).1,
    ((run_returns_its_gate exampleBackend exampleUnsatManager 0 "x").1 rfl).2.2.1,
    ((run_returns_its_gate exampleBackend exampleUnsatManager 0 "x").1 rfl).2.2.2.2
      (by decide)⟩

/-- With picks that draw the given values, `run` with the generator as part of
the state has the outcome of `run` with these values as its random choices. -/
theorem run_rng_outcome (be : Backend) (smgr : SolverManager) (rng : RNGenerator) (draw : Nat)
    (drawn : String) (a : BzlaAction) :
    (a.run_rng be (Picks.drawing draw drawn) smgr rng).1 = a.run be smgr draw drawn := by
  cases a
  · simp only [BzlaAction.run_rng, BzlaActionIsUnsatAssumption.run_rng, BzlaAction.run,
      BzlaActionIsUnsatAssumption.run, Picks.drawing]
    repeat' split
    all_goals simp_all
  · simp only [BzlaAction.run_rng, BzlaActionFixateAssumptions.run_rng, BzlaAction.run,
      BzlaActionFixateAssumptions.run]
    repeat' split
    all_goals rfl
  · simp only [BzlaAction.run_rng, BzlaActionResetAssumptions.run_rng, BzlaAction.run,
      BzlaActionResetAssumptions.run]
    repeat' split
    all_goals rfl
  · simp only [BzlaAction.run_rng, BzlaActionSimplify.run_rng, BzlaAction.run,
      BzlaActionSimplify.run]
    repeat' split
    all_goals rfl
  · simp only [BzlaAction.run_rng, BzlaActionTermSetSymbol.run_rng, BzlaAction.run,
      BzlaActionTermSetSymbol.run, Picks.drawing]
    repeat' split
    all_goals simp_all

/-- When `run` returns false, a gate of the action is closed: `run` returns
false before its first pick, whatever the picks and the generator are. -/
theorem run_rng_false (be : Backend) (picks : Picks) (smgr : SolverManager) (rng : RNGenerator)
    (a : BzlaAction) (h : (a.run_rng be picks smgr rng).1.1 = .ok false)
    (picks2 : Picks) (rng2 : RNGenerator) :
    a.run_rng be picks2 smgr rng2 = ((.ok false, smgr), rng2) := by
  have hret : ∀ o : ActionOutcome Unit, (then_return o true).1 ≠ .ok false :=
    fun o ho => absurd ((then_return_spec o true).2.2 false ho) (by decide)
  cases a
  · simp only [BzlaAction.run_rng, BzlaActionIsUnsatAssumption.run_rng] at h ⊢
    repeat' split at h
    all_goals first
      | exact absurd h (hret _)
      | (exfalso; revert h; simp; done)
      | simp [*]
  · simp only [BzlaAction.run_rng, BzlaActionFixateAssumptions.run_rng] at h ⊢
    repeat' split at h
    all_goals first
      | exact absurd h (hret _)
      | (exfalso; revert h; simp; done)
      | simp [*]
  · simp only [BzlaAction.run_rng, BzlaActionResetAssumptions.run_rng] at h ⊢
    repeat' split at h
    all_goals first
      | exact absurd h (hret _)
      | (exfalso; revert h; simp; done)
      | simp [*]
  · simp only [BzlaAction.run_rng, BzlaActionSimplify.run_rng] at h ⊢
    repeat' split at h
    all_goals first
      | exact absurd h (hret _)
      | (exfalso; revert h; simp; done)
      | simp [*]
  · simp only [BzlaAction.run_rng, BzlaActionTermSetSymbol.run_rng] at h ⊢
    repeat' split at h
    all_goals first
      | exact absurd h (hret _)
      | (exfalso; revert h; simp; done)
      | simp [*]

/-- C23. A disabled action has no effect. Here `run` carries the state of the
random number generator `d_rng`, and the picks of the solver manager are
arbitrary functions that may step it. Whenever `run` of a Bitwuzla-specific
action returns false, the solver manager and the solver it owns are as they
were, so no line has been written to the trace and no backend call has been
made, and the generator is in the state it was in, so no random choice has
been consumed; indeed `run` then returns false in the same way for every other
choice of the picks and every state of the generator. The same holds of `run`
with the random choices as arguments. -/
theorem disabled_action_has_no_effect (be : Backend) (smgr : SolverManager) (a : BzlaAction) :
    (∀ (picks : Picks) (rng : RNGenerator),
      (a.run_rng be picks smgr rng).1.1 = .ok false →
        (a.run_rng be picks smgr rng).1.2 = smgr
        ∧ traceLines (a.run_rng be picks smgr rng).1.2.d_solver.log
            = traceLines smgr.d_solver.log
        ∧ apiCalls (a.run_rng be picks smgr rng).1.2.d_solver.log = apiCalls smgr.d_solver.log
        ∧ (a.run_rng be picks smgr rng).2 = rng
        ∧ (∀ (picks2 : Picks) (rng2 : RNGenerator),
            a.run_rng be picks2 smgr rng2 = ((.ok false, smgr), rng2))
        ∧ (∀ (draw : Nat) (drawn : String), a.run be smgr draw drawn = (.ok false, smgr)))
    ∧ (∀ (draw : Nat) (drawn : String),
      (a.run be smgr draw drawn).1 = .ok false →
        (a.run be smgr draw drawn).2 = smgr
        ∧ traceLines (a.run be smgr draw drawn).2.d_solver.log = traceLines smgr.d_solver.log
        ∧ apiCalls (a.run be smgr draw drawn).2.d_solver.log = apiCalls smgr.d_solver.log
        ∧ (∀ (draw2 : Nat) (drawn2 : String), a.run be smgr draw2 drawn2 = (.ok false, smgr))
        ∧ (∀ (picks : Picks) (rng : RNGenerator),
            a.run_rng be picks smgr rng = ((.ok false, smgr), rng))) := by
  have hrun : ∀ (picks : Picks) (rng : RNGenerator),
      (a.run_rng be picks smgr rng).1.1 = .ok false →
      ∀ (draw : Nat) (drawn : String), a.run be smgr draw drawn = (.ok false, smgr) := by
    intro picks rng h draw drawn
    rw [← run_rng_outcome be smgr rng draw drawn a,
      run_rng_false be picks smgr rng a h (Picks.drawing draw drawn) rng]
  constructor
  · intro picks rng h
    have hall := run_rng_false be picks smgr rng a h
    rw [hall picks rng]
    exact ⟨rfl, rfl, rfl, rfl, hall, hrun picks rng h⟩
  · intro draw drawn h
    have h2 : (a.run_rng be (Picks.drawing draw drawn) smgr { state := 0 }).1.1 = .ok false := by
      rw [run_rng_outcome]
      exact h
    have hall := run_rng_false be _ smgr _ a h2
    rw [hrun _ _ h2 draw drawn]
    exact ⟨rfl, rfl, rfl, hrun _ _ h2, hall⟩

/-- C23, at an input: before any check `bzla-is-unsat-assumption` returns
false and leaves the manager and the generator as they were, although its pick
would step the generator. -/
theorem disabled_action_has_no_effect_witness :
    (BzlaAction.run_rng exampleBackend (Picks.drawing 0 "x") exampleManager { state := 5 }
        .is_unsat_assumption).1.2 = exampleManager
    ∧ (BzlaAction.run_rng exampleBackend (Picks.drawing 0 "x") exampleManager { state := 5 }
        .is_unsat_assumption).2 = { state := 5 } :=
  ⟨((disabled_action_has_no_effect exampleBackend exampleManager .is_unsat_assumption).1
      (Picks.drawing 0 "x") { state := 5 } rfl).1,
    ((disabled_action_has_no_effect exampleBackend exampleManager .is_unsat_assumption).1
      (Picks.drawing 0 "x") { state := 5 } rfl).2.2.2.1⟩

/-- The calls of a log that ends with backend calls. -/
theorem apiCalls_append_api (old : List Event) (calls : List BzlaCall) :
    apiCalls (old ++ calls.map Event.api) = apiCalls old ++ calls := by
  have hcalls : apiCalls (calls.map Event.api) = calls := by
    induction calls with
    | nil => rfl
    | cons c cs ih =>
      simp only [apiCalls, List.map_cons, List.filterMap_cons] at ih ⊢
      rw [ih]
  simp only [apiCalls, List.filterMap_append] at hcalls ⊢
  rw [hcalls]

/-- What the loop of `check_sat_assuming` does with Bitwuzla terms: one
`bitwuzla_assume` for each, in order. -/
theorem assume_each_effect (be : Backend) (s : BzlaSolver) (assumptions : List Term)
    (ptrs : List Ptr) (h : terms_to_bzla_terms assumptions = .ok ptrs) :
    s.assume_each be assumptions
      = (.ok (), { s with log := s.log
          ++ (ptrs.map (fun p => BzlaCall.assume s.d_solver p)).map Event.api }) := by
  induction assumptions generalizing s ptrs with
  | nil =>
    simp only [terms_to_bzla_terms, Except.ok.injEq] at h
    subst h
    simp [BzlaSolver.assume_each]
  | cons t ts ih =>
    unfold terms_to_bzla_terms at h
    split at h
    · exact absurd h (by simp)
    · rename_i p hp
      split at h
      · exact absurd h (by simp)
      · rename_i ps hps
        simp only [Except.ok.injEq] at h
        subst h
        simp only [BzlaSolver.assume_each, hp]
        rw [ih _ ps hps]
        simp [BzlaSolver.call]

/-- C24. `check_sat_assuming` on assumptions that are Bitwuzla terms passes
the handle of each assumption to `bitwuzla_assume` once, in the given order,
and then issues one `bitwuzla_check_sat`; no other call is made. The verdict
of that check is mapped as in `check_sat`: `BITWUZLA_SAT` to `SAT`,
`BITWUZLA_UNSAT` to `UNSAT`, `BITWUZLA_UNKNOWN` to `UNKNOWN`, and the outcome
is that of `check_sat` on the solver after the assumptions. With no assumption
the outcome, backend calls included, is that of `check_sat`. -/
theorem check_sat_assuming_assumes_then_checks (be : Backend) (s : BzlaSolver)
    (assumptions : List Term) (ptrs : List Ptr)
    (h : terms_to_bzla_terms assumptions = .ok ptrs) :
    List.Forall₂ (fun t p => get_bzla_term t = .ok p) assumptions ptrs
    ∧ apiCalls (s.check_sat_assuming be assumptions).2.log
        = apiCalls s.log ++ ptrs.map (fun p => BzlaCall.assume s.d_solver p)
          ++ [BzlaCall.check_sat s.d_solver]
    ∧ traceLines (s.check_sat_assuming be assumptions).2.log = traceLines s.log
    ∧ (∀ verdict, be.ret (apiCalls s.log ++ ptrs.map (fun p => BzlaCall.assume s.d_solver p))
          (BzlaCall.check_sat s.d_solver) = verdict →
        (verdict = BITWUZLA_SAT → (s.check_sat_assuming be assumptions).1 = .ok Result.SAT)
        ∧ (verdict = BITWUZLA_UNSAT →
            (s.check_sat_assuming be assumptions).1 = .ok Result.UNSAT)
        ∧ (verdict = BITWUZLA_UNKNOWN →
            (s.check_sat_assuming be assumptions).1 = .ok Result.UNKNOWN))
    ∧ (∀ verdict, be.ret (apiCalls s.log) (BzlaCall.check_sat s.d_solver) = verdict →
        (verdict = BITWUZLA_SAT → (s.check_sat be).1 = .ok Result.SAT)
        ∧ (verdict = BITWUZLA_UNSAT → (s.check_sat be).1 = .ok Result.UNSAT)
        ∧ (verdict = BITWUZLA_UNKNOWN → (s.check_sat be).1 = .ok Result.UNKNOWN))
    ∧ s.check_sat_assuming be assumptions = (s.assume_each be assumptions).2.check_sat be
    ∧ s.check_sat_assuming be [] = s.check_sat be
    ∧ apiCalls (s.check_sat be).2.log = apiCalls s.log ++ [BzlaCall.check_sat s.d_solver] := by
  have heach := assume_each_effect be s assumptions ptrs h
  have hcalls : ∀ (old : List Event) (c : BzlaCall),
      apiCalls (old ++ [Event.api c]) = apiCalls old ++ [c] := by
    intro old c
    simpa using apiCalls_append_api old [c]
  have hlines : ∀ (old : List Event) (calls : List BzlaCall),
      traceLines (old ++ calls.map Event.api) = traceLines old := by
    intro old calls
    induction calls using List.reverseRecOn with
    | nil => simp
    | append_singleton cs c ih =>
      rw [List.map_append, ← List.append_assoc]
      simp only [traceLines, List.filterMap_append] at ih ⊢
      rw [ih]
      simp
  refine ⟨terms_to_bzla_terms_forall₂ _ _ h, ?_, ?_, ?_, ?_, ?_, ?_, ?_⟩
  · simp only [BzlaSolver.check_sat_assuming, heach, BzlaSolver.call]
    repeat' split
    all_goals simp only [hcalls, apiCalls_append_api]
  · simp only [BzlaSolver.check_sat_assuming, heach, BzlaSolver.call]
    repeat' split
    all_goals
      have h1 := hlines (s.log ++ (ptrs.map (fun p => BzlaCall.assume s.d_solver p)).map
        Event.api) [BzlaCall.check_sat s.d_solver]
      rw [hlines s.log] at h1
      simpa using h1
  · intro verdict hv
    simp only [BzlaSolver.check_sat_assuming, heach, BzlaSolver.call, apiCalls_append_api, hv]
    refine ⟨?_, ?_, ?_⟩ <;> intro hval <;> subst hval <;>
      simp [BITWUZLA_SAT, BITWUZLA_UNSAT, BITWUZLA_UNKNOWN]
  · intro verdict hv
    simp only [BzlaSolver.check_sat, BzlaSolver.call, hv]
    refine ⟨?_, ?_, ?_⟩ <;> intro hval <;> subst hval <;>
      simp [BITWUZLA_SAT, BITWUZLA_UNSAT, BITWUZLA_UNKNOWN]
  · simp only [BzlaSolver.check_sat_assuming, heach, BzlaSolver.check_sat]
  · simp only [BzlaSolver.check_sat_assuming, BzlaSolver.assume_each, BzlaSolver.check_sat]
  · simp only [BzlaSolver.check_sat, BzlaSolver.call]
    repeat' split
    all_goals simp only [hcalls]

/-- C24, at an input: two assumptions are assumed in order before the one
check, whose verdict `BITWUZLA_UNSAT` is returned as `UNSAT`. -/
theorem check_sat_assuming_assumes_then_checks_witness :
    apiCalls (BzlaSolver.check_sat_assuming exampleStoringBackend { d_solver := 1 }
        [BzlaTerm.wrap 5, BzlaTerm.wrap 6]).2.log
      = [BzlaCall.assume 1 5, BzlaCall.assume 1 6, BzlaCall.check_sat 1]
    ∧ (BzlaSolver.check_sat_assuming exampleStoringBackend { d_solver := 1 }
        [BzlaTerm.wrap 5, BzlaTerm.wrap 6]).1 = .ok Result.UNSAT :=
  ⟨(check_sat_assuming_assumes_then_checks exampleStoringBackend { d_solver := 1 }
      [BzlaTerm.wrap 5, BzlaTerm.wrap 6] [5, 6] rfl).2.1,
    ((check_sat_assuming_assumes_then_checks exampleStoringBackend { d_solver := 1 }
      [BzlaTerm.wrap 5, BzlaTerm.wrap 6] [5, 6] rfl).2.2.2.1 BITWUZLA_UNSAT rfl).2.1 rfl⟩

/-- What `strtoull` and `std::stoul` see in a digit character below sixteen,
in lower or in upper case. -/
theorem digitChar_facts (d : Nat) (hd : d < 16) (upper : Bool) :
    digit_of (if upper then (Nat.digitChar d).toUpper else Nat.digitChar d) = some d
    ∧ isspace (if upper then (Nat.digitChar d).toUpper else Nat.digitChar d) = false
    ∧ (if upper then (Nat.digitChar d).toUpper else Nat.digitChar d) ≠ '-'
    ∧ (if upper then (Nat.digitChar d).toUpper else Nat.digitChar d) ≠ '+'
    ∧ (if upper then (Nat.digitChar d).toUpper else Nat.digitChar d) ≠ 'x'
    ∧ (if upper then (Nat.digitChar d).toUpper else Nat.digitChar d) ≠ 'X'
    ∧ (d < 10 → (Nat.digitChar d).isDigit = true ∧ (Nat.digitChar d).toNat - 48 = d
        ∧ Nat.digitChar d ≠ 't') := by
  interval_cases d <;> cases upper <;> decide

/-- The digits that `Nat.toDigitsCore` puts in front: there is one at least,
each is a digit of the base, and they denote the number. -/
theorem toDigitsCore_digits (b : Nat) (hb : 2 ≤ b) (fuel n : Nat) (ds : List Char)
    (hfuel : n < fuel) :
    ∃ pre, Nat.toDigitsCore b fuel n ds = pre ++ ds ∧ pre ≠ []
      ∧ (∀ c ∈ pre, ∃ d, d < b ∧ c = Nat.digitChar d)
      ∧ ∀ (f : Char → Char) (val : Char → Nat),
          (∀ d, d < b → val (f (Nat.digitChar d)) = d) →
          (pre.map f).foldl (fun acc c => b * acc + val c) 0 = n := by
  induction fuel generalizing n ds with
  | zero => omega
  | succ fuel ih =>
    have hlt : n % b < b := Nat.mod_lt _ (by omega)
    unfold Nat.toDigitsCore
    by_cases h0 : n / b = 0
    · refine ⟨[Nat.digitChar (n % b)], by simp [h0], by simp, ?_, ?_⟩
      · intro c hc
        exact ⟨n % b, hlt, by simpa using hc⟩
      · intro f val hval
        have hdm := Nat.div_add_mod n b
        simp only [List.map_cons, List.map_nil, List.foldl_cons, List.foldl_nil, hval _ hlt]
        rw [h0] at hdm
        omega
    · have hdiv : n / b < fuel := by
        have : n / b < n := Nat.div_lt_self (by
          rcases Nat.eq_zero_or_pos n with h | h
          · simp [h] at h0
          · exact h) (by omega)
        omega
      obtain ⟨pre, hpre, -, hdig, hfold⟩ := ih (n / b) (Nat.digitChar (n % b) :: ds) hdiv
      refine ⟨pre ++ [Nat.digitChar (n % b)], by simp [h0, hpre], by simp, ?_, ?_⟩
      · intro c hc
        simp only [List.mem_append, List.mem_singleton] at hc
        rcases hc with hc | hc
        · exact hdig c hc
        · exact ⟨n % b, hlt, hc⟩
      · intro f val hval
        have hdm := Nat.div_add_mod n b
        simp only [List.map_append, List.map_cons, List.map_nil, List.foldl_append,
          List.foldl_cons, List.foldl_nil, hfold f val hval, hval _ hlt]
        exact hdm

/-- The digits of a number in a base: there is one at least, each is a digit
of the base, and they denote the number. -/
theorem toDigits_digits (b : Nat) (hb : 2 ≤ b) (n : Nat) :
    Nat.toDigits b n ≠ []
    ∧ (∀ c ∈ Nat.toDigits b n, ∃ d, d < b ∧ c = Nat.digitChar d)
    ∧ ∀ (f : Char → Char) (val : Char → Nat),
        (∀ d, d < b → val (f (Nat.digitChar d)) = d) →
        ((Nat.toDigits b n).map f).foldl (fun acc c => b * acc + val c) 0 = n := by
  obtain ⟨pre, hpre, hne, hdig, hfold⟩ := toDigitsCore_digits b hb (n + 1) n []
    (Nat.lt_succ_self n)
  unfold Nat.toDigits
  rw [hpre, List.append_nil]
  exact ⟨hne, hdig, hfold⟩
/-- Without a sign in front, `strip_sign` strips nothing. -/
theorem strip_sign_of_no_sign (cs : List Char) (h : ∀ c ∈ cs, c ≠ '-' ∧ c ≠ '+') :
    strip_sign cs = (false, cs) := by
  unfold strip_sign
  split
  · exact absurd rfl (h '-' (List.mem_cons_self _ _)).1
  · exact absurd rfl (h '+' (List.mem_cons_self _ _)).2
  · rfl

/-- Without white space, `dropWhile isspace` drops nothing. -/
theorem dropWhile_isspace_of_no_space (cs : List Char) (h : ∀ c ∈ cs, isspace c = false) :
    cs.dropWhile isspace = cs := by
  cases cs with
  | nil => rfl
  | cons c cs => simp [List.dropWhile, h c (List.mem_cons_self _ _)]

/-- `std::stoul` reads the decimal numeral of a number below `2 ^ 64` as that
number, and that numeral is not the string `"true"`. -/
theorem stoul_toString (n : Nat) (hn : n < 2 ^ 64) :
    stoul (toString n) = .ok n ∧ toString n ≠ "true" := by
  obtain ⟨hne, hdig, hfold⟩ := toDigits_digits 10 (by decide) n
  have hdata : (toString n).toList = Nat.toDigits 10 n := rfl
  have hfacts : ∀ c ∈ Nat.toDigits 10 n, isspace c = false ∧ c ≠ '-' ∧ c ≠ '+'
      ∧ c.isDigit = true ∧ c ≠ 't' := by
    intro c hc
    obtain ⟨d, hd, rfl⟩ := hdig c hc
    have hf := digitChar_facts d (by omega) false
    simp only [Bool.false_eq_true, if_false] at hf
    exact ⟨hf.2.1, hf.2.2.1, hf.2.2.2.1, (hf.2.2.2.2.2.2 hd).1, (hf.2.2.2.2.2.2 hd).2.2⟩
  have hval := hfold id (fun c => c.toNat - 48) (fun d hd =>
    ((digitChar_facts d (by omega) false).2.2.2.2.2.2 hd).2.1)
  rw [List.map_id] at hval
  constructor
  · unfold stoul
    simp only [hdata]
    rw [dropWhile_isspace_of_no_space _ (fun c hc => (hfacts c hc).1),
      strip_sign_of_no_sign _ (fun c hc => ⟨(hfacts c hc).2.1, (hfacts c hc).2.2.1⟩)]
    have htake : (Nat.toDigits 10 n).takeWhile Char.isDigit = Nat.toDigits 10 n :=
      List.takeWhile_eq_self_iff.mpr (fun c hc => (hfacts c hc).2.2.2.1)
    simp only [htake, hval, hne, if_false]
    have : ¬ ULONG_MAX < n := by
      simp only [ULONG_MAX]
      omega
    simp [this]
  · intro h
    have ht : 't' ∈ (toString n).toList := by
      rw [h]
      decide
    rw [hdata] at ht
    exact (hfacts 't' ht).2.2.2.2 rfl
/-- What `set_opt` does with a forwarded option and a value that is `"true"`
or the decimal numeral of a number below `2 ^ 32`: it sets the option to the
number, reads it back and asserts that the two agree. -/
theorem set_opt_forwarded (be : Backend) (s : BzlaSolver) (opt value : String)
    (o : BitwuzlaOption) (val : Nat)
    (hopt : (opt = "produce-models" ∧ o = BitwuzlaOption.PRODUCE_MODELS)
      ∨ (opt = "incremental" ∧ o = BitwuzlaOption.INCREMENTAL))
    (hvalue : (value = "true" ∧ val = 1) ∨ (value = toString val ∧ val < 2 ^ 32)) :
    s.set_opt be opt value
      = (if val = be.ret (apiCalls s.log ++ [BzlaCall.set_option s.d_solver o val])
            (BzlaCall.get_option s.d_solver o) then .ok () else .error .assertion,
          { s with log := s.log ++ [Event.api (BzlaCall.set_option s.d_solver o val),
              Event.api (BzlaCall.get_option s.d_solver o)] }) := by
  have hparse : (if value = "true" then (.ok 1 : Except Error Nat) else stoul value) = .ok val
      ∧ val % 2 ^ 32 = val := by
    rcases hvalue with ⟨hv, h1⟩ | ⟨hv, hlt⟩
    · subst hv h1
      exact ⟨by simp, by decide⟩
    · have hs := stoul_toString val (by omega)
      rw [hv]
      exact ⟨by simp [hs.1, hs.2], Nat.mod_eq_of_lt hlt⟩
  have hlog : apiCalls (s.log ++ [Event.api (BzlaCall.set_option s.d_solver o val)])
      = apiCalls s.log ++ [BzlaCall.set_option s.d_solver o val] := by
    simpa using apiCalls_append_api s.log [BzlaCall.set_option s.d_solver o val]
  obtain ⟨hp1, hp2⟩ := hparse
  clear hvalue
  have hn1 : ¬ "produce-models" = "produce-unsat-assumptions" := by decide
  have hn2 : ¬ "incremental" = "produce-unsat-assumptions" := by decide
  have hn3 : ¬ "incremental" = "produce-models" := by decide
  rcases hopt with ⟨ho, hO⟩ | ⟨ho, hO⟩
  · subst ho hO
    simp only [BzlaSolver.set_opt, hp1, hp2, BzlaSolver.call, hlog, if_neg hn1, if_true]
    by_cases hret : val = be.ret
        (apiCalls s.log ++ [BzlaCall.set_option s.d_solver BitwuzlaOption.PRODUCE_MODELS val])
        (BzlaCall.get_option s.d_solver BitwuzlaOption.PRODUCE_MODELS)
    · rw [if_pos hret, if_pos hret, List.append_assoc]
      rfl
    · rw [if_neg hret, if_neg hret, List.append_assoc]
      rfl
  · subst ho hO
    simp only [BzlaSolver.set_opt, hp1, hp2, BzlaSolver.call, hlog, if_neg hn2, if_neg hn3,
      if_true]
    by_cases hret : val = be.ret
        (apiCalls s.log ++ [BzlaCall.set_option s.d_solver BitwuzlaOption.INCREMENTAL val])
        (BzlaCall.get_option s.d_solver BitwuzlaOption.INCREMENTAL)
    · rw [if_pos hret, if_pos hret, List.append_assoc]
      rfl
    · rw [if_neg hret, if_neg hret, List.append_assoc]
      rfl

/-- C25. For the two forwarded options `set_opt` sets the Bitwuzla option of
the name (`BITWUZLA_OPT_PRODUCE_MODELS` for `"produce-models"`,
`BITWUZLA_OPT_INCREMENTAL` for `"incremental"`) to 1 when the value string is
`"true"` and to `n` when it is the decimal numeral of a number `n` below
`2 ^ 32`, and then reads the option back; these are the only two backend
calls. With a backend that stores the value it is given, the assertion on the
value read back holds, so `set_opt` returns. -/
theorem set_opt_forwards_value (be : Backend) (s : BzlaSolver) (n : Nat) (hn : n < 2 ^ 32) :
    apiCalls (s.set_opt be "produce-models" "true").2.log
      = apiCalls s.log ++ [BzlaCall.set_option s.d_solver BitwuzlaOption.PRODUCE_MODELS 1,
          BzlaCall.get_option s.d_solver BitwuzlaOption.PRODUCE_MODELS]
    ∧ apiCalls (s.set_opt be "incremental" "true").2.log
      = apiCalls s.log ++ [BzlaCall.set_option s.d_solver BitwuzlaOption.INCREMENTAL 1,
          BzlaCall.get_option s.d_solver BitwuzlaOption.INCREMENTAL]
    ∧ apiCalls (s.set_opt be "produce-models" (toString n)).2.log
      = apiCalls s.log ++ [BzlaCall.set_option s.d_solver BitwuzlaOption.PRODUCE_MODELS n,
          BzlaCall.get_option s.d_solver BitwuzlaOption.PRODUCE_MODELS]
    ∧ apiCalls (s.set_opt be "incremental" (toString n)).2.log
      = apiCalls s.log ++ [BzlaCall.set_option s.d_solver BitwuzlaOption.INCREMENTAL n,
          BzlaCall.get_option s.d_solver BitwuzlaOption.INCREMENTAL]
    ∧ (be.stores_options →
        (s.set_opt be "produce-models" "true").1 = .ok ()
        ∧ (s.set_opt be "incremental" "true").1 = .ok ()
        ∧ (s.set_opt be "produce-models" (toString n)).1 = .ok ()
        ∧ (s.set_opt be "incremental" (toString n)).1 = .ok ()) := by
  have h1 := set_opt_forwarded be s "produce-models" "true" _ 1 (Or.inl ⟨rfl, rfl⟩)
    (Or.inl ⟨rfl, rfl⟩)
  have h2 := set_opt_forwarded be s "incremental" "true" _ 1 (Or.inr ⟨rfl, rfl⟩)
    (Or.inl ⟨rfl, rfl⟩)
  have h3 := set_opt_forwarded be s "produce-models" (toString n) _ n (Or.inl ⟨rfl, rfl⟩)
    (Or.inr ⟨rfl, hn⟩)
  have h4 := set_opt_forwarded be s "incremental" (toString n) _ n (Or.inr ⟨rfl, rfl⟩)
    (Or.inr ⟨rfl, hn⟩)
  have hcalls : ∀ c1 c2 : BzlaCall,
      apiCalls (s.log ++ [Event.api c1, Event.api c2]) = apiCalls s.log ++ [c1, c2] := by
    intro c1 c2
    simpa using apiCalls_append_api s.log [c1, c2]
  refine ⟨by rw [h1]; exact hcalls _ _, by rw [h2]; exact hcalls _ _,
    by rw [h3]; exact hcalls _ _, by rw [h4]; exact hcalls _ _, ?_⟩
  intro hbe
  rw [h1, h2, h3, h4]
  simp [hbe _ _ _ _]

/-- The example backend that stores its options does store them. -/
theorem exampleStoringBackend_stores_options : exampleStoringBackend.stores_options := by
  intro calls bzla opt val
  simp [exampleStoringBackend, last_option_set, List.foldl_append]

/-- C25, at an input: `set_opt("incremental", "1")` sets the option to 1,
reads it back and returns. -/
theorem set_opt_forwards_value_witness :
    apiCalls (BzlaSolver.set_opt exampleStoringBackend { d_solver := 1 } "incremental"
        (toString 1)).2.log
      = [BzlaCall.set_option 1 BitwuzlaOption.INCREMENTAL 1,
          BzlaCall.get_option 1 BitwuzlaOption.INCREMENTAL]
    ∧ (BzlaSolver.set_opt exampleStoringBackend { d_solver := 1 } "incremental"
        (toString 1)).1 = .ok () :=
  ⟨(set_opt_forwards_value exampleStoringBackend { d_solver := 1 } 1 (by decide)).2.2.2.1,
    ((set_opt_forwards_value exampleStoringBackend { d_solver := 1 } 1 (by decide)).2.2.2.2
      exampleStoringBackend_stores_options).2.2.2⟩

/-- What `mk_special_value` adds to the log for a sort of kind BV, FP or RM
and a value of that kind: the one constructor call of its case. -/
theorem mk_special_value_log (be : Backend) (s : BzlaSolver) (self : BzlaSort)
    (value : SpecialValueKind) (check : Bool) (pick : Choice) (coin : Bool) (draw : Nat)
    (c : BzlaCall)
    (h : (self.d_kind = SortKind.SORT_BV
          ∧ mk_special_value_bv_call s.d_solver self.d_sort value = .ok c)
      ∨ (self.d_kind = SortKind.SORT_FP
          ∧ mk_special_value_fp_call s.d_solver self.d_sort value = .ok c)
      ∨ (self.d_kind = SortKind.SORT_RM ∧ mk_special_value_rm_call s.d_solver value = .ok c)) :
    apiCalls (s.mk_special_value be (some (.bzla self)) value check pick coin draw).2.log
      = apiCalls s.log ++ [c] := by
  have hcalls : apiCalls (s.log ++ [Event.api c]) = apiCalls s.log ++ [c] := by
    simpa using apiCalls_append_api s.log [c]
  rcases h with ⟨hk, hc⟩ | ⟨hk, hc⟩ | ⟨hk, hc⟩
  · simp only [BzlaSolver.mk_special_value, dynamic_cast_BzlaSort, hk, hc, BzlaSolver.call]
    repeat' split
    all_goals simp only [(wrap_term_frame _ _).2, hcalls]
  · simp only [BzlaSolver.mk_special_value, dynamic_cast_BzlaSort, hk, hc, BzlaSolver.call]
    simp only [(wrap_term_frame _ _).2, hcalls]
  · simp only [BzlaSolver.mk_special_value, dynamic_cast_BzlaSort, hk, hc, BzlaSolver.call]
    simp only [(wrap_term_frame _ _).2, hcalls]

/-- When the case of `mk_special_value` for the kind of the sort rejects the
value, no call is made. -/
theorem mk_special_value_no_call (be : Backend) (s : BzlaSolver) (self : BzlaSort)
    (value : SpecialValueKind) (check : Bool) (pick : Choice) (coin : Bool) (draw : Nat)
    (e : Error)
    (h : (self.d_kind = SortKind.SORT_BV
          ∧ mk_special_value_bv_call s.d_solver self.d_sort value = .error e)
      ∨ (self.d_kind = SortKind.SORT_FP
          ∧ mk_special_value_fp_call s.d_solver self.d_sort value = .error e)
      ∨ (self.d_kind = SortKind.SORT_RM
          ∧ mk_special_value_rm_call s.d_solver value = .error e)) :
    (s.mk_special_value be (some (.bzla self)) value check pick coin draw).2 = s := by
  rcases h with ⟨hk, hc⟩ | ⟨hk, hc⟩ | ⟨hk, hc⟩ <;>
    simp only [BzlaSolver.mk_special_value, dynamic_cast_BzlaSort, hk, hc]

/-- The constructor call of a case of `mk_special_value` determines the value. -/
theorem special_value_call_injective (bzla sort : Ptr) (v1 v2 : SpecialValueKind)
    (c : BzlaCall) :
    (mk_special_value_bv_call bzla sort v1 = .ok c →
      mk_special_value_bv_call bzla sort v2 = .ok c → v1 = v2)
    ∧ (mk_special_value_fp_call bzla sort v1 = .ok c →
      mk_special_value_fp_call bzla sort v2 = .ok c → v1 = v2)
    ∧ (mk_special_value_rm_call bzla v1 = .ok c →
      mk_special_value_rm_call bzla v2 = .ok c → v1 = v2) := by
  refine ⟨?_, ?_, ?_⟩
  · intro h1 h2
    cases v1 <;> simp [mk_special_value_bv_call] at h1 <;> subst h1 <;>
      cases v2 <;> simp [mk_special_value_bv_call] at h2 ⊢
  · intro h1 h2
    cases v1 <;> simp [mk_special_value_fp_call] at h1 <;> subst h1 <;>
      cases v2 <;> simp [mk_special_value_fp_call] at h2 ⊢
  · intro h1 h2
    cases v1 <;> simp [mk_special_value_rm_call] at h1 <;> subst h1 <;>
      cases v2 <;> simp [mk_special_value_rm_call] at h2 ⊢

/-- C27. `mk_special_value` dispatches each valid pair of a sort kind and a
special value kind to the constructor of the same name. For a sort of kind BV
the five bit-vector kinds, for a sort of kind FP the five floating-point kinds
and for a sort of kind RM the five rounding modes each add exactly one call to
the log of the solver, the call of their namesake constructor
(`bitwuzla_mk_rm_value` with the rounding mode of the name for RM), whatever
the consistency check on the value built does afterwards; and two different
kinds of one sort kind lead to different calls. -/
theorem mk_special_value_calls_namesake (be : Backend) (s : BzlaSolver) (bzla sort id : Nat)
    (check : Bool) (pick : Choice) (coin : Bool) (draw : Nat) :
    (∀ p ∈ [(SpecialValueKind.SPECIAL_VALUE_BV_ZERO, BzlaCall.mk_bv_zero),
          (SpecialValueKind.SPECIAL_VALUE_BV_ONE, BzlaCall.mk_bv_one),
          (SpecialValueKind.SPECIAL_VALUE_BV_ONES, BzlaCall.mk_bv_ones),
          (SpecialValueKind.SPECIAL_VALUE_BV_MIN_SIGNED, BzlaCall.mk_bv_min_signed),
          (SpecialValueKind.SPECIAL_VALUE_BV_MAX_SIGNED, BzlaCall.mk_bv_max_signed)],
        apiCalls (s.mk_special_value be
            (some (.bzla { d_solver := bzla, d_sort := sort, d_id := id, d_kind := .SORT_BV }))
            p.1 check pick coin draw).2.log
          = apiCalls s.log ++ [p.2 s.d_solver sort])
    ∧ (∀ p ∈ [(SpecialValueKind.SPECIAL_VALUE_FP_POS_INF, BzlaCall.mk_fp_pos_inf),
          (SpecialValueKind.SPECIAL_VALUE_FP_NEG_INF, BzlaCall.mk_fp_neg_inf),
          (SpecialValueKind.SPECIAL_VALUE_FP_POS_ZERO, BzlaCall.mk_fp_pos_zero),
          (SpecialValueKind.SPECIAL_VALUE_FP_NEG_ZERO, BzlaCall.mk_fp_neg_zero),
          (SpecialValueKind.SPECIAL_VALUE_FP_NAN, BzlaCall.mk_fp_nan)],
        apiCalls (s.mk_special_value be
            (some (.bzla { d_solver := bzla, d_sort := sort, d_id := id, d_kind := .SORT_FP }))
            p.1 check pick coin draw).2.log
          = apiCalls s.log ++ [p.2 s.d_solver sort])
    ∧ (∀ p ∈ [(SpecialValueKind.SPECIAL_VALUE_RM_RNA, BitwuzlaRoundingMode.BITWUZLA_RM_RNA),
          (SpecialValueKind.SPECIAL_VALUE_RM_RNE, BitwuzlaRoundingMode.BITWUZLA_RM_RNE),
          (SpecialValueKind.SPECIAL_VALUE_RM_RTN, BitwuzlaRoundingMode.BITWUZLA_RM_RTN),
          (SpecialValueKind.SPECIAL_VALUE_RM_RTP, BitwuzlaRoundingMode.BITWUZLA_RM_RTP),
          (SpecialValueKind.SPECIAL_VALUE_RM_RTZ, BitwuzlaRoundingMode.BITWUZLA_RM_RTZ)],
        apiCalls (s.mk_special_value be
            (some (.bzla { d_solver := bzla, d_sort := sort, d_id := id, d_kind := .SORT_RM }))
            p.1 check pick coin draw).2.log
          = apiCalls s.log ++ [BzlaCall.mk_rm_value s.d_solver p.2])
    ∧ (∀ kind ∈ [SortKind.SORT_BV, SortKind.SORT_FP, SortKind.SORT_RM],
        ∀ (v1 v2 : SpecialValueKind) (c1 c2 : BzlaCall), v1 ≠ v2 →
        apiCalls (s.mk_special_value be
            (some (.bzla { d_solver := bzla, d_sort := sort, d_id := id, d_kind := kind }))
            v1 check pick coin draw).2.log = apiCalls s.log ++ [c1] →
        apiCalls (s.mk_special_value be
            (some (.bzla { d_solver := bzla, d_sort := sort, d_id := id, d_kind := kind }))
            v2 check pick coin draw).2.log = apiCalls s.log ++ [c2] →
        c1 ≠ c2) := by
  refine ⟨?_, ?_, ?_, ?_⟩
  · intro p hp
    simp only [List.mem_cons, List.mem_singleton, List.not_mem_nil, or_false] at hp
    rcases hp with h | h | h | h | h <;> subst h <;>
      exact mk_special_value_log be s _ _ check pick coin draw _ (Or.inl ⟨rfl, rfl⟩)
  · intro p hp
    simp only [List.mem_cons, List.mem_singleton, List.not_mem_nil, or_false] at hp
    rcases hp with h | h | h | h | h <;> subst h <;>
      exact mk_special_value_log be s _ _ check pick coin draw _ (Or.inr (Or.inl ⟨rfl, rfl⟩))
  · intro p hp
    simp only [List.mem_cons, List.mem_singleton, List.not_mem_nil, or_false] at hp
    rcases hp with h | h | h | h | h <;> subst h <;>
      exact mk_special_value_log be s _ _ check pick coin draw _ (Or.inr (Or.inr ⟨rfl, rfl⟩))
  · intro kind hkind v1 v2 c1 c2 hne h1 h2 hc
    subst hc
    have hcall : ∀ (v : SpecialValueKind) (c : BzlaCall),
        apiCalls (s.mk_special_value be
            (some (.bzla { d_solver := bzla, d_sort := sort, d_id := id, d_kind := kind }))
            v check pick coin draw).2.log = apiCalls s.log ++ [c] →
        (kind = SortKind.SORT_BV ∧ mk_special_value_bv_call s.d_solver sort v = .ok c)
        ∨ (kind = SortKind.SORT_FP ∧ mk_special_value_fp_call s.d_solver sort v = .ok c)
        ∨ (kind = SortKind.SORT_RM ∧ mk_special_value_rm_call s.d_solver v = .ok c) := by
      intro v c hlog
      simp only [List.mem_cons, List.mem_singleton, List.not_mem_nil, or_false] at hkind
      rcases hkind with hk | hk | hk
      · refine Or.inl ⟨hk, ?_⟩
        cases hv : mk_special_value_bv_call s.d_solver sort v with
        | error e =>
          rw [mk_special_value_no_call be s _ v check pick coin draw e (Or.inl ⟨hk, hv⟩)] at hlog
          simp at hlog
        | ok c0 =>
          rw [mk_special_value_log be s _ v check pick coin draw c0 (Or.inl ⟨hk, hv⟩)] at hlog
          simpa using hlog
      · refine Or.inr (Or.inl ⟨hk, ?_⟩)
        cases hv : mk_special_value_fp_call s.d_solver sort v with
        | error e =>
          rw [mk_special_value_no_call be s _ v check pick coin draw e
            (Or.inr (Or.inl ⟨hk, hv⟩))] at hlog
          simp at hlog
        | ok c0 =>
          rw [mk_special_value_log be s _ v check pick coin draw c0
            (Or.inr (Or.inl ⟨hk, hv⟩))] at hlog
          simpa using hlog
      · refine Or.inr (Or.inr ⟨hk, ?_⟩)
        cases hv : mk_special_value_rm_call s.d_solver v with
        | error e =>
          rw [mk_special_value_no_call be s _ v check pick coin draw e
            (Or.inr (Or.inr ⟨hk, hv⟩))] at hlog
          simp at hlog
        | ok c0 =>
          rw [mk_special_value_log be s _ v check pick coin draw c0
            (Or.inr (Or.inr ⟨hk, hv⟩))] at hlog
          simpa using hlog
    have hinj := special_value_call_injective s.d_solver sort v1 v2 c1
    rcases hcall v1 c1 h1 with ⟨hk1, hv1⟩ | ⟨hk1, hv1⟩ | ⟨hk1, hv1⟩ <;>
      rcases hcall v2 c1 h2 with ⟨hk2, hv2⟩ | ⟨hk2, hv2⟩ | ⟨hk2, hv2⟩
    all_goals first
      | exact hne (hinj.1 hv1 hv2)
      | exact hne (hinj.2.1 hv1 hv2)
      | exact hne (hinj.2.2 hv1 hv2)
      | (rw [hk1] at hk2; exact absurd hk2 (by decide))

/-- C27, at an input: on a bit-vector sort the kind `SPECIAL_VALUE_BV_ONES`
leads to the one call `bitwuzla_mk_bv_ones`. -/
theorem mk_special_value_calls_namesake_witness :
    apiCalls (BzlaSolver.mk_special_value exampleBackend { d_solver := 1 }
        (some (.bzla { d_solver := 1, d_sort := 7, d_id := 0, d_kind := .SORT_BV }))
        .SPECIAL_VALUE_BV_ONES false .FIRST false 0).2.log
      = [BzlaCall.mk_bv_ones 1 7] :=
  (mk_special_value_calls_namesake exampleBackend { d_solver := 1 } 1 7 0 false .FIRST false
    0).1 (SpecialValueKind.SPECIAL_VALUE_BV_ONES, BzlaCall.mk_bv_ones) (by simp)

/-- C28. `BzlaSort::is_bool` holds exactly when the wrapped handle is the
handle that `bitwuzla_mk_bool_sort` returns for the solver of the sort and the
recorded kind is `SORT_BOOL`. A sort whose recorded kind is `SORT_BV` is not
Boolean even when its handle is that Boolean sort; a freshly wrapped sort has
the kind `SORT_ANY` and is not Boolean, and once its kind is set to
`SORT_BOOL` it is Boolean exactly when its handle is the Boolean sort.
`is_int`, `is_real`, `is_string` and `is_reglan` are false for every Bitwuzla
sort. -/
theorem is_bool_needs_handle_and_kind (be : Backend) (calls : List BzlaCall) (self : BzlaSort)
    (bzla sort id : Nat) :
    (self.is_bool be calls = true
      ↔ be.ret calls (BzlaCall.mk_bool_sort self.d_solver) = self.d_sort
        ∧ self.d_kind = SortKind.SORT_BOOL)
    ∧ BzlaSort.is_bool be calls
        { d_solver := bzla, d_sort := be.ret calls (BzlaCall.mk_bool_sort bzla), d_id := id,
          d_kind := SortKind.SORT_BV } = false
    ∧ BzlaSort.is_bool be calls
        { d_solver := bzla, d_sort := be.ret calls (BzlaCall.mk_bool_sort bzla), d_id := id,
          d_kind := SortKind.SORT_BOOL } = true
    ∧ (self.set_kind SortKind.SORT_BV).is_bool be calls = false
    ∧ (dynamic_cast_BzlaSort (BzlaSort.wrap bzla sort)).map (fun b => b.d_kind)
        = some SortKind.SORT_ANY
    ∧ (dynamic_cast_BzlaSort (BzlaSort.wrap bzla sort)).map (fun b => b.is_bool be calls)
        = some false
    ∧ (dynamic_cast_BzlaSort (BzlaSort.wrap bzla sort)).map
          (fun b => (b.set_kind SortKind.SORT_BOOL).is_bool be calls)
        = some (be.ret calls (BzlaCall.mk_bool_sort bzla) == sort)
    ∧ self.is_int = false
    ∧ self.is_real = false
    ∧ self.is_string = false
    ∧ self.is_reglan = false := by
  refine ⟨?_, ?_, ?_, ?_, rfl, ?_, ?_, rfl, rfl, rfl, rfl⟩
  · simp [BzlaSort.is_bool]
  · simp [BzlaSort.is_bool]
  · simp [BzlaSort.is_bool]
  · simp [BzlaSort.is_bool, BzlaSort.set_kind]
  · simp [BzlaSort.is_bool, BzlaSort.wrap, dynamic_cast_BzlaSort]
  · simp [BzlaSort.is_bool, BzlaSort.wrap, dynamic_cast_BzlaSort, BzlaSort.set_kind]

end Murxla
